import Mathlib

/-!
# zkllvm-blueprint: logic-AND-flag gadget and circuit proxy

A shallow embedding of

* `include/nil/blueprint/components/algebra/fields/plonk/logic_and_flag.hpp`
* `include/nil/blueprint/blueprint/plonk/circuit_proxy.hpp`

The field `BlueprintFieldType::value_type` is an arbitrary Mathlib `Field F` with decidable
equality: `is_zero()` is `t = 0` and `inversed()` is `t⁻¹`.  Row and column indices are natural
numbers, a row rotation is an integer; the row sum that `generate_circuit` computes in
`std::uint32_t` for `enable_selector` is reduced modulo 2^32, the row arithmetic in
`std::size_t` is not reduced.  Containers the two headers only use (the base `circuit`,
the `assignment` table, `plonk_variable`, constraint expressions) are not part of the two
headers; they are modelled from the specification and marked as such.
-/

namespace nil.blueprint

/-! ## Variables and constraint expressions -/

/-- Column kind of a variable, `plonk_variable::column_type`. -/
inductive column_type where
  | witness
  | public_input
  | constant
  | selector
  deriving DecidableEq

/-- Modelled from the spec: the `plonk_variable` type is not in the two headers.  A variable is
(column index, row offset, relative-or-absolute flag, column kind). -/
structure var where
  index : Nat
  rotation : Int
  relative : Bool
  type : column_type
  deriving DecidableEq

/-- The call `var(index, rotation)`: the constructor's defaults are `relative = true` and
`column_type::witness`. -/
def var.rel (index : Nat) (rotation : Int) : var :=
  { index := index, rotation := rotation, relative := true, type := column_type.witness }

/-- The call `var(index, row, false)`: an absolute witness variable. -/
def var.abs (index : Nat) (row : Int) : var :=
  { index := index, rotation := row, relative := false, type := column_type.witness }

/-- Modelled from the spec: a constraint is a polynomial expression over variables (addition,
subtraction, multiplication, scalar constants); the expression type is not in the two headers. -/
inductive expr (F : Type) where
  | const : F → expr F
  | v : var → expr F
  | add : expr F → expr F → expr F
  | sub : expr F → expr F → expr F
  | mul : expr F → expr F → expr F
  deriving DecidableEq

/-- The type `plonk_constraint<BlueprintFieldType>`. -/
abbrev plonk_constraint (F : Type) : Type := expr F

/-- Modelled from the spec: a lookup constraint (table id and lookup inputs); the type
`plonk_lookup_constraint` is not in the two headers. -/
structure plonk_lookup_constraint (F : Type) where
  table_id : Nat
  lookup_input : List (expr F)

/-- Modelled from the spec: a lookup table definition (name and rows); the type
`lookup_table_definition` is not in the two headers. -/
structure lookup_table_definition (F : Type) where
  table_name : String
  rows : List (List F)

/-- Modelled from the spec: a gate is (selector_index, ordered list of constraints). -/
structure plonk_gate (F : Type) where
  selector_index : Nat
  constraints : List (plonk_constraint F)

/-- Modelled from the spec: a lookup gate, the analogous structure for lookup constraints. -/
structure plonk_lookup_gate (F : Type) where
  tag_index : Nat
  constraints : List (plonk_lookup_constraint F)

/-- A copy constraint: a pair of variables asserted equal. -/
abbrev plonk_copy_constraint : Type := var × var

/-! ## The assignment table -/

/-- Modelled from the spec: the assignment table is not in the two headers.  It stores witness,
public-input and constant values by (column, row), the structural selector cache
(`selector_map`, keyed by the gadget shape), the selector allocator counter and the selector
activations; `enabled` lists the (selector, row) pairs in the order `enable_selector` was
called. -/
structure assignment (F : Type) where
  witness : Nat → Nat → F
  public_input : Nat → Nat → F
  constant : Nat → Nat → F
  selector_map : List (Nat × Nat)
  next_selector_index : Nat
  enabled : List (Nat × Nat)

variable {F : Type}

/-- The write `assignment.witness(col, row) = val`. -/
def assignment.set_witness [DecidableEq F] (a : assignment F) (col row : Nat) (val : F) :
    assignment F :=
  { a with witness := fun c r => if c = col ∧ r = row then val else a.witness c r }

/-- Modelled from the spec: the selector column value, one on the rows where the selector was
enabled and zero elsewhere. -/
def assignment.selector [Field F] (a : assignment F) (selector_index row : Nat) : F :=
  if (selector_index, row) ∈ a.enabled then 1 else 0

/-- Modelled from the spec: `var_value(assignment, var)` reads the field value a variable refers
to; the row of the cell is the variable's rotation. -/
def var_value (a : assignment F) (x : var) : F :=
  match x.type with
  | column_type.witness => a.witness x.index x.rotation.toNat
  | column_type.public_input => a.public_input x.index x.rotation.toNat
  | _ => a.constant x.index x.rotation.toNat

/-- Modelled from the spec: the row a variable addresses when a gate is evaluated on row
`row`: a relative variable is `row + rotation`, an absolute one its own row. -/
def var.resolve (x : var) (row : Nat) : Nat :=
  if x.relative then ((row : Int) + x.rotation).toNat else x.rotation.toNat

/-- Modelled from the spec: the value of a variable inside a constraint evaluated on `row`. -/
def var.eval [Field F] (a : assignment F) (row : Nat) (x : var) : F :=
  match x.type with
  | column_type.witness => a.witness x.index (x.resolve row)
  | column_type.public_input => a.public_input x.index (x.resolve row)
  | column_type.constant => a.constant x.index (x.resolve row)
  | column_type.selector => a.selector x.index (x.resolve row)

/-- Modelled from the spec: the value of a constraint polynomial on row `row`. -/
def expr.eval [Field F] (a : assignment F) (row : Nat) : expr F → F
  | expr.const c => c
  | expr.v x => x.eval a row
  | expr.add e1 e2 => e1.eval a row + e2.eval a row
  | expr.sub e1 e2 => e1.eval a row - e2.eval a row
  | expr.mul e1 e2 => e1.eval a row * e2.eval a row

/-! ## The base circuit (ConstraintSystem) -/

/-- Modelled from the spec: the base `circuit` class is not in the two headers.  It owns the
lists of gates, copy constraints, lookup gates and lookup tables, the registry of reserved table
names and the selector allocator counter. -/
structure circuit (F : Type) where
  gates : List (plonk_gate F)
  copy_constraints : List plonk_copy_constraint
  lookup_gates : List (plonk_lookup_gate F)
  lookup_tables : List (lookup_table_definition F)
  reserved_indices : List (String × Nat)
  reserved_tables : List (String × lookup_table_definition F)
  next_selector_index : Nat

/-- Modelled from the spec: `bp.add_constraint(e)` turns an expression into a constraint. -/
def circuit.add_constraint (_bp : circuit F) (e : expr F) : plonk_constraint F := e

/-- Modelled from the spec: the two-argument `bp.add_gate(selector_index, constraints)` stores
the gate (selector_index, constraints) at the end of the append-only gate list. -/
def circuit.add_gate_at (bp : circuit F) (selector_index : Nat)
    (constraints : List (plonk_constraint F)) : circuit F :=
  { bp with gates := bp.gates ++ [{ selector_index := selector_index, constraints := constraints }] }

/-- Modelled from the spec: `add_copy_constraint(pair)` appends to the copy-constraint list. -/
def circuit.add_copy_constraint (bp : circuit F) (c : plonk_copy_constraint) : circuit F :=
  { bp with copy_constraints := bp.copy_constraints ++ [c] }

/-! ## The logic-AND-flag component -/

/-- The component `logic_and_flag<ArithmetizationType, WitnessesAmount>`: the template parameter
`WitnessesAmount` and the witness columns `W(0), W(1), ...` it is bound to. -/
structure logic_and_flag where
  WitnessesAmount : Nat
  W : Nat → Nat

/-- The member `gates_amount = 1`. -/
def logic_and_flag.gates_amount (_component : logic_and_flag) : Nat := 1

/-- The member `rows_amount = 6 / WitnessesAmount` (unsigned integer division). -/
def logic_and_flag.rows_amount (component : logic_and_flag) : Nat :=
  6 / component.WitnessesAmount

/-- The struct `input_type`. -/
structure input_type where
  x : var
  y : var
  deriving DecidableEq

/-- The struct `result_type`. -/
structure result_type where
  output : var
  deriving DecidableEq

/-- The constructor `result_type(component, start_row_index)`. -/
def result_type.of (component : logic_and_flag) (start_row_index : Nat) : result_type :=
  { output := var.rel (component.W (component.WitnessesAmount - 1))
      (((start_row_index + component.rows_amount : Nat) : Int) - 1) }

/-- The six packed values `t[0..5]` computed by `generate_assignments` from the two input
values. -/
def packed_values [Field F] [DecidableEq F] (x y : F) : List F :=
  let t0 := x
  let t1 := y
  let t2 := t0 * t1
  let t3 := if t2 = 0 then t2 else t2⁻¹
  let t4 := t3 - t2
  let t5 := t3 * t2
  [t0, t1, t2, t3, t4, t5]

/-- The double loop of `generate_assignments`: cell `(W(j), row + i)` receives
`t[i * witness_amount + j]`; reading `t` outside its six elements has no value. -/
def fill_rows [DecidableEq F] (component : logic_and_flag) (t : List F) (row : Nat)
    (a : assignment F) : Option (assignment F) :=
  (List.range component.rows_amount).foldlM
    (fun acc i =>
      (List.range component.WitnessesAmount).foldlM
        (fun acc2 j =>
          (t.get? (i * component.WitnessesAmount + j)).map
            (fun val => acc2.set_witness (component.W j) (row + i) val))
        acc)
    a

/-- The function `generate_assignments`.  It has no value when `rows_amount` divides by zero
(`WitnessesAmount = 0`), when the unused `offset = 6 / rows_amount - 1` divides by zero, or
when the loop reads `t` out of range. -/
def generate_assignments [Field F] [DecidableEq F] (component : logic_and_flag)
    (a : assignment F) (instance_input : input_type) (start_row_index : Nat) :
    Option (result_type × assignment F) :=
  if component.WitnessesAmount = 0 then none
  else if component.rows_amount = 0 then none
  else
    let row := start_row_index
    let witness_amount := component.WitnessesAmount
    let t := packed_values (var_value a instance_input.x) (var_value a instance_input.y)
    match fill_rows component t row a with
    | none => none
    | some a1 =>
      match t.get? 5 with
      | none => none
      | some t5 =>
        some (result_type.of component start_row_index,
          a1.set_witness (component.W (witness_amount - 1))
            (row + component.rows_amount - 1) t5)

/-- The specialisation of `generate_gates` for `WitnessesAmount = 2`. -/
def generate_gates_2 [Field F] (component : logic_and_flag) (bp : circuit F)
    (_assignment : assignment F) (_instance_input : input_type) (first_selector_index : Nat) :
    circuit F :=
  let W := component.W
  let constraint_1 := bp.add_constraint
    (expr.sub (expr.v (var.rel (W 0) 0))
      (expr.mul (expr.v (var.rel (W 0) (-1))) (expr.v (var.rel (W 1) (-1)))))
  let constraint_2 := bp.add_constraint
    (expr.mul (expr.v (var.rel (W 1) 1)) (expr.sub (expr.v (var.rel (W 1) 1)) (expr.const 1)))
  let constraint_3 := bp.add_constraint
    (expr.sub (expr.v (var.rel (W 1) 1))
      (expr.mul (expr.v (var.rel (W 0) 0)) (expr.v (var.rel (W 1) 0))))
  let constraint_4 := bp.add_constraint
    (expr.sub (expr.v (var.rel (W 0) 1))
      (expr.sub (expr.v (var.rel (W 1) 0)) (expr.v (var.rel (W 0) 0))))
  let constraint_5 := bp.add_constraint
    (expr.mul (expr.v (var.rel (W 0) 1)) (expr.sub (expr.v (var.rel (W 1) 1)) (expr.const 1)))
  bp.add_gate_at first_selector_index
    [constraint_1, constraint_2, constraint_3, constraint_4, constraint_5]

/-- The specialisation of `generate_gates` for `WitnessesAmount = 3`. -/
def generate_gates_3 [Field F] (component : logic_and_flag) (bp : circuit F)
    (_assignment : assignment F) (_instance_input : input_type) (first_selector_index : Nat) :
    circuit F :=
  let W := component.W
  let constraint_1 := bp.add_constraint
    (expr.sub (expr.v (var.rel (W 2) 0))
      (expr.mul (expr.v (var.rel (W 0) 0)) (expr.v (var.rel (W 1) 0))))
  let constraint_2 := bp.add_constraint
    (expr.mul (expr.v (var.rel (W 2) 1)) (expr.sub (expr.v (var.rel (W 2) 1)) (expr.const 1)))
  let constraint_3 := bp.add_constraint
    (expr.sub (expr.v (var.rel (W 2) 1))
      (expr.mul (expr.v (var.rel (W 0) 1)) (expr.v (var.rel (W 2) 0))))
  let constraint_4 := bp.add_constraint
    (expr.sub (expr.v (var.rel (W 1) 1))
      (expr.sub (expr.v (var.rel (W 0) 1)) (expr.v (var.rel (W 2) 0))))
  let constraint_5 := bp.add_constraint
    (expr.mul (expr.v (var.rel (W 1) 1)) (expr.sub (expr.v (var.rel (W 2) 1)) (expr.const 1)))
  bp.add_gate_at first_selector_index
    [constraint_1, constraint_2, constraint_3, constraint_4, constraint_5]

/-- The specialisation of `generate_gates` for `WitnessesAmount = 5`. -/
def generate_gates_5 [Field F] (component : logic_and_flag) (bp : circuit F)
    (_assignment : assignment F) (_instance_input : input_type) (first_selector_index : Nat) :
    circuit F :=
  let W := component.W
  let constraint_1 := bp.add_constraint
    (expr.sub (expr.v (var.rel (W 2) 0))
      (expr.mul (expr.v (var.rel (W 0) 0)) (expr.v (var.rel (W 1) 0))))
  let constraint_2 := bp.add_constraint
    (expr.mul (expr.v (var.rel (W 4) 0)) (expr.sub (expr.v (var.rel (W 4) 0)) (expr.const 1)))
  let constraint_3 := bp.add_constraint
    (expr.sub (expr.v (var.rel (W 4) 0))
      (expr.mul (expr.v (var.rel (W 2) 0)) (expr.v (var.rel (W 3) 0))))
  let constraint_4 := bp.add_constraint
    (expr.mul (expr.sub (expr.v (var.rel (W 3) 0)) (expr.v (var.rel (W 2) 0)))
      (expr.sub (expr.v (var.rel (W 4) 0)) (expr.const 1)))
  bp.add_gate_at first_selector_index [constraint_1, constraint_2, constraint_3, constraint_4]

/-- Overload resolution of `generate_gates`: a specialisation exists for the widths 2, 3 and 5
only; for any other width the call has no definition. -/
def generate_gates [Field F] (component : logic_and_flag) (bp : circuit F)
    (a : assignment F) (instance_input : input_type) (first_selector_index : Nat) :
    Option (circuit F) :=
  match component.WitnessesAmount with
  | 2 => some (generate_gates_2 component bp a instance_input first_selector_index)
  | 3 => some (generate_gates_3 component bp a instance_input first_selector_index)
  | 5 => some (generate_gates_5 component bp a instance_input first_selector_index)
  | _ => none

/-- The function `generate_copy_constraints`. -/
def generate_copy_constraints (component : logic_and_flag) (bp : circuit F)
    (_assignment : assignment F) (instance_input : input_type) (start_row_index : Nat) :
    circuit F :=
  let row := start_row_index
  let bp1 := bp.add_copy_constraint (var.abs (component.W 0) row, instance_input.x)
  bp1.add_copy_constraint (var.abs (component.W 1) row, instance_input.y)

/-- Modelled from the spec: the key of the structural selector cache is the gadget's shape
(component type and width), not its instantiation row or columns. -/
def get_component_id (component : logic_and_flag) : Nat := component.WitnessesAmount

/-- Modelled from the spec: `assignment.find_selector(component)`; `none` stands for
`selectors_end()`. -/
def assignment.find_selector (a : assignment F) (component : logic_and_flag) : Option Nat :=
  a.selector_map.lookup (get_component_id component)

/-- Modelled from the spec: `assignment.allocate_selector(component, selectors_amount)` takes the
next free selector index, records it in the cache under the gadget shape and advances the
allocator counter. -/
def assignment.allocate_selector (a : assignment F) (component : logic_and_flag)
    (selectors_amount : Nat) : Nat × assignment F :=
  (a.next_selector_index,
    { a with
      selector_map := a.selector_map ++ [(get_component_id component, a.next_selector_index)]
      next_selector_index := a.next_selector_index + selectors_amount })

/-- Modelled from the spec: `assignment.enable_selector(selector_index, row)` turns the selector
on at one row. -/
def assignment.enable_selector (a : assignment F) (selector_index row : Nat) : assignment F :=
  { a with enabled := a.enabled ++ [(selector_index, row)] }

/-- The row on which `generate_circuit` enables the selector:
`start_row_index + (WitnessesAmount == 2 ? 1 : 0)`.  The parameter `start_row_index` is a
`std::uint32_t` and the conditional an `int`, so the sum is computed in 32-bit unsigned
arithmetic and wraps modulo 2^32. -/
def selector_row (component : logic_and_flag) (start_row_index : Nat) : Nat :=
  (start_row_index + (if component.WitnessesAmount = 2 then 1 else 0)) % 2 ^ 32

/-- Whether overload resolution finds a specialisation of `generate_gates` for the component's
width: one exists for the widths 2, 3 and 5 only. -/
def has_generate_gates (component : logic_and_flag) : Bool :=
  component.WitnessesAmount == 2 || component.WitnessesAmount == 3 ||
    component.WitnessesAmount == 5

/-- The function `generate_circuit`.  Its body calls `generate_gates`, so the template has an
instance, and the call a value, for the widths 2, 3 and 5 only. -/
def generate_circuit [Field F] (component : logic_and_flag) (bp : circuit F)
    (a : assignment F) (instance_input : input_type) (start_row_index : Nat) :
    Option (result_type × circuit F × assignment F) :=
  if has_generate_gates component = false then none
  else
    let found : Option (Nat × circuit F × assignment F) :=
      match a.find_selector component with
      | none =>
        let alloc := a.allocate_selector component component.gates_amount
        (generate_gates component bp alloc.2 instance_input alloc.1).map
          (fun bp1 => (alloc.1, bp1, alloc.2))
      | some first_selector_index => some (first_selector_index, bp, a)
    found.map (fun s =>
      let a2 := s.2.2.enable_selector s.1 (selector_row component start_row_index)
      let bp2 := generate_copy_constraints component s.2.1 a2 instance_input start_row_index
      (result_type.of component start_row_index, bp2, a2))

/-- A sequence of `generate_circuit` calls for one component against the same circuit and
assignment table, one call per (input, start row) of the list. -/
def generate_circuit_many [Field F] (component : logic_and_flag) :
    List (input_type × Nat) → circuit F × assignment F → Option (circuit F × assignment F)
  | [], s => some s
  | c :: cs, s =>
    match generate_circuit component s.1 s.2 c.1 c.2 with
    | none => none
    | some r => generate_circuit_many component cs (r.2.1, r.2.2)

/-- The gates added to the circuit between the states `bp` and `bp1`. -/
def emitted_gates (bp bp1 : circuit F) : List (plonk_gate F) :=
  bp1.gates.drop bp.gates.length

/-! ## The base circuit: the operations the proxy forwards to -/

/-- Modelled from the spec: `add_gate(constraints)` allocates a fresh selector index from the
allocator counter, stores the constraint list under it at the end of the gate list and returns
the index. -/
def circuit.add_gate (bp : circuit F) (args : List (plonk_constraint F)) : Nat × circuit F :=
  (bp.next_selector_index,
    { bp with
      gates := bp.gates ++ [{ selector_index := bp.next_selector_index, constraints := args }]
      next_selector_index := bp.next_selector_index + 1 })

/-- Modelled from the spec: the single-constraint overload of `add_gate`, same semantics. -/
def circuit.add_gate_single (bp : circuit F) (arg : plonk_constraint F) : Nat × circuit F :=
  bp.add_gate [arg]

/-- Modelled from the spec: the initializer-list overload of `add_gate`, same semantics. -/
def circuit.add_gate_init (bp : circuit F) (args : List (plonk_constraint F)) :
    Nat × circuit F :=
  bp.add_gate args

/-- Modelled from the spec: `add_lookup_gate(lookup_constraints)`, the same pattern for lookup
constraints: a fresh selector index from the allocator counter, stored at the end of the lookup
gate list and returned. -/
def circuit.add_lookup_gate (bp : circuit F) (args : List (plonk_lookup_constraint F)) :
    Nat × circuit F :=
  (bp.next_selector_index,
    { bp with
      lookup_gates := bp.lookup_gates ++ [{ tag_index := bp.next_selector_index, constraints := args }]
      next_selector_index := bp.next_selector_index + 1 })

/-- Modelled from the spec: the single-constraint overload of `add_lookup_gate`. -/
def circuit.add_lookup_gate_single (bp : circuit F) (arg : plonk_lookup_constraint F) :
    Nat × circuit F :=
  bp.add_lookup_gate [arg]

/-- Modelled from the spec: the initializer-list overload of `add_lookup_gate`. -/
def circuit.add_lookup_gate_init (bp : circuit F) (args : List (plonk_lookup_constraint F)) :
    Nat × circuit F :=
  bp.add_lookup_gate args

/-- Modelled from the spec: `register_lookup_table(table)` stores the table definition; a name
has at most one definition. -/
def circuit.register_lookup_table (bp : circuit F) (table : lookup_table_definition F) :
    circuit F :=
  if (bp.reserved_tables.lookup table.table_name).isSome then bp
  else
    { bp with
      lookup_tables := bp.lookup_tables ++ [table]
      reserved_tables := bp.reserved_tables ++ [(table.table_name, table)] }

/-- Modelled from the spec: `reserve_table(name)` gives the name an index in the registry;
reserving a name again is idempotent. -/
def circuit.reserve_table (bp : circuit F) (name : String) : circuit F :=
  if (bp.reserved_indices.lookup name).isSome then bp
  else { bp with reserved_indices := bp.reserved_indices ++ [(name, bp.reserved_indices.length)] }

/-- Modelled from the spec: `num_gates()`, the number of gates. -/
def circuit.num_gates (bp : circuit F) : Nat := bp.gates.length

/-- Modelled from the spec: `num_lookup_gates()`, the number of lookup gates. -/
def circuit.num_lookup_gates (bp : circuit F) : Nat := bp.lookup_gates.length

/-- Modelled from the spec: `get_reserved_indices()`, the name-to-index registry. -/
def circuit.get_reserved_indices (bp : circuit F) : List (String × Nat) := bp.reserved_indices

/-- Modelled from the spec: `get_reserved_tables()`, the name-to-table registry. -/
def circuit.get_reserved_tables (bp : circuit F) :
    List (String × lookup_table_definition F) :=
  bp.reserved_tables

/-- Modelled from the spec: `get_next_selector_index()`, a read-only peek at the allocator
counter. -/
def circuit.get_next_selector_index (bp : circuit F) : Nat := bp.next_selector_index

/-- An empty circuit. -/
def circuit.empty : circuit F :=
  { gates := [], copy_constraints := [], lookup_gates := [], lookup_tables := [],
    reserved_indices := [], reserved_tables := [], next_selector_index := 0 }

/-! ## The circuit proxy

The private state of a `circuit_proxy` is its `id` and the four `std::set<std::uint32_t>` of used
indices; `circuit_ptr` points to the shared circuit, which every method below receives as the
argument `C` and, when it mutates it, returns.  Indices stay below `2^32`, so storing a `size_t`
index in a set of `std::uint32_t` keeps its value. -/

/-- The private members of `circuit_proxy` other than `circuit_ptr`. -/
structure circuit_proxy where
  id : Nat
  used_gates : Finset Nat
  used_copy_constraints : Finset Nat
  used_lookup_gates : Finset Nat
  used_lookup_tables : Finset Nat
  deriving DecidableEq

namespace circuit_proxy

/-- The constructor `circuit_proxy(circuit, _id)`: the four sets start empty. -/
def new (_id : Nat) : circuit_proxy :=
  { id := _id, used_gates := ∅, used_copy_constraints := ∅, used_lookup_gates := ∅,
    used_lookup_tables := ∅ }

/-- The method `get()`. -/
def get (_P : circuit_proxy) (C : circuit F) : circuit F := C

/-- The method `get_id()`. -/
def get_id (P : circuit_proxy) : Nat := P.id

/-- The method `get_used_gates()`. -/
def get_used_gates (P : circuit_proxy) : Finset Nat := P.used_gates

/-- The method `gates()`. -/
def gates (_P : circuit_proxy) (C : circuit F) : List (plonk_gate F) := C.gates

/-- The method `get_used_copy_constraints()`. -/
def get_used_copy_constraints (P : circuit_proxy) : Finset Nat := P.used_copy_constraints

/-- The method `copy_constraints()`. -/
def copy_constraints (_P : circuit_proxy) (C : circuit F) : List plonk_copy_constraint :=
  C.copy_constraints

/-- The method `get_used_lookup_gates()`. -/
def get_used_lookup_gates (P : circuit_proxy) : Finset Nat := P.used_lookup_gates

/-- The method `lookup_gates()`. -/
def lookup_gates (_P : circuit_proxy) (C : circuit F) : List (plonk_lookup_gate F) :=
  C.lookup_gates

/-- The method `get_used_lookup_tables()`. -/
def get_used_lookup_tables (P : circuit_proxy) : Finset Nat := P.used_lookup_tables

/-- The method `lookup_tables()`. -/
def lookup_tables (_P : circuit_proxy) (C : circuit F) : List (lookup_table_definition F) :=
  C.lookup_tables

/-- The method `num_gates()`. -/
def num_gates (_P : circuit_proxy) (C : circuit F) : Nat := C.num_gates

/-- The method `num_lookup_gates()`. -/
def num_lookup_gates (_P : circuit_proxy) (C : circuit F) : Nat := C.num_lookup_gates

/-- The overload `add_gate(const std::vector<constraint_type> &)`. -/
def add_gate (P : circuit_proxy) (C : circuit F) (args : List (plonk_constraint F)) :
    Nat × circuit_proxy × circuit F :=
  let r := C.add_gate args
  let selector_index := r.1
  (selector_index, { P with used_gates := insert selector_index P.used_gates }, r.2)

/-- The overload `add_gate(const constraint_type &)`. -/
def add_gate_single (P : circuit_proxy) (C : circuit F) (args : plonk_constraint F) :
    Nat × circuit_proxy × circuit F :=
  let r := C.add_gate_single args
  let selector_index := r.1
  (selector_index, { P with used_gates := insert selector_index P.used_gates }, r.2)

/-- The overload `add_gate(const std::initializer_list<constraint_type> &&)`. -/
def add_gate_init (P : circuit_proxy) (C : circuit F) (args : List (plonk_constraint F)) :
    Nat × circuit_proxy × circuit F :=
  let r := C.add_gate_init args
  let selector_index := r.1
  (selector_index, { P with used_gates := insert selector_index P.used_gates }, r.2)

/-- The overload `add_lookup_gate(const std::vector<lookup_constraint_type> &)`. -/
def add_lookup_gate (P : circuit_proxy) (C : circuit F)
    (args : List (plonk_lookup_constraint F)) : Nat × circuit_proxy × circuit F :=
  let r := C.add_lookup_gate args
  let selector_index := r.1
  (selector_index, { P with used_lookup_gates := insert selector_index P.used_lookup_gates }, r.2)

/-- The overload `add_lookup_gate(const lookup_constraint_type &)`. -/
def add_lookup_gate_single (P : circuit_proxy) (C : circuit F)
    (args : plonk_lookup_constraint F) : Nat × circuit_proxy × circuit F :=
  let r := C.add_lookup_gate_single args
  let selector_index := r.1
  (selector_index, { P with used_lookup_gates := insert selector_index P.used_lookup_gates }, r.2)

/-- The overload `add_lookup_gate(const std::initializer_list<lookup_constraint_type> &&)`. -/
def add_lookup_gate_init (P : circuit_proxy) (C : circuit F)
    (args : List (plonk_lookup_constraint F)) : Nat × circuit_proxy × circuit F :=
  let r := C.add_lookup_gate_init args
  let selector_index := r.1
  (selector_index, { P with used_lookup_gates := insert selector_index P.used_lookup_gates }, r.2)

/-- The method `register_lookup_table(table)`. -/
def register_lookup_table (P : circuit_proxy) (C : circuit F)
    (table : lookup_table_definition F) : circuit_proxy × circuit F :=
  (P, C.register_lookup_table table)

/-- The method `reserve_table(name)`. -/
def reserve_table (P : circuit_proxy) (C : circuit F) (name : String) :
    circuit_proxy × circuit F :=
  (P, C.reserve_table name)

/-- The method `get_reserved_indices()`. -/
def get_reserved_indices (_P : circuit_proxy) (C : circuit F) : List (String × Nat) :=
  C.get_reserved_indices

/-- The method `get_reserved_tables()`. -/
def get_reserved_tables (_P : circuit_proxy) (C : circuit F) :
    List (String × lookup_table_definition F) :=
  C.get_reserved_tables

/-- The method `add_copy_constraint(copy_constraint)`. -/
def add_copy_constraint (P : circuit_proxy) (C : circuit F) (copy_constraint : plonk_copy_constraint) :
    circuit_proxy × circuit F :=
  let C1 := C.add_copy_constraint copy_constraint
  if C1.copy_constraints.length > 0 then
    ({ P with
        used_copy_constraints := insert (C1.copy_constraints.length - 1) P.used_copy_constraints },
      C1)
  else (P, C1)

/-- The method `get_next_selector_index()`. -/
def get_next_selector_index (_P : circuit_proxy) (C : circuit F) : Nat :=
  C.get_next_selector_index

end circuit_proxy

/-! ## Calls, call sequences and several proxies over one circuit -/

/-- The read accessors of `circuit_proxy`. -/
inductive accessor where
  | get
  | get_id
  | get_used_gates
  | gates
  | get_used_copy_constraints
  | copy_constraints
  | get_used_lookup_gates
  | lookup_gates
  | get_used_lookup_tables
  | lookup_tables
  | num_gates
  | num_lookup_gates
  | get_reserved_indices
  | get_reserved_tables
  | get_next_selector_index
  deriving DecidableEq

/-- A call of a public method of the circuit interface, with its arguments. -/
inductive call (F : Type) where
  | add_gate (args : List (plonk_constraint F))
  | add_gate_single (arg : plonk_constraint F)
  | add_gate_init (args : List (plonk_constraint F))
  | add_lookup_gate (args : List (plonk_lookup_constraint F))
  | add_lookup_gate_single (arg : plonk_lookup_constraint F)
  | add_lookup_gate_init (args : List (plonk_lookup_constraint F))
  | register_lookup_table (table : lookup_table_definition F)
  | reserve_table (name : String)
  | add_copy_constraint (copy_constraint : plonk_copy_constraint)
  | export_circuit
  | read (a : accessor)

/-- Whether a call is one of the three `add_gate` overloads. -/
def call.is_add_gate : call F → Bool
  | call.add_gate _ => true
  | call.add_gate_single _ => true
  | call.add_gate_init _ => true
  | _ => false

/-- Whether a call is `add_copy_constraint`. -/
def call.is_add_copy_constraint : call F → Bool
  | call.add_copy_constraint _ => true
  | _ => false

/-- The state of the base circuit after a call made directly on it; the `const` methods
(the accessors and `export_circuit`) leave it as it is. -/
def circuit.apply (C : circuit F) : call F → circuit F
  | call.add_gate args => (C.add_gate args).2
  | call.add_gate_single arg => (C.add_gate_single arg).2
  | call.add_gate_init args => (C.add_gate_init args).2
  | call.add_lookup_gate args => (C.add_lookup_gate args).2
  | call.add_lookup_gate_single arg => (C.add_lookup_gate_single arg).2
  | call.add_lookup_gate_init args => (C.add_lookup_gate_init args).2
  | call.register_lookup_table table => C.register_lookup_table table
  | call.reserve_table name => C.reserve_table name
  | call.add_copy_constraint c => C.add_copy_constraint c
  | call.export_circuit => C
  | call.read _ => C

/-- The private state of the proxy and the state of the shared circuit after a call made
through the proxy; the `const` methods (the accessors and `export_circuit`, which writes to
its sink only) leave both as they are. -/
def circuit_proxy.apply (P : circuit_proxy) (C : circuit F) : call F → circuit_proxy × circuit F
  | call.add_gate args => (P.add_gate C args).2
  | call.add_gate_single arg => (P.add_gate_single C arg).2
  | call.add_gate_init args => (P.add_gate_init C args).2
  | call.add_lookup_gate args => (P.add_lookup_gate C args).2
  | call.add_lookup_gate_single arg => (P.add_lookup_gate_single C arg).2
  | call.add_lookup_gate_init args => (P.add_lookup_gate_init C args).2
  | call.register_lookup_table table => P.register_lookup_table C table
  | call.reserve_table name => P.reserve_table C name
  | call.add_copy_constraint c => P.add_copy_constraint C c
  | call.export_circuit => (P, C)
  | call.read _ => (P, C)

/-- A sequence of calls made through one proxy. -/
def circuit_proxy.run (P : circuit_proxy) (C : circuit F) :
    List (call F) → circuit_proxy × circuit F
  | [] => (P, C)
  | c :: cs => circuit_proxy.run (P.apply C c).1 (P.apply C c).2 cs

/-- One shared circuit and the proxies constructed over it; a proxy object is named by a
natural number. -/
structure system (F : Type) where
  C : circuit F
  proxies : Nat → circuit_proxy

/-- Where a call is made: through the proxy `h`, or directly on the shared circuit. -/
inductive event (F : Type) where
  | via (h : Nat) (c : call F)
  | direct (c : call F)

/-- The system after a call through the proxy `h`: the call runs on that proxy's private state
and on the shared circuit. -/
def system.step (s : system F) (h : Nat) (c : call F) : system F :=
  { C := ((s.proxies h).apply s.C c).2
    proxies := Function.update s.proxies h ((s.proxies h).apply s.C c).1 }

/-- The system after an event. -/
def system.next (s : system F) : event F → system F
  | event.via h c => s.step h c
  | event.direct c => { s with C := s.C.apply c }

/-- The system after a sequence of events. -/
def system.run (s : system F) : List (event F) → system F
  | [] => s
  | e :: es => system.run (s.next e) es

/-- The initial system: an empty circuit and freshly constructed proxies, proxy `h` with the
identifier `ids h`. -/
def system.init (ids : Nat → Nat) : system F :=
  { C := circuit.empty, proxies := fun h => circuit_proxy.new (ids h) }

/-! ## Predicates used in the statements -/

/-- The used gate and copy-constraint indices of a proxy are below the allocator counter and
the length of the copy-constraint list of the shared circuit. -/
def circuit_proxy.bounded (P : circuit_proxy) (C : circuit F) : Prop :=
  (∀ i ∈ P.used_gates, i < C.next_selector_index) ∧
  (∀ i ∈ P.used_copy_constraints, i < C.copy_constraints.length)

/-- A proxy call with result `r` (returned index, proxy state, circuit state) made in the proxy
state `P` returns the index and leaves the circuit as the direct call with result `d` (returned
index, circuit state) does, and records the returned index in `used_gates`. -/
def forwards_gate (P : circuit_proxy) (r : Nat × circuit_proxy × circuit F)
    (d : Nat × circuit F) : Prop :=
  r.1 = d.1 ∧ r.2.2 = d.2 ∧ r.1 ∈ r.2.1.used_gates ∧
    r.2.1.used_gates = insert r.1 P.used_gates

/-- The same for a lookup gate and `used_lookup_gates`. -/
def forwards_lookup_gate (P : circuit_proxy) (r : Nat × circuit_proxy × circuit F)
    (d : Nat × circuit F) : Prop :=
  r.1 = d.1 ∧ r.2.2 = d.2 ∧ r.1 ∈ r.2.1.used_lookup_gates ∧
    r.2.1.used_lookup_gates = insert r.1 P.used_lookup_gates

/-! ## Concrete inputs -/

/-- A component of width 2 on the columns 0 and 1. -/
def example_component_2 : logic_and_flag := { WitnessesAmount := 2, W := fun j => j }

/-- A component of width 5 on the columns 0 to 4. -/
def example_component_5 : logic_and_flag := { WitnessesAmount := 5, W := fun j => j }

/-- An assignment table over the rationals with the public inputs 2 and 3 in column 0, an
empty selector cache and no selector enabled. -/
def example_assignment : assignment ℚ :=
  { witness := fun _ _ => 0
    public_input := fun _ r => if r = 0 then 2 else 3
    constant := fun _ _ => 0
    selector_map := []
    next_selector_index := 0
    enabled := [] }

/-- The two public inputs of `example_assignment` as the gadget's inputs. -/
def example_input : input_type :=
  { x := { index := 0, rotation := 0, relative := false, type := column_type.public_input }
    y := { index := 0, rotation := 1, relative := false, type := column_type.public_input } }

/-- An assignment table over the rationals whose every row holds x = 2, y = 3, p = 6,
v = 1/6 and f = 1 in the witness columns 0 to 4. -/
def example_satisfying : assignment ℚ :=
  { witness := fun c _ =>
      if c = 0 then 2 else if c = 1 then 3 else if c = 2 then 6 else if c = 3 then 1 / 6 else 1
    public_input := fun _ _ => 0
    constant := fun _ _ => 0
    selector_map := []
    next_selector_index := 0
    enabled := [] }

/-- A gate constraint: the witness cell of column 0 on the current row. -/
def example_constraint : plonk_constraint ℚ := expr.v (var.rel 0 0)

/-- A lookup constraint on the same cell. -/
def example_lookup_constraint : plonk_lookup_constraint ℚ :=
  { table_id := 1, lookup_input := [expr.v (var.rel 0 0)] }

/-- A lookup gate added through proxy 0, then a gate added through the same proxy. -/
def example_events : List (event ℚ) :=
  [event.via 0 (call.add_lookup_gate [example_lookup_constraint]),
   event.via 0 (call.add_gate [example_constraint])]

/-! ## The layout of the gadget -/

/-- The witness columns `W(0), ..., W(WitnessesAmount - 1)` of the component are pairwise
distinct. -/
def logic_and_flag.distinct_columns (component : logic_and_flag) : Prop :=
  ∀ j k, j < component.WitnessesAmount → k < component.WitnessesAmount →
    component.W j = component.W k → j = k

/-- The value of the cell in which the row-major layout of `generate_assignments` puts the
packed value `t[k]`: column `W(k mod WitnessesAmount)`, row
`start_row + k / WitnessesAmount`. -/
def layout_value (a : assignment F) (component : logic_and_flag) (start_row k : Nat) : F :=
  a.witness (component.W (k % component.WitnessesAmount))
    (start_row + k / component.WitnessesAmount)

/-! ## The export of a proxy -/

/-- Modelled from the spec: the sink `std::ostream` of `export_circuit` is not in the two
headers; it is the text written so far and the format flags. -/
structure ostream where
  text : String
  flags : Nat
  deriving DecidableEq

/-- Modelled from the spec: the stream inserters `os << value` that `export_circuit` uses but
that are defined elsewhere.  The text of a number depends on the format flags; the inserters of
a constraint and of a variable may, besides, leave other format flags behind. -/
structure printers (F : Type) where
  put_num : Nat → Nat → String
  put_constraint : Nat → plonk_constraint F → String × Nat
  put_var : Nat → var → String × Nat

/-- The insertion `os << "literal"`. -/
def ostream.str (os : ostream) (s : String) : ostream :=
  { os with text := os.text ++ s }

/-- The insertion `os << n` of an unsigned integer. -/
def ostream.num (os : ostream) (pr : printers F) (n : Nat) : ostream :=
  os.str (pr.put_num os.flags n)

/-- The insertion `os << constraint`. -/
def ostream.constraint (os : ostream) (pr : printers F) (c : plonk_constraint F) : ostream :=
  { text := os.text ++ (pr.put_constraint os.flags c).1,
    flags := (pr.put_constraint os.flags c).2 }

/-- The insertion `os << variable`. -/
def ostream.variable_ (os : ostream) (pr : printers F) (x : var) : ostream :=
  { text := os.text ++ (pr.put_var os.flags x).1, flags := (pr.put_var os.flags x).2 }

/-- One iteration of the first loop of `export_circuit`, for the used gate index `i`; reading
`gates[i]` outside the gate list has no value. -/
def export_gate (pr : printers F) (gates : List (plonk_gate F)) (os : ostream) (i : Nat) :
    Option ostream :=
  match gates.get? i with
  | none => none
  | some g =>
    let o1 := os.num pr i
    let o2 := o1.str ": selector: "
    let o3 := o2.num pr g.selector_index
    let o4 := o3.str " constraints_size: "
    let o5 := o4.num pr g.constraints.length
    let o6 := o5.str "\n"
    some (g.constraints.foldl (fun o c => (o.constraint pr c).str "\n") o6)

/-- One iteration of the second loop of `export_circuit`, for the used copy-constraint index
`i`; reading `copy_constraints[i]` outside the list has no value. -/
def export_copy_constraint (pr : printers F) (copy_constraints : List plonk_copy_constraint)
    (os : ostream) (i : Nat) : Option ostream :=
  match copy_constraints.get? i with
  | none => none
  | some cc =>
    let o1 := os.num pr i
    let o2 := o1.str ": "
    let o3 := o2.variable_ pr cc.1
    let o4 := o3.str " "
    let o5 := o4.variable_ pr cc.2
    some (o5.str "\n")

/-- The summary line of `export_circuit`. -/
def export_summary (pr : printers F) (P : circuit_proxy) (C : circuit F) (os : ostream) :
    ostream :=
  let o1 := os.str "used_gates_size: "
  let o2 := o1.num pr P.used_gates.card
  let o3 := o2.str " "
  let o4 := o3.str "gates_size: "
  let o5 := o4.num pr C.gates.length
  let o6 := o5.str " "
  let o7 := o6.str "used_copy_constraints_size: "
  let o8 := o7.num pr P.used_copy_constraints.card
  let o9 := o8.str " "
  let o10 := o9.str "copy_constraints_size: "
  let o11 := o10.num pr C.copy_constraints.length
  let o12 := o11.str " "
  let o13 := o12.str "lookup_gates_size: "
  let o14 := o13.num pr P.used_lookup_gates.card
  o14.str "\n"

/-- The method `export_circuit(os)`: the flags are saved, the summary line and the two loops
write to the sink, and the saved flags are put back (`os.flush()` changes neither the text nor
the flags).  A `std::set` is iterated in ascending order; the inner loop over
`gates[i].constraints[j]` visits the constraints of the gate in order. -/
def circuit_proxy.export_circuit (pr : printers F) (P : circuit_proxy) (C : circuit F)
    (os : ostream) : Option ostream :=
  let os_flags := os.flags
  let gates := C.gates
  let copy_constraints := C.copy_constraints
  let os1 := export_summary pr P C os
  match (P.used_gates.sort (· ≤ ·)).foldlM (export_gate pr gates) os1 with
  | none => none
  | some os2 =>
    match (P.used_copy_constraints.sort (· ≤ ·)).foldlM
        (export_copy_constraint pr copy_constraints) os2 with
    | none => none
    | some os3 => some { os3 with flags := os_flags }

/-- The used gate and copy-constraint indices of the proxy are positions of the gate list
and of the copy-constraint list of the circuit, so that the indexing in `export_circuit` is
defined. -/
def circuit_proxy.indices_in_range (P : circuit_proxy) (C : circuit F) : Prop :=
  (∀ i ∈ P.used_gates, i < C.gates.length) ∧
  (∀ i ∈ P.used_copy_constraints, i < C.copy_constraints.length)

/-- A line of the export text as the specification describes it: the summary line with its
five counts, the header line of a used gate (index, selector index, number of constraints), a
constraint line, and the line of a used copy constraint (index and the two variables). -/
inductive report_line (F : Type) where
  | summary (a b c d e : Nat)
  | gate_header (i s n : Nat)
  | constraint (c : plonk_constraint F)
  | copy_constraint (i : Nat) (lhs rhs : var)

/-- The text of one line of the report, written to the sink; every line ends with a line
feed. -/
def render_line (pr : printers F) (os : ostream) : report_line F → ostream
  | report_line.summary a b c d e =>
    let o1 := (os.str "used_gates_size: ").num pr a
    let o2 := ((o1.str " ").str "gates_size: ").num pr b
    let o3 := ((o2.str " ").str "used_copy_constraints_size: ").num pr c
    let o4 := ((o3.str " ").str "copy_constraints_size: ").num pr d
    let o5 := ((o4.str " ").str "lookup_gates_size: ").num pr e
    o5.str "\n"
  | report_line.gate_header i s n =>
    let o1 := ((os.num pr i).str ": selector: ").num pr s
    let o2 := (o1.str " constraints_size: ").num pr n
    o2.str "\n"
  | report_line.constraint c => (os.constraint pr c).str "\n"
  | report_line.copy_constraint i x1 x2 =>
    let o1 := ((os.num pr i).str ": ").variable_ pr x1
    let o2 := (o1.str " ").variable_ pr x2
    o2.str "\n"

/-- The lines of the report for the used gate index `i`: the header line of the gate stored
at position `i`, then one line for each of its constraints. -/
def gate_report (gates : List (plonk_gate F)) (i : Nat) : List (report_line F) :=
  match gates.get? i with
  | none => []
  | some g =>
    report_line.gate_header i g.selector_index g.constraints.length ::
      g.constraints.map report_line.constraint

/-- The line of the report for the used copy-constraint index `i`. -/
def copy_constraint_report (copy_constraints : List plonk_copy_constraint) (i : Nat) :
    List (report_line F) :=
  match copy_constraints.get? i with
  | none => []
  | some cc => [report_line.copy_constraint i cc.1 cc.2]

/-- The report the specification describes: the summary line, then the lines of each used gate
in ascending order of the index, then the line of each used copy constraint in ascending order
of the index. -/
def circuit_proxy.report (P : circuit_proxy) (C : circuit F) : List (report_line F) :=
  report_line.summary P.used_gates.card C.gates.length P.used_copy_constraints.card
      C.copy_constraints.length P.used_lookup_gates.card ::
    ((P.used_gates.sort (· ≤ ·)).flatMap (gate_report C.gates) ++
      (P.used_copy_constraints.sort (· ≤ ·)).flatMap (copy_constraint_report C.copy_constraints))

/-- The gadget's inputs with `x` read from the constant column (value 0 in
`example_assignment`) and `y` from the public input (value 3). -/
def example_zero_input : input_type :=
  { x := { index := 0, rotation := 0, relative := false, type := column_type.constant }
    y := { index := 0, rotation := 1, relative := false, type := column_type.public_input } }

/-- Inserters that write numbers in decimal, a constraint as `c` and a variable as `v`
followed by its column; the constraint inserter leaves other flags behind. -/
def example_printers : printers ℚ :=
  { put_num := fun _ n => Nat.repr n
    put_constraint := fun fl _ => ("c", fl + 1)
    put_var := fun fl x => ("v" ++ Nat.repr x.index, fl) }

/-- A sink with no text and the flags 7. -/
def example_sink : ostream := { text := "", flags := 7 }

/-! ## Variables of a gate, written region, summary line -/

/-- The variables occurring in a constraint expression, from left to right. -/
def expr.vars : expr F → List var
  | expr.const _ => []
  | expr.v x => [x]
  | expr.add e1 e2 => e1.vars ++ e2.vars
  | expr.sub e1 e2 => e1.vars ++ e2.vars
  | expr.mul e1 e2 => e1.vars ++ e2.vars

/-- A variable of a gate of the component is confined to the instantiation at `start_row`: it
is a relative witness variable in one of the columns `W(0), ..., W(WitnessesAmount - 1)` with
row offset -1, 0 or +1, and on the row where `generate_circuit` enables the selector it
addresses a row from `start_row` up to, but not including, `start_row + rows_amount`. -/
def var.confined (component : logic_and_flag) (start_row : Nat) (x : var) : Prop :=
  x.relative = true ∧ x.type = column_type.witness ∧
  (∃ j, j < component.WitnessesAmount ∧ x.index = component.W j) ∧
  (x.rotation = -1 ∨ x.rotation = 0 ∨ x.rotation = 1) ∧
  start_row ≤ x.resolve (selector_row component start_row) ∧
  x.resolve (selector_row component start_row) < start_row + component.rows_amount

/-- The cell `(col, row)` is one of the witness cells `(W(j), start_row + i)` with
`i < rows_amount` and `j < WitnessesAmount` of the instantiation at `start_row`. -/
def logic_and_flag.in_region (component : logic_and_flag) (start_row col row : Nat) : Prop :=
  ∃ i j, i < component.rows_amount ∧ j < component.WitnessesAmount ∧
    col = component.W j ∧ row = start_row + i

/-- The table `a1` differs from the table `a` at most in the witness cells of the
instantiation of the component at `start_row`: every other witness cell, the public-input and
constant columns, the selector cache, the selector allocator and the selector activations are
the same. -/
def assignment.frame (component : logic_and_flag) (start_row : Nat) (a a1 : assignment F) :
    Prop :=
  (∀ col row, ¬ component.in_region start_row col row → a1.witness col row = a.witness col row) ∧
  a1.public_input = a.public_input ∧ a1.constant = a.constant ∧
  a1.selector_map = a.selector_map ∧ a1.next_selector_index = a.next_selector_index ∧
  a1.enabled = a.enabled

/-- A lookup gate added directly on the circuit, a gate added through proxy 0, and a gate added
directly on the circuit. -/
def example_mixed_events : List (event ℚ) :=
  [event.direct (call.add_lookup_gate [example_lookup_constraint]),
   event.via 0 (call.add_gate [example_constraint]),
   event.direct (call.add_gate [example_constraint])]

/-- Whether a call is one of the three `add_lookup_gate` overloads. -/
def call.is_add_lookup_gate : call F → Bool
  | call.add_lookup_gate _ => true
  | call.add_lookup_gate_single _ => true
  | call.add_lookup_gate_init _ => true
  | _ => false

/-- The text of the summary line as the specification gives it, with the five counts written
under the format flags `flags`. -/
def summary_text (pr : printers F) (flags a b c d e : Nat) : String :=
  "used_gates_size: " ++ pr.put_num flags a ++ " " ++ "gates_size: " ++ pr.put_num flags b ++
    " " ++ "used_copy_constraints_size: " ++ pr.put_num flags c ++ " " ++
    "copy_constraints_size: " ++ pr.put_num flags d ++ " " ++ "lookup_gates_size: " ++
    pr.put_num flags e ++ "\n"

/-- The table `example_assignment` with a selector cache that already maps the width-2 gadget
to the selector index 5. -/
def example_assignment_hit : assignment ℚ :=
  { example_assignment with selector_map := [(2, 5)], next_selector_index := 6 }

/-! ## Concrete inputs at the end of the 32-bit row range, with repeated columns, with an
input inside the written region, and with lookup gates -/

/-- The largest start row a `std::uint32_t` holds, 2^32 - 1. -/
def example_last_row : Nat := 4294967295

/-- A table whose witness cells are all zero except the cell in column 1 on row 2^32 + 1,
which holds 7; that cell is the result cell of the width-2 component at start row 2^32 - 1. -/
def example_assignment_far : assignment ℚ :=
  { example_assignment with witness := fun c r => if c = 1 ∧ r = 4294967297 then 7 else 0 }

/-- A component of width 2 whose two witness columns are both column 3. -/
def example_component_repeated : logic_and_flag := { WitnessesAmount := 2, W := fun _ => 3 }

/-- A table that holds 5 in the witness cell of column 1 on row 3 and zero in every other
witness cell, with the public inputs of `example_assignment`. -/
def example_assignment_overlap : assignment ℚ :=
  { example_assignment with witness := fun c r => if c = 1 ∧ r = 3 then 5 else 0 }

/-- The gadget's inputs with `x` the public input 2 and `y` the witness cell of column 1 on
row 3, which is a cell of the width-2 instantiation at start row 1. -/
def example_input_overlap : input_type :=
  { x := { index := 0, rotation := 0, relative := false, type := column_type.public_input }
    y := { index := 1, rotation := 3, relative := false, type := column_type.witness } }

/-- A proxy that has recorded the lookup gate 0 and nothing else. -/
def example_proxy_lookup : circuit_proxy :=
  { id := 0, used_gates := ∅, used_copy_constraints := ∅, used_lookup_gates := {0},
    used_lookup_tables := ∅ }

/-- A circuit with three lookup gates, no gate and no copy constraint. -/
def example_circuit_lookup : circuit ℚ :=
  { gates := [], copy_constraints := []
    lookup_gates :=
      [{ tag_index := 0, constraints := [example_lookup_constraint] },
       { tag_index := 1, constraints := [example_lookup_constraint] },
       { tag_index := 2, constraints := [example_lookup_constraint] }]
    lookup_tables := [], reserved_indices := [], reserved_tables := []
    next_selector_index := 3 }

/-! ## The logic-AND-flag gadget: assignments -/

theorem packed_values_flag [Field F] [DecidableEq F] (x y : F) :
    (packed_values x y).get? 5 = some (if x ≠ 0 ∧ y ≠ 0 then 1 else 0) := by
  by_cases hx : x = 0
  · simp [packed_values, hx]
  · by_cases hy : y = 0
    · simp [packed_values, hy]
    · have hxy : x * y ≠ 0 := mul_ne_zero hx hy
      simp only [packed_values, List.get?, hxy, if_false, hx, hy, ne_eq, not_false_eq_true,
        and_self, if_true, inv_mul_cancel₀]

theorem fill_rows_supported [DecidableEq F] (component : logic_and_flag)
    (hW : component.WitnessesAmount = 2 ∨ component.WitnessesAmount = 3 ∨
      component.WitnessesAmount = 5)
    (t : List F) (ht : t.length = 6) (row : Nat) (a : assignment F) :
    ∃ a1, fill_rows component t row a = some a1 := by
  match t, ht with
  | [t0, t1, t2, t3, t4, t5], _ =>
    rcases hW with h | h | h <;>
      simp [fill_rows, logic_and_flag.rows_amount, h, List.range, List.range.loop]

theorem var_value_result (component : logic_and_flag) (s : Nat) (a : assignment F) :
    var_value a (result_type.of component s).output =
      a.witness (component.W (component.WitnessesAmount - 1)) (s + component.rows_amount - 1) := by
  have h : (((s + component.rows_amount : Nat) : Int) - 1).toNat =
      s + component.rows_amount - 1 := by omega
  simp only [var_value, result_type.of, var.rel, h]

theorem generate_assignments_flag [Field F] [DecidableEq F] (component : logic_and_flag)
    (hW : component.WitnessesAmount = 2 ∨ component.WitnessesAmount = 3 ∨
      component.WitnessesAmount = 5)
    (a : assignment F) (instance_input : input_type) (start_row : Nat) :
    ∃ a1, generate_assignments component a instance_input start_row =
        some (result_type.of component start_row, a1) ∧
      a1.witness (component.W (component.WitnessesAmount - 1))
          (start_row + component.rows_amount - 1) =
        (if var_value a instance_input.x ≠ 0 ∧ var_value a instance_input.y ≠ 0
          then 1 else 0) ∧
      var_value a1 (result_type.of component start_row).output =
        (if var_value a instance_input.x ≠ 0 ∧ var_value a instance_input.y ≠ 0
          then 1 else 0) := by
  obtain ⟨a0, h1⟩ := fill_rows_supported component hW
    (packed_values (var_value a instance_input.x) (var_value a instance_input.y))
    (by simp [packed_values]) start_row a
  have h0 : component.WitnessesAmount ≠ 0 := by omega
  have hr : component.rows_amount ≠ 0 := by
    rcases hW with h | h | h <;> simp [logic_and_flag.rows_amount, h]
  refine ⟨a0.set_witness (component.W (component.WitnessesAmount - 1))
    (start_row + component.rows_amount - 1)
    (if var_value a instance_input.x ≠ 0 ∧ var_value a instance_input.y ≠ 0 then 1 else 0),
    ?_, ?_, ?_⟩
  · simp only [generate_assignments, h0, hr, if_false, h1, packed_values_flag]
  · simp [assignment.set_witness]
  · rw [var_value_result component start_row]
    simp [assignment.set_witness]

/-- Claim C1: for a supported width (2, 3 or 5), any assignment table, inputs and start row,
`generate_assignments` returns the result variable (column `W(WitnessesAmount - 1)`, row
`start_row + rows_amount - 1`), and the cell it names holds 1 if the two input values are both
non-zero and 0 otherwise.  Hence any other supported layout run on inputs with the same two
values produces the same output value. -/
theorem generate_assignments_output [Field F] [DecidableEq F] (component : logic_and_flag)
    (hW : component.WitnessesAmount = 2 ∨ component.WitnessesAmount = 3 ∨
      component.WitnessesAmount = 5)
    (a : assignment F) (instance_input : input_type) (start_row : Nat) :
    ∃ res a1, generate_assignments component a instance_input start_row = some (res, a1) ∧
      res.output = var.rel (component.W (component.WitnessesAmount - 1))
        (((start_row + component.rows_amount : Nat) : Int) - 1) ∧
      a1.witness (component.W (component.WitnessesAmount - 1))
          (start_row + component.rows_amount - 1) =
        (if var_value a instance_input.x ≠ 0 ∧ var_value a instance_input.y ≠ 0
          then 1 else 0) ∧
      var_value a1 res.output =
        (if var_value a instance_input.x ≠ 0 ∧ var_value a instance_input.y ≠ 0
          then 1 else 0) ∧
      ∀ (component2 : logic_and_flag) (a2 : assignment F) (input2 : input_type)
        (start_row2 : Nat),
        (component2.WitnessesAmount = 2 ∨ component2.WitnessesAmount = 3 ∨
          component2.WitnessesAmount = 5) →
        var_value a2 input2.x = var_value a instance_input.x →
        var_value a2 input2.y = var_value a instance_input.y →
        ∃ res2 b, generate_assignments component2 a2 input2 start_row2 = some (res2, b) ∧
          var_value b res2.output = var_value a1 res.output := by
  obtain ⟨a1, hgen, hcell, hout⟩ :=
    generate_assignments_flag component hW a instance_input start_row
  refine ⟨result_type.of component start_row, a1, hgen, rfl, hcell, hout, ?_⟩
  intro component2 a2 input2 start_row2 hW2 hx hy
  obtain ⟨b, hgen2, _, hout2⟩ := generate_assignments_flag component2 hW2 a2 input2 start_row2
  exact ⟨result_type.of component2 start_row2, b, hgen2, by rw [hout2, hout, hx, hy]⟩

/-- Witness of claim C1: the width-2 component on the inputs 2 and 3 at start row 1. -/
theorem generate_assignments_output_witness :
    (example_component_2.WitnessesAmount = 2 ∨ example_component_2.WitnessesAmount = 3 ∨
      example_component_2.WitnessesAmount = 5) ∧
    ∃ res a1, generate_assignments example_component_2 example_assignment example_input 1 =
        some (res, a1) ∧
      res.output = var.rel (example_component_2.W (example_component_2.WitnessesAmount - 1))
        (((1 + example_component_2.rows_amount : Nat) : Int) - 1) ∧
      a1.witness (example_component_2.W (example_component_2.WitnessesAmount - 1))
          (1 + example_component_2.rows_amount - 1) =
        (if var_value example_assignment example_input.x ≠ 0 ∧
            var_value example_assignment example_input.y ≠ 0 then 1 else 0) ∧
      var_value a1 res.output =
        (if var_value example_assignment example_input.x ≠ 0 ∧
            var_value example_assignment example_input.y ≠ 0 then 1 else 0) ∧
      ∀ (component2 : logic_and_flag) (a2 : assignment ℚ) (input2 : input_type)
        (start_row2 : Nat),
        (component2.WitnessesAmount = 2 ∨ component2.WitnessesAmount = 3 ∨
          component2.WitnessesAmount = 5) →
        var_value a2 input2.x = var_value example_assignment example_input.x →
        var_value a2 input2.y = var_value example_assignment example_input.y →
        ∃ res2 b, generate_assignments component2 a2 input2 start_row2 = some (res2, b) ∧
          var_value b res2.output = var_value a1 res.output :=
  ⟨Or.inl rfl,
    generate_assignments_output example_component_2 (Or.inl rfl) example_assignment
      example_input 1⟩

/-! ## The logic-AND-flag gadget: soundness of the gate -/

theorem toNat_row_succ (n : Nat) : ((n : Int) + 1).toNat = n + 1 := by omega

theorem toNat_row_succ_succ (n : Nat) : ((n : Int) + 1 + 1).toNat = n + 2 := by omega

theorem and_flag_algebra [Field F] (x y p v f : F) (h1 : p = x * y) (h2 : f = 0 ∨ f = 1)
    (h3 : f = p * v) (h4 : v = p ∨ f = 1) :
    (f = 0 ∨ f = 1) ∧ (f = 1 ↔ x ≠ 0 ∧ y ≠ 0) := by
  refine ⟨h2, ?_, ?_⟩
  · intro hf
    have hp : p ≠ 0 := by
      intro hp0
      rw [hp0, zero_mul] at h3
      rw [h3] at hf
      exact zero_ne_one hf
    rw [h1] at hp
    exact ⟨left_ne_zero_of_mul hp, right_ne_zero_of_mul hp⟩
  · rintro ⟨hx, hy⟩
    rcases h4 with hv | hf
    · rcases h2 with hf0 | hf1
      · exfalso
        have hp : p ≠ 0 := by rw [h1]; exact mul_ne_zero hx hy
        rw [hv] at h3
        rw [hf0] at h3
        exact hp (mul_self_eq_zero.mp h3.symm)
      · exact hf1
    · exact hf

theorem selector_row_of_lt (component : logic_and_flag) (start_row : Nat)
    (h : start_row + (if component.WitnessesAmount = 2 then 1 else 0) < 2 ^ 32) :
    selector_row component start_row =
      start_row + (if component.WitnessesAmount = 2 then 1 else 0) :=
  Nat.mod_eq_of_lt h

/-- Claim C2, amended: soundness of the emitted gate.  For a supported width, let `bp1` be the
circuit after `generate_gates`, and let the start row be such that the 32-bit sum
`start_row + (WitnessesAmount == 2 ? 1 : 0)` does not wrap.  For every assignment table `a`
(arbitrary cell values) under which every constraint of the emitted gate evaluates to zero on
the row where `generate_circuit` enables the selector, the value `f` of the result cell is 0
or 1, and it is 1 exactly when the cells `(W(0), start_row)` and `(W(1), start_row)` are both
non-zero. -/
theorem generate_gates_sound [Field F] (component : logic_and_flag)
    (hW : component.WitnessesAmount = 2 ∨ component.WitnessesAmount = 3 ∨
      component.WitnessesAmount = 5)
    (bp bp1 : circuit F) (a_gen : assignment F) (instance_input : input_type)
    (first_selector_index : Nat)
    (hgen : generate_gates component bp a_gen instance_input first_selector_index = some bp1)
    (a : assignment F) (start_row : Nat)
    (hrow : start_row + (if component.WitnessesAmount = 2 then 1 else 0) < 2 ^ 32)
    (hsat : ∀ g ∈ emitted_gates bp bp1, ∀ c ∈ g.constraints,
      c.eval a (selector_row component start_row) = 0) :
    (a.witness (component.W (component.WitnessesAmount - 1))
        (start_row + component.rows_amount - 1) = 0 ∨
      a.witness (component.W (component.WitnessesAmount - 1))
        (start_row + component.rows_amount - 1) = 1) ∧
    (a.witness (component.W (component.WitnessesAmount - 1))
        (start_row + component.rows_amount - 1) = 1 ↔
      a.witness (component.W 0) start_row ≠ 0 ∧ a.witness (component.W 1) start_row ≠ 0) := by
  rw [selector_row_of_lt component start_row hrow] at hsat
  rcases hW with h | h | h
  · simp only [generate_gates, h, Option.some.injEq] at hgen
    subst hgen
    simp only [emitted_gates, generate_gates_2, circuit.add_gate_at, circuit.add_constraint,
      selector_row, h, expr.eval, var.eval, var.rel, var.resolve, List.drop_left,
      List.mem_singleton, forall_eq, List.mem_cons, forall_eq_or_imp, if_true,
      List.not_mem_nil, false_imp_iff, implies_true, and_true, Nat.cast_add, Nat.cast_one,
      add_zero, add_neg_cancel_right, Int.toNat_ofNat, toNat_row_succ, toNat_row_succ_succ,
      mul_eq_zero, sub_eq_zero] at hsat
    obtain ⟨c1, c2, c3, c4, c5⟩ := hsat
    have hrow : start_row + component.rows_amount - 1 = start_row + 2 := by
      simp [logic_and_flag.rows_amount, h]
    rw [h, hrow]
    refine and_flag_algebra _ _ _ _ _ c1 c2 c3 ?_
    rcases c5 with hd | hf
    · left
      rw [hd] at c4
      exact (sub_eq_zero.mp c4.symm)
    · exact Or.inr hf
  · simp only [generate_gates, h, Option.some.injEq] at hgen
    subst hgen
    simp only [emitted_gates, generate_gates_3, circuit.add_gate_at, circuit.add_constraint,
      selector_row, h, expr.eval, var.eval, var.rel, var.resolve, List.drop_left,
      List.mem_singleton, forall_eq, List.mem_cons, forall_eq_or_imp, if_true,
      List.not_mem_nil, false_imp_iff, implies_true, and_true, Nat.cast_add, Nat.cast_one,
      add_zero, add_neg_cancel_right, Int.toNat_ofNat, toNat_row_succ, toNat_row_succ_succ,
      mul_eq_zero, sub_eq_zero, Nat.succ_ne_self, reduceCtorEq, if_false, Nat.reduceEqDiff] at hsat
    obtain ⟨c1, c2, c3, c4, c5⟩ := hsat
    have hrow : start_row + component.rows_amount - 1 = start_row + 1 := by
      simp [logic_and_flag.rows_amount, h]
    rw [h, hrow]
    refine and_flag_algebra _ _ _ _ _ c1 c2 (c3.trans (mul_comm _ _)) ?_
    rcases c5 with hd | hf
    · left
      rw [hd] at c4
      exact (sub_eq_zero.mp c4.symm)
    · exact Or.inr hf
  · simp only [generate_gates, h, Option.some.injEq] at hgen
    subst hgen
    simp only [emitted_gates, generate_gates_5, circuit.add_gate_at, circuit.add_constraint,
      selector_row, h, expr.eval, var.eval, var.rel, var.resolve, List.drop_left,
      List.mem_singleton, forall_eq, List.mem_cons, forall_eq_or_imp, if_true,
      List.not_mem_nil, false_imp_iff, implies_true, and_true, Nat.cast_add, Nat.cast_one,
      add_zero, add_neg_cancel_right, Int.toNat_ofNat, toNat_row_succ, toNat_row_succ_succ,
      mul_eq_zero, sub_eq_zero, Nat.succ_ne_self, reduceCtorEq, if_false, Nat.reduceEqDiff] at hsat
    obtain ⟨c1, c2, c3, c4⟩ := hsat
    have hrow : start_row + component.rows_amount - 1 = start_row := by
      simp [logic_and_flag.rows_amount, h]
    rw [h, hrow]
    exact and_flag_algebra _ _ _ _ _ c1 c2 c3 c4

/-- Witness of claim C2: the width-5 gate on a table holding x = 2, y = 3, p = 6, v = 1/6,
f = 1. -/
theorem generate_gates_sound_witness :
    (example_component_5.WitnessesAmount = 2 ∨ example_component_5.WitnessesAmount = 3 ∨
      example_component_5.WitnessesAmount = 5) ∧
    0 + (if example_component_5.WitnessesAmount = 2 then 1 else 0) < 2 ^ 32 ∧
    generate_gates example_component_5 (circuit.empty : circuit ℚ) example_assignment
        example_input 0 =
      some (generate_gates_5 example_component_5 circuit.empty example_assignment
        example_input 0) ∧
    (∀ g ∈ emitted_gates (circuit.empty : circuit ℚ)
        (generate_gates_5 example_component_5 circuit.empty example_assignment example_input 0),
      ∀ c ∈ g.constraints,
        c.eval example_satisfying (selector_row example_component_5 0) = 0) ∧
    (example_satisfying.witness 4 0 = 0 ∨ example_satisfying.witness 4 0 = 1) ∧
    (example_satisfying.witness 4 0 = 1 ↔
      example_satisfying.witness 0 0 ≠ 0 ∧ example_satisfying.witness 1 0 ≠ 0) := by
  have hW : example_component_5.WitnessesAmount = 2 ∨
      example_component_5.WitnessesAmount = 3 ∨ example_component_5.WitnessesAmount = 5 :=
    Or.inr (Or.inr rfl)
  have hgen : generate_gates example_component_5 (circuit.empty : circuit ℚ)
      example_assignment example_input 0 =
      some (generate_gates_5 example_component_5 circuit.empty example_assignment
        example_input 0) := rfl
  have hsat : ∀ g ∈ emitted_gates (circuit.empty : circuit ℚ)
        (generate_gates_5 example_component_5 circuit.empty example_assignment example_input 0),
      ∀ c ∈ g.constraints,
        c.eval example_satisfying (selector_row example_component_5 0) = 0 := by
    simp [emitted_gates, generate_gates_5, circuit.add_gate_at, circuit.add_constraint,
      circuit.empty, selector_row, example_component_5, expr.eval, var.eval, var.rel,
      var.resolve, example_satisfying]
    norm_num
  have hrow : 0 + (if example_component_5.WitnessesAmount = 2 then 1 else 0) < 2 ^ 32 := by
    decide
  exact ⟨hW, hrow, hgen, hsat,
    generate_gates_sound example_component_5 hW circuit.empty _ example_assignment
      example_input 0 hgen example_satisfying 0 hrow hsat⟩

/-- Counterexample to claim C2 as stated: for the width-2 component at the start row 2^32 - 1
the 32-bit sum `start_row + 1` wraps, so `generate_circuit` enables the selector on row 0.  On
a table whose witness cells are all zero except the result cell `(W(1), start_row + 2)`, which
holds 7, every constraint of the emitted gate evaluates to zero on that row, yet the value of
the result cell is neither 0 nor 1. -/
theorem gate_vanishes_on_wrapped_row :
    example_last_row < 2 ^ 32 ∧
    selector_row example_component_2 example_last_row = 0 ∧
    generate_gates example_component_2 (circuit.empty : circuit ℚ) example_assignment
        example_input 0 =
      some (generate_gates_2 example_component_2 circuit.empty example_assignment
        example_input 0) ∧
    (∀ g ∈ emitted_gates (circuit.empty : circuit ℚ)
        (generate_gates_2 example_component_2 circuit.empty example_assignment example_input 0),
      ∀ c ∈ g.constraints,
        c.eval example_assignment_far (selector_row example_component_2 example_last_row) = 0) ∧
    example_assignment_far.witness
        (example_component_2.W (example_component_2.WitnessesAmount - 1))
        (example_last_row + example_component_2.rows_amount - 1) = 7 ∧
    ¬ (example_assignment_far.witness
          (example_component_2.W (example_component_2.WitnessesAmount - 1))
          (example_last_row + example_component_2.rows_amount - 1) = 0 ∨
        example_assignment_far.witness
          (example_component_2.W (example_component_2.WitnessesAmount - 1))
          (example_last_row + example_component_2.rows_amount - 1) = 1) := by
  have hs : selector_row example_component_2 example_last_row = 0 := by decide
  have hcell : example_assignment_far.witness
      (example_component_2.W (example_component_2.WitnessesAmount - 1))
      (example_last_row + example_component_2.rows_amount - 1) = 7 := by
    simp [example_assignment_far, example_component_2, example_last_row,
      logic_and_flag.rows_amount]
  refine ⟨by decide, hs, rfl, ?_, hcell, ?_⟩
  · rw [hs]
    simp [emitted_gates, generate_gates_2, circuit.add_gate_at, circuit.add_constraint,
      circuit.empty, example_component_2, expr.eval, var.eval, var.rel, var.resolve,
      example_assignment_far]
  · rw [hcell]; norm_num

/-! ## The logic-AND-flag gadget: selector reuse -/

theorem has_generate_gates_supported (component : logic_and_flag)
    (hW : component.WitnessesAmount = 2 ∨ component.WitnessesAmount = 3 ∨
      component.WitnessesAmount = 5) :
    has_generate_gates component = true := by
  rcases hW with h | h | h <;> simp [has_generate_gates, h]

theorem generate_circuit_hit [Field F] (component : logic_and_flag)
    (hW : component.WitnessesAmount = 2 ∨ component.WitnessesAmount = 3 ∨
      component.WitnessesAmount = 5)
    (bp : circuit F)
    (a : assignment F) (instance_input : input_type) (start_row_index s : Nat)
    (hfind : a.find_selector component = some s) :
    generate_circuit component bp a instance_input start_row_index =
      some (result_type.of component start_row_index,
        generate_copy_constraints component bp
          (a.enable_selector s (selector_row component start_row_index))
          instance_input start_row_index,
        a.enable_selector s (selector_row component start_row_index)) := by
  simp [generate_circuit, hfind, has_generate_gates_supported component hW]

theorem generate_circuit_many_hit [Field F] (component : logic_and_flag)
    (hW : component.WitnessesAmount = 2 ∨ component.WitnessesAmount = 3 ∨
      component.WitnessesAmount = 5)
    (calls : List (input_type × Nat)) (bp : circuit F) (a : assignment F) (s : Nat)
    (hfind : a.find_selector component = some s) :
    ∃ bp1 a1, generate_circuit_many component calls (bp, a) = some (bp1, a1) ∧
      bp1.gates = bp.gates ∧
      bp1.copy_constraints.length = bp.copy_constraints.length + 2 * calls.length ∧
      a1.enabled = a.enabled ++ calls.map (fun c => (s, selector_row component c.2)) ∧
      a1.selector_map = a.selector_map ∧
      a1.next_selector_index = a.next_selector_index := by
  induction calls generalizing bp a with
  | nil => exact ⟨bp, a, rfl, rfl, by simp, by simp, rfl, rfl⟩
  | cons c cs ih =>
    have hfind1 : (a.enable_selector s (selector_row component c.2)).find_selector component =
        some s := hfind
    obtain ⟨bp1, a1, hrun, hg, hc, he, hm, hn⟩ :=
      ih (generate_copy_constraints component bp
        (a.enable_selector s (selector_row component c.2)) c.1 c.2)
        (a.enable_selector s (selector_row component c.2)) hfind1
    refine ⟨bp1, a1, ?_, ?_, ?_, ?_, ?_, ?_⟩
    · simp only [generate_circuit_many, generate_circuit_hit component hW bp a c.1 c.2 s hfind]
      exact hrun
    · rw [hg]; rfl
    · rw [hc]
      simp [generate_copy_constraints, circuit.add_copy_constraint]
      omega
    · rw [he]
      simp [assignment.enable_selector]
    · rw [hm]; rfl
    · rw [hn]; rfl

/-- Claim C3: selector reuse.  For a supported width, an assignment table with an empty
selector cache and any circuit, a sequence of N >= 1 calls of `generate_circuit` for the same
component (any inputs and start rows) succeeds; it adds exactly one gate, stored under the
selector index allocated by the first call; every one of the N selector activations uses that
index (one activation per call, on the call's selector row); 2N copy constraints are appended;
and the cache then maps the component to that index. -/
theorem generate_circuit_selector_reuse [Field F] (component : logic_and_flag)
    (hW : component.WitnessesAmount = 2 ∨ component.WitnessesAmount = 3 ∨
      component.WitnessesAmount = 5)
    (bp : circuit F) (a : assignment F) (hcache : a.selector_map = [])
    (calls : List (input_type × Nat)) (hN : 1 ≤ calls.length) :
    ∃ bp1 a1 g, generate_circuit_many component calls (bp, a) = some (bp1, a1) ∧
      bp1.gates = bp.gates ++ [g] ∧
      g.selector_index = a.next_selector_index ∧
      bp1.gates.length = bp.gates.length + 1 ∧
      a1.enabled = a.enabled ++
        calls.map (fun c => (a.next_selector_index, selector_row component c.2)) ∧
      a1.enabled.length = a.enabled.length + calls.length ∧
      bp1.copy_constraints.length = bp.copy_constraints.length + 2 * calls.length ∧
      a1.find_selector component = some a.next_selector_index := by
  match calls, hN with
  | c :: cs, _ =>
    have hmiss : a.find_selector component = none := by
      simp [assignment.find_selector, hcache]
    have hfind1 : ((a.allocate_selector component component.gates_amount).2.enable_selector
        a.next_selector_index (selector_row component c.2)).find_selector component =
        some a.next_selector_index := by
      simp [assignment.find_selector, assignment.allocate_selector,
        assignment.enable_selector, hcache]
    obtain ⟨g, hg, hgs⟩ : ∃ g : plonk_gate F,
        generate_gates component bp (a.allocate_selector component component.gates_amount).2
          c.1 a.next_selector_index = some { bp with gates := bp.gates ++ [g] } ∧
        g.selector_index = a.next_selector_index := by
      rcases hW with h | h | h
      · exact ⟨_, by simp only [generate_gates, h]; rfl, rfl⟩
      · exact ⟨_, by simp only [generate_gates, h]; rfl, rfl⟩
      · exact ⟨_, by simp only [generate_gates, h]; rfl, rfl⟩
    obtain ⟨bp1, a1, hrun, hg1, hc1, he1, hm1, _⟩ :=
      generate_circuit_many_hit component hW cs
        (generate_copy_constraints component { bp with gates := bp.gates ++ [g] }
          ((a.allocate_selector component component.gates_amount).2.enable_selector
            a.next_selector_index (selector_row component c.2)) c.1 c.2)
        ((a.allocate_selector component component.gates_amount).2.enable_selector
            a.next_selector_index (selector_row component c.2)) a.next_selector_index hfind1
    have hfirst : generate_circuit component bp a c.1 c.2 =
        some (result_type.of component c.2,
          generate_copy_constraints component { bp with gates := bp.gates ++ [g] }
            ((a.allocate_selector component component.gates_amount).2.enable_selector
              a.next_selector_index (selector_row component c.2)) c.1 c.2,
          (a.allocate_selector component component.gates_amount).2.enable_selector
              a.next_selector_index (selector_row component c.2)) := by
      simp only [generate_circuit, hmiss, has_generate_gates_supported component hW]
      rw [show (a.allocate_selector component component.gates_amount).1 =
        a.next_selector_index from rfl, hg]
      rfl
    have hgates : bp1.gates = bp.gates ++ [g] := by rw [hg1]; rfl
    have hen : a1.enabled = a.enabled ++
        (c :: cs).map (fun c => (a.next_selector_index, selector_row component c.2)) := by
      rw [he1]
      simp [assignment.enable_selector, assignment.allocate_selector]
    refine ⟨bp1, a1, g, ?_, hgates, hgs, ?_, hen, ?_, ?_, ?_⟩
    · simp only [generate_circuit_many, hfirst]
      exact hrun
    · rw [hgates]; simp
    · rw [hen]; simp
    · rw [hc1]
      simp [generate_copy_constraints, circuit.add_copy_constraint]
      omega
    · have : a1.find_selector component =
          ((a.allocate_selector component component.gates_amount).2.enable_selector
            a.next_selector_index (selector_row component c.2)).find_selector component := by
        simp only [assignment.find_selector, hm1]
      rw [this, hfind1]

/-- Witness of claim C3: two calls for the width-2 component, at start rows 0 and 3. -/
theorem generate_circuit_selector_reuse_witness :
    (example_component_2.WitnessesAmount = 2 ∨ example_component_2.WitnessesAmount = 3 ∨
      example_component_2.WitnessesAmount = 5) ∧
    example_assignment.selector_map = [] ∧
    1 ≤ [(example_input, 0), (example_input, 3)].length ∧
    ∃ bp1 a1 g, generate_circuit_many example_component_2
        [(example_input, 0), (example_input, 3)] (circuit.empty, example_assignment) =
          some (bp1, a1) ∧
      bp1.gates = (circuit.empty : circuit ℚ).gates ++ [g] ∧
      g.selector_index = example_assignment.next_selector_index ∧
      bp1.gates.length = (circuit.empty : circuit ℚ).gates.length + 1 ∧
      a1.enabled = example_assignment.enabled ++
        [(example_input, 0), (example_input, 3)].map
          (fun c => (example_assignment.next_selector_index,
            selector_row example_component_2 c.2)) ∧
      a1.enabled.length = example_assignment.enabled.length +
        [(example_input, 0), (example_input, 3)].length ∧
      bp1.copy_constraints.length = (circuit.empty : circuit ℚ).copy_constraints.length +
        2 * [(example_input, 0), (example_input, 3)].length ∧
      a1.find_selector example_component_2 = some example_assignment.next_selector_index :=
  ⟨Or.inl rfl, rfl, by decide,
    generate_circuit_selector_reuse example_component_2 (Or.inl rfl) circuit.empty
      example_assignment rfl [(example_input, 0), (example_input, 3)] (by decide)⟩

/-! ## The circuit proxy -/

/-- Claim C4: each of the three overloads of `add_gate` and of `add_lookup_gate` called through
a proxy returns the selector index the same call returns on the underlying circuit, leaves the
circuit in the state the direct call leaves it in, and afterwards the returned index is in
`used_gates` (respectively `used_lookup_gates`), which is the old set with that index
inserted. -/
theorem proxy_add_gate_forwards (P : circuit_proxy) (C : circuit F)
    (args : List (plonk_constraint F)) (arg : plonk_constraint F)
    (largs : List (plonk_lookup_constraint F)) (larg : plonk_lookup_constraint F) :
    forwards_gate P (P.add_gate C args) (C.add_gate args) ∧
    forwards_gate P (P.add_gate_single C arg) (C.add_gate_single arg) ∧
    forwards_gate P (P.add_gate_init C args) (C.add_gate_init args) ∧
    forwards_lookup_gate P (P.add_lookup_gate C largs) (C.add_lookup_gate largs) ∧
    forwards_lookup_gate P (P.add_lookup_gate_single C larg) (C.add_lookup_gate_single larg) ∧
    forwards_lookup_gate P (P.add_lookup_gate_init C largs) (C.add_lookup_gate_init largs) := by
  refine ⟨?_, ?_, ?_, ?_, ?_, ?_⟩ <;>
    exact ⟨rfl, rfl, Finset.mem_insert_self _ _, rfl⟩

theorem add_copy_constraint_eq (P : circuit_proxy) (C : circuit F)
    (c : plonk_copy_constraint) :
    P.add_copy_constraint C c =
      ({ P with used_copy_constraints := insert C.copy_constraints.length P.used_copy_constraints },
        { C with copy_constraints := C.copy_constraints ++ [c] }) := by
  simp [circuit_proxy.add_copy_constraint, circuit.add_copy_constraint]

theorem apply_bounded (P : circuit_proxy) (C : circuit F) (c : call F)
    (hb : P.bounded C) : (P.apply C c).1.bounded (P.apply C c).2 := by
  obtain ⟨hg, hc⟩ := hb
  cases c <;>
    simp only [circuit_proxy.apply, circuit_proxy.add_gate, circuit_proxy.add_gate_single,
      circuit_proxy.add_gate_init, circuit_proxy.add_lookup_gate,
      circuit_proxy.add_lookup_gate_single, circuit_proxy.add_lookup_gate_init,
      circuit_proxy.register_lookup_table, circuit_proxy.reserve_table,
      add_copy_constraint_eq, circuit.add_gate, circuit.add_gate_single,
      circuit.add_gate_init, circuit.add_lookup_gate, circuit.add_lookup_gate_single,
      circuit.add_lookup_gate_init, circuit.register_lookup_table, circuit.reserve_table,
      circuit_proxy.bounded]
  all_goals first
    | exact ⟨hg, hc⟩
    | (refine ⟨fun i hi => ?_, hc⟩
       rcases Finset.mem_insert.mp hi with h | h
       · omega
       · have := hg i h; omega)
    | (refine ⟨fun i hi => ?_, hc⟩
       have := hg i hi; omega)
    | (split <;> exact ⟨hg, hc⟩)
    | (refine ⟨hg, fun i hi => ?_⟩
       rw [List.length_append, List.length_singleton]
       rcases Finset.mem_insert.mp hi with h | h
       · omega
       · have := hc i h; omega)

theorem apply_card (P : circuit_proxy) (C : circuit F) (c : call F)
    (hb : P.bounded C) :
    (P.apply C c).1.used_gates.card = P.used_gates.card + (if c.is_add_gate then 1 else 0) ∧
    (P.apply C c).1.used_copy_constraints.card =
      P.used_copy_constraints.card + (if c.is_add_copy_constraint then 1 else 0) := by
  obtain ⟨hg, hc⟩ := hb
  have hfresh : C.next_selector_index ∉ P.used_gates := fun h => lt_irrefl _ (hg _ h)
  have hfresh2 : C.copy_constraints.length ∉ P.used_copy_constraints :=
    fun h => lt_irrefl _ (hc _ h)
  cases c <;>
    simp [circuit_proxy.apply, circuit_proxy.add_gate, circuit_proxy.add_gate_single,
      circuit_proxy.add_gate_init, circuit_proxy.add_lookup_gate,
      circuit_proxy.add_lookup_gate_single, circuit_proxy.add_lookup_gate_init,
      circuit_proxy.register_lookup_table, circuit_proxy.reserve_table,
      add_copy_constraint_eq, circuit.add_gate, circuit.add_gate_single,
      circuit.add_gate_init, circuit.add_lookup_gate, circuit.add_lookup_gate_single,
      circuit.add_lookup_gate_init, call.is_add_gate, call.is_add_copy_constraint,
      Finset.card_insert_of_not_mem, hfresh, hfresh2]

theorem run_card (calls : List (call F)) (P : circuit_proxy) (C : circuit F)
    (hb : P.bounded C) :
    (P.run C calls).1.used_gates.card = P.used_gates.card + calls.countP call.is_add_gate ∧
    (P.run C calls).1.used_copy_constraints.card =
      P.used_copy_constraints.card + calls.countP call.is_add_copy_constraint := by
  induction calls generalizing P C with
  | nil => simp [circuit_proxy.run]
  | cons c cs ih =>
    obtain ⟨h1, h2⟩ := ih (P.apply C c).1 (P.apply C c).2 (apply_bounded P C c hb)
    obtain ⟨k1, k2⟩ := apply_card P C c hb
    simp only [circuit_proxy.run, List.countP_cons]
    rw [h1, h2, k1, k2]
    constructor <;> omega

/-- Claim C5: after any sequence of calls made through a freshly constructed proxy (empty used
sets) over any circuit, `used_gates` has as many elements as the sequence has `add_gate`
calls and `used_copy_constraints` has as many elements as it has `add_copy_constraint` calls;
the sequence may interleave them at will, and with any other calls. -/
theorem proxy_used_counts (_id : Nat) (C : circuit F) (calls : List (call F)) :
    ((circuit_proxy.new _id).run C calls).1.used_gates.card = calls.countP call.is_add_gate ∧
    ((circuit_proxy.new _id).run C calls).1.used_copy_constraints.card =
      calls.countP call.is_add_copy_constraint := by
  have hb : (circuit_proxy.new _id).bounded C := by
    simp [circuit_proxy.bounded, circuit_proxy.new]
  have h := run_card calls (circuit_proxy.new _id) C hb
  simpa [circuit_proxy.new] using h

/-- Claim C6, evaluated on the failing input: after a lookup gate and then a gate are added
through a fresh proxy over an empty circuit, `used_gates` contains the selector index 1 while
the gate list of the circuit has length 1, so 1 is not a position of the gate list; for the
lookup gates the recorded index 0 happens to be in range. -/
theorem used_gates_out_of_range :
    1 ∈ (((system.init id : system ℚ).run example_events).proxies 0).used_gates ∧
    ((system.init id : system ℚ).run example_events).C.gates.length = 1 ∧
    ¬ (∀ i ∈ (((system.init id : system ℚ).run example_events).proxies 0).used_gates,
      i < ((system.init id : system ℚ).run example_events).C.gates.length) := by
  have h1 : (((system.init id : system ℚ).run example_events).proxies 0).used_gates = {1} := by
    simp [system.run, system.next, system.step, system.init, example_events,
      circuit_proxy.apply, circuit_proxy.add_gate, circuit_proxy.add_lookup_gate,
      circuit.add_gate, circuit.add_lookup_gate, circuit.empty, circuit_proxy.new]
  have h2 : ((system.init id : system ℚ).run example_events).C.gates.length = 1 := rfl
  refine ⟨by rw [h1]; exact Finset.mem_singleton_self 1, h2, ?_⟩
  intro h
  have := h 1 (by rw [h1]; exact Finset.mem_singleton_self 1)
  rw [h2] at this
  exact lt_irrefl 1 this

/-- Claim C7: for two distinct proxies over one shared circuit, a call of any method through
the first leaves the whole private state of the second (its four used-index sets and its id)
unchanged; the circuit becomes what the same call made directly on it gives, and the second
proxy's accessors return that grown circuit, of which the old lists are initial segments. -/
theorem proxies_independent (s : system F) (h1 h2 : Nat) (hne : h1 ≠ h2) (c : call F) :
    (s.step h1 c).proxies h2 = s.proxies h2 ∧
    (s.step h1 c).C = s.C.apply c ∧
    circuit_proxy.get ((s.step h1 c).proxies h2) (s.step h1 c).C = s.C.apply c ∧
    circuit_proxy.gates ((s.step h1 c).proxies h2) (s.step h1 c).C = (s.C.apply c).gates ∧
    circuit_proxy.copy_constraints ((s.step h1 c).proxies h2) (s.step h1 c).C =
      (s.C.apply c).copy_constraints ∧
    circuit_proxy.lookup_gates ((s.step h1 c).proxies h2) (s.step h1 c).C =
      (s.C.apply c).lookup_gates ∧
    s.C.gates <+: circuit_proxy.gates ((s.step h1 c).proxies h2) (s.step h1 c).C ∧
    s.C.copy_constraints <+:
      circuit_proxy.copy_constraints ((s.step h1 c).proxies h2) (s.step h1 c).C ∧
    s.C.lookup_gates <+:
      circuit_proxy.lookup_gates ((s.step h1 c).proxies h2) (s.step h1 c).C := by
  have hC : (s.step h1 c).C = s.C.apply c := by
    cases c <;> simp [system.step, circuit_proxy.apply, circuit.apply, circuit_proxy.add_gate,
      circuit_proxy.add_gate_single, circuit_proxy.add_gate_init, circuit_proxy.add_lookup_gate,
      circuit_proxy.add_lookup_gate_single, circuit_proxy.add_lookup_gate_init,
      circuit_proxy.register_lookup_table, circuit_proxy.reserve_table,
      circuit_proxy.add_copy_constraint, circuit.add_copy_constraint]
  have hg : s.C.gates <+: (s.C.apply c).gates := by
    cases c <;> simp [circuit.apply, circuit.add_gate, circuit.add_gate_single,
      circuit.add_gate_init, circuit.add_lookup_gate, circuit.add_lookup_gate_single,
      circuit.add_lookup_gate_init, circuit.register_lookup_table, circuit.reserve_table,
      circuit.add_copy_constraint, apply_ite]
  have hcc : s.C.copy_constraints <+: (s.C.apply c).copy_constraints := by
    cases c <;> simp [circuit.apply, circuit.add_gate, circuit.add_gate_single,
      circuit.add_gate_init, circuit.add_lookup_gate, circuit.add_lookup_gate_single,
      circuit.add_lookup_gate_init, circuit.register_lookup_table, circuit.reserve_table,
      circuit.add_copy_constraint, apply_ite]
  have hl : s.C.lookup_gates <+: (s.C.apply c).lookup_gates := by
    cases c <;> simp [circuit.apply, circuit.add_gate, circuit.add_gate_single,
      circuit.add_gate_init, circuit.add_lookup_gate, circuit.add_lookup_gate_single,
      circuit.add_lookup_gate_init, circuit.register_lookup_table, circuit.reserve_table,
      circuit.add_copy_constraint, apply_ite]
  refine ⟨?_, hC, ?_, ?_, ?_, ?_, ?_, ?_, ?_⟩
  · simp [system.step, Function.update, hne.symm]
  · simp [circuit_proxy.get, hC]
  · simp [circuit_proxy.gates, hC]
  · simp [circuit_proxy.copy_constraints, hC]
  · simp [circuit_proxy.lookup_gates, hC]
  · simpa [circuit_proxy.gates, hC] using hg
  · simpa [circuit_proxy.copy_constraints, hC] using hcc
  · simpa [circuit_proxy.lookup_gates, hC] using hl

/-- Witness of claim C7: proxies 0 and 1 of the initial system, a gate added through proxy 0. -/
theorem proxies_independent_witness :
    (0 : Nat) ≠ 1 ∧
    (((system.init id : system ℚ).step 0 (call.add_gate [example_constraint])).proxies 1 =
      (system.init id : system ℚ).proxies 1) ∧
    circuit_proxy.gates
        (((system.init id : system ℚ).step 0 (call.add_gate [example_constraint])).proxies 1)
        ((system.init id : system ℚ).step 0 (call.add_gate [example_constraint])).C =
      ((system.init id : system ℚ).C.apply (call.add_gate [example_constraint])).gates :=
  ⟨by decide,
    (proxies_independent (system.init id) 0 1 (by decide)
      (call.add_gate [example_constraint])).1,
    (proxies_independent (system.init id) 0 1 (by decide)
      (call.add_gate [example_constraint])).2.2.2.1⟩

/-- Claim C8, evaluated on the failing input: `reserve_table` through a fresh proxy over an
empty circuit reserves index 0 for the name, and `register_lookup_table` stores one table, but
`used_lookup_tables` of the proxy stays empty after either call. -/
theorem lookup_tables_not_recorded :
    ((circuit_proxy.new 0).reserve_table (circuit.empty : circuit ℚ) "table").2.reserved_indices
      = [("table", 0)] ∧
    ((circuit_proxy.new 0).reserve_table (circuit.empty : circuit ℚ) "table").1.used_lookup_tables
      = ∅ ∧
    ((circuit_proxy.new 0).register_lookup_table (circuit.empty : circuit ℚ)
      { table_name := "table", rows := [] }).2.lookup_tables.length = 1 ∧
    ((circuit_proxy.new 0).register_lookup_table (circuit.empty : circuit ℚ)
      { table_name := "table", rows := [] }).1.used_lookup_tables = ∅ := by
  refine ⟨?_, rfl, ?_, rfl⟩
  · simp [circuit_proxy.reserve_table, circuit.reserve_table, circuit.empty]
  · simp [circuit_proxy.register_lookup_table, circuit.register_lookup_table, circuit.empty]

/-- Claim C9: `add_copy_constraint(c)` through a proxy over a circuit whose copy-constraint list
has length n leaves the circuit as the direct call does, with `c` appended at position n, which
is `size() - 1` after the insertion; `used_copy_constraints` becomes the old set with exactly n
inserted; and the guard `size() > 0` holds after the insertion. -/
theorem proxy_add_copy_constraint_records (P : circuit_proxy) (C : circuit F)
    (c : plonk_copy_constraint) :
    (P.add_copy_constraint C c).2 = C.add_copy_constraint c ∧
    (P.add_copy_constraint C c).2.copy_constraints = C.copy_constraints ++ [c] ∧
    (P.add_copy_constraint C c).2.copy_constraints.length - 1 = C.copy_constraints.length ∧
    (P.add_copy_constraint C c).2.copy_constraints.get? C.copy_constraints.length = some c ∧
    (P.add_copy_constraint C c).1.used_copy_constraints =
      insert C.copy_constraints.length P.used_copy_constraints ∧
    (C.add_copy_constraint c).copy_constraints.length > 0 := by
  have hlen : (C.add_copy_constraint c).copy_constraints.length =
      C.copy_constraints.length + 1 := by
    simp [circuit.add_copy_constraint]
  have hguard : (C.add_copy_constraint c).copy_constraints.length > 0 := by omega
  have hcall : P.add_copy_constraint C c =
      ({ P with
          used_copy_constraints :=
            (insert ((C.add_copy_constraint c).copy_constraints.length - 1)
              P.used_copy_constraints) },
        C.add_copy_constraint c) := by
    simp only [circuit_proxy.add_copy_constraint, hguard, if_true]
  rw [hcall]
  refine ⟨rfl, rfl, ?_, ?_, ?_, hguard⟩
  · rw [hlen]; rfl
  · simp [circuit.add_copy_constraint]
  · rw [hlen]; rfl

/-- Claim C10: every read accessor of a proxy returns what the same accessor returns on the
underlying circuit, in every state of the proxy and the circuit, and a call of an accessor
leaves the proxy state and the circuit as they are. -/
theorem proxy_accessors_passthrough (P : circuit_proxy) (C : circuit F) :
    P.gates C = C.gates ∧
    P.copy_constraints C = C.copy_constraints ∧
    P.lookup_gates C = C.lookup_gates ∧
    P.lookup_tables C = C.lookup_tables ∧
    P.num_gates C = C.num_gates ∧
    P.num_lookup_gates C = C.num_lookup_gates ∧
    P.get_next_selector_index C = C.get_next_selector_index ∧
    P.get_reserved_indices C = C.get_reserved_indices ∧
    P.get_reserved_tables C = C.get_reserved_tables ∧
    P.get C = C ∧
    ∀ a : accessor, P.apply C (call.read a) = (P, C) :=
  ⟨rfl, rfl, rfl, rfl, rfl, rfl, rfl, rfl, rfl, rfl, fun _ => rfl⟩

/-! ## The logic-AND-flag gadget: the cells written by `generate_assignments` -/

theorem generate_assignments_eq_2 [Field F] [DecidableEq F] (component : logic_and_flag)
    (h : component.WitnessesAmount = 2) (a : assignment F) (instance_input : input_type)
    (s : Nat) (t0 t1 t2 t3 t4 t5 : F)
    (ht : packed_values (var_value a instance_input.x) (var_value a instance_input.y) =
      [t0, t1, t2, t3, t4, t5]) :
    generate_assignments component a instance_input s =
      some (result_type.of component s,
        (((((((a.set_witness (component.W 0) s t0).set_witness (component.W 1) s t1).set_witness
          (component.W 0) (s + 1) t2).set_witness (component.W 1) (s + 1) t3).set_witness
          (component.W 0) (s + 2) t4).set_witness (component.W 1) (s + 2) t5).set_witness
          (component.W 1) (s + 2) t5)) := by
  simp [generate_assignments, fill_rows, logic_and_flag.rows_amount, h, ht, List.range,
    List.range.loop]

theorem generate_assignments_eq_3 [Field F] [DecidableEq F] (component : logic_and_flag)
    (h : component.WitnessesAmount = 3) (a : assignment F) (instance_input : input_type)
    (s : Nat) (t0 t1 t2 t3 t4 t5 : F)
    (ht : packed_values (var_value a instance_input.x) (var_value a instance_input.y) =
      [t0, t1, t2, t3, t4, t5]) :
    generate_assignments component a instance_input s =
      some (result_type.of component s,
        (((((((a.set_witness (component.W 0) s t0).set_witness (component.W 1) s t1).set_witness
          (component.W 2) s t2).set_witness (component.W 0) (s + 1) t3).set_witness
          (component.W 1) (s + 1) t4).set_witness (component.W 2) (s + 1) t5).set_witness
          (component.W 2) (s + 1) t5)) := by
  simp [generate_assignments, fill_rows, logic_and_flag.rows_amount, h, ht, List.range,
    List.range.loop]

theorem generate_assignments_eq_5 [Field F] [DecidableEq F] (component : logic_and_flag)
    (h : component.WitnessesAmount = 5) (a : assignment F) (instance_input : input_type)
    (s : Nat) (t0 t1 t2 t3 t4 t5 : F)
    (ht : packed_values (var_value a instance_input.x) (var_value a instance_input.y) =
      [t0, t1, t2, t3, t4, t5]) :
    generate_assignments component a instance_input s =
      some (result_type.of component s,
        ((((((a.set_witness (component.W 0) s t0).set_witness (component.W 1) s t1).set_witness
          (component.W 2) s t2).set_witness (component.W 3) s t3).set_witness
          (component.W 4) s t4).set_witness (component.W 4) s t5)) := by
  simp [generate_assignments, fill_rows, logic_and_flag.rows_amount, h, ht, List.range,
    List.range.loop]

theorem packed_values_zero [Field F] [DecidableEq F] (x y : F) (h : x = 0 ∨ y = 0) :
    packed_values x y = [x, y, 0, 0, 0, 0] := by
  have hp : x * y = 0 := mul_eq_zero.mpr h
  simp [packed_values, hp]

/-- Claim C11: boundary case.  For a supported width, if the value of input `x` or of input `y`
is zero, `generate_assignments` returns a result (no error for the zero inverse), the result
cell holds the flag 0, and the cell holding `v` and the cell holding `p` both hold 0: cells
`(W(1), start_row + 1)` and `(W(0), start_row + 1)` for width 2, `(W(0), start_row + 1)` and
`(W(2), start_row)` for width 3, `(W(3), start_row)` and `(W(2), start_row)` for width 5. -/
theorem generate_assignments_zero_input [Field F] [DecidableEq F] (component : logic_and_flag)
    (hW : component.WitnessesAmount = 2 ∨ component.WitnessesAmount = 3 ∨
      component.WitnessesAmount = 5)
    (a : assignment F) (instance_input : input_type) (start_row : Nat)
    (hzero : var_value a instance_input.x = 0 ∨ var_value a instance_input.y = 0) :
    ∃ a1, generate_assignments component a instance_input start_row =
        some (result_type.of component start_row, a1) ∧
      a1.witness (component.W (component.WitnessesAmount - 1))
        (start_row + component.rows_amount - 1) = 0 ∧
      var_value a1 (result_type.of component start_row).output = 0 ∧
      (component.WitnessesAmount = 2 →
        a1.witness (component.W 1) (start_row + 1) = 0 ∧
        a1.witness (component.W 0) (start_row + 1) = 0) ∧
      (component.WitnessesAmount = 3 →
        a1.witness (component.W 0) (start_row + 1) = 0 ∧
        a1.witness (component.W 2) start_row = 0) ∧
      (component.WitnessesAmount = 5 →
        a1.witness (component.W 3) start_row = 0 ∧
        a1.witness (component.W 2) start_row = 0) := by
  have ht := packed_values_zero _ _ hzero
  rcases hW with h | h | h
  · refine ⟨_, generate_assignments_eq_2 component h a instance_input start_row _ _ _ _ _ _ ht,
      ?_, ?_, ?_, ?_, ?_⟩
    · simp [assignment.set_witness, h, logic_and_flag.rows_amount]
    · rw [var_value_result]
      simp [assignment.set_witness, h, logic_and_flag.rows_amount]
    · intro _
      constructor
      · simp only [assignment.set_witness]
        split_ifs <;> first | rfl | simp_all
      · simp only [assignment.set_witness]
        split_ifs <;> first | rfl | simp_all
    · intro h3; omega
    · intro h5; omega
  · refine ⟨_, generate_assignments_eq_3 component h a instance_input start_row _ _ _ _ _ _ ht,
      ?_, ?_, ?_, ?_, ?_⟩
    · simp [assignment.set_witness, h, logic_and_flag.rows_amount]
    · rw [var_value_result]
      simp [assignment.set_witness, h, logic_and_flag.rows_amount]
    · intro h2; omega
    · intro _
      constructor
      · simp only [assignment.set_witness]
        split_ifs <;> first | rfl | simp_all
      · simp only [assignment.set_witness]
        split_ifs <;> first | rfl | simp_all
    · intro h5; omega
  · refine ⟨_, generate_assignments_eq_5 component h a instance_input start_row _ _ _ _ _ _ ht,
      ?_, ?_, ?_, ?_, ?_⟩
    · simp [assignment.set_witness, h, logic_and_flag.rows_amount]
    · rw [var_value_result]
      simp [assignment.set_witness, h, logic_and_flag.rows_amount]
    · intro h2; omega
    · intro h3; omega
    · intro _
      constructor
      · simp only [assignment.set_witness]
        split_ifs <;> first | rfl | simp_all
      · simp only [assignment.set_witness]
        split_ifs <;> first | rfl | simp_all

/-- Witness of claim C11: the width-2 component with `x = 0` and `y = 3` at start row 1. -/
theorem generate_assignments_zero_input_witness :
    (example_component_2.WitnessesAmount = 2 ∨ example_component_2.WitnessesAmount = 3 ∨
      example_component_2.WitnessesAmount = 5) ∧
    (var_value example_assignment example_zero_input.x = 0 ∨
      var_value example_assignment example_zero_input.y = 0) ∧
    ∃ a1, generate_assignments example_component_2 example_assignment example_zero_input 1 =
        some (result_type.of example_component_2 1, a1) ∧
      a1.witness (example_component_2.W (example_component_2.WitnessesAmount - 1))
        (1 + example_component_2.rows_amount - 1) = 0 ∧
      a1.witness (example_component_2.W 1) (1 + 1) = 0 ∧
      a1.witness (example_component_2.W 0) (1 + 1) = 0 := by
  have hW : example_component_2.WitnessesAmount = 2 ∨
      example_component_2.WitnessesAmount = 3 ∨ example_component_2.WitnessesAmount = 5 :=
    Or.inl rfl
  have hzero : var_value example_assignment example_zero_input.x = 0 ∨
      var_value example_assignment example_zero_input.y = 0 := Or.inl rfl
  obtain ⟨a1, hgen, hres, _, h2, _, _⟩ :=
    generate_assignments_zero_input example_component_2 hW example_assignment
      example_zero_input 1 hzero
  exact ⟨hW, hzero, a1, hgen, hres, (h2 rfl).1, (h2 rfl).2⟩

theorem distinct_columns_ne (component : logic_and_flag) (hd : component.distinct_columns)
    (j k : Nat) (hj : j < component.WitnessesAmount) (hk : k < component.WitnessesAmount)
    (hjk : j ≠ k) : component.W j ≠ component.W k :=
  fun h => hjk (hd j k hj hk h)

theorem generate_assignments_cells_2 [Field F] [DecidableEq F] (component : logic_and_flag)
    (h : component.WitnessesAmount = 2) (hd : component.distinct_columns)
    (a : assignment F) (instance_input : input_type) (s : Nat) (t0 t1 t2 t3 t4 t5 : F)
    (ht : packed_values (var_value a instance_input.x) (var_value a instance_input.y) =
      [t0, t1, t2, t3, t4, t5]) :
    ∃ a1, generate_assignments component a instance_input s =
        some (result_type.of component s, a1) ∧
      a1.witness (component.W 0) s = t0 ∧ a1.witness (component.W 1) s = t1 ∧
      a1.witness (component.W 0) (s + 1) = t2 ∧ a1.witness (component.W 1) (s + 1) = t3 ∧
      a1.witness (component.W 0) (s + 2) = t4 ∧ a1.witness (component.W 1) (s + 2) = t5 := by
  have h01 : component.W 0 ≠ component.W 1 :=
    distinct_columns_ne component hd 0 1 (by omega) (by omega) (by omega)
  refine ⟨_, generate_assignments_eq_2 component h a instance_input s _ _ _ _ _ _ ht,
    ?_, ?_, ?_, ?_, ?_, ?_⟩ <;>
    simp [assignment.set_witness, h01, h01.symm]

theorem generate_assignments_cells_3 [Field F] [DecidableEq F] (component : logic_and_flag)
    (h : component.WitnessesAmount = 3) (hd : component.distinct_columns)
    (a : assignment F) (instance_input : input_type) (s : Nat) (t0 t1 t2 t3 t4 t5 : F)
    (ht : packed_values (var_value a instance_input.x) (var_value a instance_input.y) =
      [t0, t1, t2, t3, t4, t5]) :
    ∃ a1, generate_assignments component a instance_input s =
        some (result_type.of component s, a1) ∧
      a1.witness (component.W 0) s = t0 ∧ a1.witness (component.W 1) s = t1 ∧
      a1.witness (component.W 2) s = t2 ∧ a1.witness (component.W 0) (s + 1) = t3 ∧
      a1.witness (component.W 1) (s + 1) = t4 ∧ a1.witness (component.W 2) (s + 1) = t5 := by
  have h01 : component.W 0 ≠ component.W 1 :=
    distinct_columns_ne component hd 0 1 (by omega) (by omega) (by omega)
  have h02 : component.W 0 ≠ component.W 2 :=
    distinct_columns_ne component hd 0 2 (by omega) (by omega) (by omega)
  have h12 : component.W 1 ≠ component.W 2 :=
    distinct_columns_ne component hd 1 2 (by omega) (by omega) (by omega)
  refine ⟨_, generate_assignments_eq_3 component h a instance_input s _ _ _ _ _ _ ht,
    ?_, ?_, ?_, ?_, ?_, ?_⟩ <;>
    simp [assignment.set_witness, h01, h01.symm, h02, h02.symm, h12, h12.symm]

theorem generate_assignments_cells_5 [Field F] [DecidableEq F] (component : logic_and_flag)
    (h : component.WitnessesAmount = 5) (hd : component.distinct_columns)
    (a : assignment F) (instance_input : input_type) (s : Nat) (t0 t1 t2 t3 t4 t5 : F)
    (ht : packed_values (var_value a instance_input.x) (var_value a instance_input.y) =
      [t0, t1, t2, t3, t4, t5]) :
    ∃ a1, generate_assignments component a instance_input s =
        some (result_type.of component s, a1) ∧
      a1.witness (component.W 0) s = t0 ∧ a1.witness (component.W 1) s = t1 ∧
      a1.witness (component.W 2) s = t2 ∧ a1.witness (component.W 3) s = t3 ∧
      a1.witness (component.W 4) s = t5 := by
  have hne : ∀ j k, j < 5 → k < 5 → j ≠ k → component.W j ≠ component.W k :=
    fun j k hj hk hjk => distinct_columns_ne component hd j k (by omega) (by omega) hjk
  have h01 := hne 0 1 (by omega) (by omega) (by omega)
  have h02 := hne 0 2 (by omega) (by omega) (by omega)
  have h03 := hne 0 3 (by omega) (by omega) (by omega)
  have h04 := hne 0 4 (by omega) (by omega) (by omega)
  have h12 := hne 1 2 (by omega) (by omega) (by omega)
  have h13 := hne 1 3 (by omega) (by omega) (by omega)
  have h14 := hne 1 4 (by omega) (by omega) (by omega)
  have h23 := hne 2 3 (by omega) (by omega) (by omega)
  have h24 := hne 2 4 (by omega) (by omega) (by omega)
  have h34 := hne 3 4 (by omega) (by omega) (by omega)
  refine ⟨_, generate_assignments_eq_5 component h a instance_input s _ _ _ _ _ _ ht,
    ?_, ?_, ?_, ?_, ?_⟩ <;>
    simp [assignment.set_witness, h01, h01.symm, h02, h02.symm, h03, h03.symm, h04, h04.symm,
      h12, h12.symm, h13, h13.symm, h14, h14.symm, h23, h23.symm, h24, h24.symm, h34, h34.symm]

/-- Claim C12, as amended: for a supported width and pairwise distinct witness columns, after
`generate_assignments` every cell `(W(j), start_row + i)` with `i < rows_amount` and
`j < WitnessesAmount` holds `t[i * WitnessesAmount + j]`, except that the last cell
`(W(WitnessesAmount - 1), start_row + rows_amount - 1)` holds `t[5] = f`.  For the widths 2 and
3 the last cell is the cell of `t[5]`, so every cell holds `t[i * WitnessesAmount + j]`; for
width 5 the cell `(W(4), start_row)` holds `f` and `t[4] = v - p` is stored nowhere. -/
theorem generate_assignments_layout [Field F] [DecidableEq F] (component : logic_and_flag)
    (hW : component.WitnessesAmount = 2 ∨ component.WitnessesAmount = 3 ∨
      component.WitnessesAmount = 5)
    (hd : component.distinct_columns)
    (a : assignment F) (instance_input : input_type) (start_row : Nat) :
    ∃ a1, generate_assignments component a instance_input start_row =
        some (result_type.of component start_row, a1) ∧
      (∀ i j, i < component.rows_amount → j < component.WitnessesAmount →
        (packed_values (var_value a instance_input.x) (var_value a instance_input.y)).get?
            (if i + 1 = component.rows_amount ∧ j + 1 = component.WitnessesAmount then 5
              else i * component.WitnessesAmount + j) =
          some (a1.witness (component.W j) (start_row + i))) ∧
      (component.WitnessesAmount = 2 ∨ component.WitnessesAmount = 3 →
        ∀ i j, i < component.rows_amount → j < component.WitnessesAmount →
          (packed_values (var_value a instance_input.x) (var_value a instance_input.y)).get?
              (i * component.WitnessesAmount + j) =
            some (a1.witness (component.W j) (start_row + i))) := by
  rcases hW with h | h | h
  · obtain ⟨a1, hgen, c0, c1, c2, c3, c4, c5⟩ :=
      generate_assignments_cells_2 component h hd a instance_input start_row _ _ _ _ _ _ rfl
    have hr : component.rows_amount = 3 := by simp [logic_and_flag.rows_amount, h]
    have key : ∀ i j, i < component.rows_amount → j < component.WitnessesAmount →
        (packed_values (var_value a instance_input.x) (var_value a instance_input.y)).get?
            (i * component.WitnessesAmount + j) =
          some (a1.witness (component.W j) (start_row + i)) := by
      intro i j hi hj
      rw [hr] at hi
      rw [h] at hj
      rw [h]
      interval_cases i <;> interval_cases j <;>
        simp [packed_values, c0, c1, c2, c3, c4, c5]
    refine ⟨a1, hgen, ?_, fun _ => key⟩
    intro i j hi hj
    rw [← key i j hi hj]
    split_ifs with hlast
    · have : i * component.WitnessesAmount + j = 5 := by
        rw [hr] at hlast; rw [h] at hlast ⊢; omega
      rw [this]
    · rfl
  · obtain ⟨a1, hgen, c0, c1, c2, c3, c4, c5⟩ :=
      generate_assignments_cells_3 component h hd a instance_input start_row _ _ _ _ _ _ rfl
    have hr : component.rows_amount = 2 := by simp [logic_and_flag.rows_amount, h]
    have key : ∀ i j, i < component.rows_amount → j < component.WitnessesAmount →
        (packed_values (var_value a instance_input.x) (var_value a instance_input.y)).get?
            (i * component.WitnessesAmount + j) =
          some (a1.witness (component.W j) (start_row + i)) := by
      intro i j hi hj
      rw [hr] at hi
      rw [h] at hj
      rw [h]
      interval_cases i <;> interval_cases j <;>
        simp [packed_values, c0, c1, c2, c3, c4, c5]
    refine ⟨a1, hgen, ?_, fun _ => key⟩
    intro i j hi hj
    rw [← key i j hi hj]
    split_ifs with hlast
    · have : i * component.WitnessesAmount + j = 5 := by
        rw [hr] at hlast; rw [h] at hlast ⊢; omega
      rw [this]
    · rfl
  · obtain ⟨a1, hgen, c0, c1, c2, c3, c5⟩ :=
      generate_assignments_cells_5 component h hd a instance_input start_row _ _ _ _ _ _ rfl
    have hr : component.rows_amount = 1 := by simp [logic_and_flag.rows_amount, h]
    refine ⟨a1, hgen, ?_, fun h23 => by omega⟩
    intro i j hi hj
    rw [hr] at hi
    rw [h] at hj
    rw [hr, h]
    interval_cases i
    interval_cases j <;> simp [packed_values, c0, c1, c2, c3, c5]

/-- Witness of claim C12 as amended: the width-2 component on the inputs 2 and 3. -/
theorem generate_assignments_layout_witness :
    (example_component_2.WitnessesAmount = 2 ∨ example_component_2.WitnessesAmount = 3 ∨
      example_component_2.WitnessesAmount = 5) ∧
    example_component_2.distinct_columns ∧
    ∃ a1, generate_assignments example_component_2 example_assignment example_input 1 =
        some (result_type.of example_component_2 1, a1) ∧
      ∀ i j, i < example_component_2.rows_amount → j < example_component_2.WitnessesAmount →
        (packed_values (var_value example_assignment example_input.x)
            (var_value example_assignment example_input.y)).get?
            (if i + 1 = example_component_2.rows_amount ∧
                j + 1 = example_component_2.WitnessesAmount then 5
              else i * example_component_2.WitnessesAmount + j) =
          some (a1.witness (example_component_2.W j) (1 + i)) := by
  have hW : example_component_2.WitnessesAmount = 2 ∨
      example_component_2.WitnessesAmount = 3 ∨ example_component_2.WitnessesAmount = 5 :=
    Or.inl rfl
  have hd : example_component_2.distinct_columns := fun j k _ _ hjk => hjk
  obtain ⟨a1, hgen, hcells, _⟩ :=
    generate_assignments_layout example_component_2 hW hd example_assignment example_input 1
  exact ⟨hW, hd, a1, hgen, hcells⟩

/-- Counterexample to claim C12 as stated: for the width-5 component on the columns 0 to 4 and
the inputs 2 and 3 at start row 1, the indices `i = 0 < rows_amount` and
`j = 4 < WitnessesAmount` are in range and `t[0 * 5 + 4] = v - p = -35/6`, but the cell
`(W(4), start_row + 0)` holds `f = 1`. -/
theorem row_major_layout_fails_width_5 :
    example_component_5.WitnessesAmount = 5 ∧ example_component_5.distinct_columns ∧
    ∃ a1, generate_assignments example_component_5 example_assignment example_input 1 =
        some (result_type.of example_component_5 1, a1) ∧
      0 < example_component_5.rows_amount ∧ 4 < example_component_5.WitnessesAmount ∧
      (packed_values (var_value example_assignment example_input.x)
          (var_value example_assignment example_input.y)).get?
        (0 * example_component_5.WitnessesAmount + 4) = some (-35 / 6) ∧
      a1.witness (example_component_5.W 4) (1 + 0) = 1 ∧
      (packed_values (var_value example_assignment example_input.x)
          (var_value example_assignment example_input.y)).get?
        (0 * example_component_5.WitnessesAmount + 4) ≠
          some (a1.witness (example_component_5.W 4) (1 + 0)) := by
  have ht : (packed_values (var_value example_assignment example_input.x)
      (var_value example_assignment example_input.y)).get?
        (0 * example_component_5.WitnessesAmount + 4) = some (-35 / 6) := by
    simp [packed_values, var_value, example_assignment, example_input, example_component_5]
    norm_num
  have hd : example_component_5.distinct_columns := fun j k _ _ hjk => hjk
  obtain ⟨a1, hgen, _, _, _, _, c5⟩ :=
    generate_assignments_cells_5 example_component_5 rfl hd example_assignment
      example_input 1 _ _ _ _ _ _ rfl
  have hcell : a1.witness (example_component_5.W 4) (1 + 0) = 1 := by
    rw [show 1 + 0 = 1 from rfl, c5]
    simp [var_value, example_assignment, example_input]
    norm_num
  refine ⟨rfl, hd, a1, hgen, by decide, by decide, ht, hcell, ?_⟩
  rw [ht, hcell]
  norm_num

/-! ## The logic-AND-flag gadget: copy constraints, selector row, shape -/

/-- Claim C13: for every width, input and start row, `generate_copy_constraints` appends
exactly two copy constraints to the circuit, first the pair of the absolute witness variable
at column `W(0)`, row `start_row`, and `input.x`, then the pair of the absolute witness
variable at column `W(1)`, row `start_row`, and `input.y`; every other part of the circuit is
unchanged.  The assignment table is an argument that the function only passes along. -/
theorem generate_copy_constraints_appends (component : logic_and_flag) (bp : circuit F)
    (a : assignment F) (instance_input : input_type) (start_row : Nat) :
    (generate_copy_constraints component bp a instance_input start_row).copy_constraints =
      bp.copy_constraints ++
        [(var.abs (component.W 0) start_row, instance_input.x),
         (var.abs (component.W 1) start_row, instance_input.y)] ∧
    (var.abs (component.W 0) start_row) =
      { index := component.W 0, rotation := start_row, relative := false,
        type := column_type.witness } ∧
    (var.abs (component.W 1) start_row) =
      { index := component.W 1, rotation := start_row, relative := false,
        type := column_type.witness } ∧
    generate_copy_constraints component bp a instance_input start_row =
      { bp with copy_constraints := bp.copy_constraints ++
          [(var.abs (component.W 0) start_row, instance_input.x),
           (var.abs (component.W 1) start_row, instance_input.y)] } ∧
    (generate_copy_constraints component bp a instance_input start_row).gates = bp.gates ∧
    (generate_copy_constraints component bp a instance_input start_row).lookup_gates =
      bp.lookup_gates ∧
    (generate_copy_constraints component bp a instance_input start_row).next_selector_index =
      bp.next_selector_index := by
  refine ⟨?_, rfl, rfl, ?_, rfl, rfl, rfl⟩
  · simp [generate_copy_constraints, circuit.add_copy_constraint]
  · simp [generate_copy_constraints, circuit.add_copy_constraint]

theorem generate_gates_supported [Field F] (component : logic_and_flag)
    (hW : component.WitnessesAmount = 2 ∨ component.WitnessesAmount = 3 ∨
      component.WitnessesAmount = 5)
    (bp : circuit F) (a : assignment F) (instance_input : input_type) (sel : Nat) :
    ∃ bp1, generate_gates component bp a instance_input sel = some bp1 := by
  rcases hW with h | h | h
  · exact ⟨generate_gates_2 component bp a instance_input sel, by simp only [generate_gates, h]⟩
  · exact ⟨generate_gates_3 component bp a instance_input sel, by simp only [generate_gates, h]⟩
  · exact ⟨generate_gates_5 component bp a instance_input sel, by simp only [generate_gates, h]⟩

/-- Claim C14, amended: for a supported width and every start row that a `std::uint32_t`
holds, `generate_circuit` returns a result and adds exactly one selector activation, for the
found or newly allocated selector index.  When the width is 2 the row is `start_row + 1`
reduced modulo 2^32: it is `start_row + 1` when that is below 2^32, and row 0 when
`start_row` is 2^32 - 1.  When the width is 3 or 5 the row is `start_row`.  The call returns the
result variable `(W(WitnessesAmount - 1), start_row + rows_amount - 1)`, which is the variable
`generate_assignments` returns for that start row. -/
theorem generate_circuit_enables_one_row [Field F] [DecidableEq F]
    (component : logic_and_flag)
    (hW : component.WitnessesAmount = 2 ∨ component.WitnessesAmount = 3 ∨
      component.WitnessesAmount = 5)
    (bp : circuit F) (a : assignment F) (instance_input : input_type) (start_row : Nat)
    (hs : start_row < 2 ^ 32) :
    ∃ sel bp1 a1,
      generate_circuit component bp a instance_input start_row =
        some (result_type.of component start_row, bp1, a1) ∧
      a1.enabled = a.enabled ++ [(sel, selector_row component start_row)] ∧
      (a.find_selector component = some sel ∨
        (a.find_selector component = none ∧ sel = a.next_selector_index)) ∧
      (component.WitnessesAmount = 2 →
        selector_row component start_row = (start_row + 1) % 2 ^ 32) ∧
      (component.WitnessesAmount = 2 → start_row + 1 < 2 ^ 32 →
        selector_row component start_row = start_row + 1) ∧
      (component.WitnessesAmount = 2 → start_row + 1 = 2 ^ 32 →
        selector_row component start_row = 0) ∧
      (component.WitnessesAmount = 3 ∨ component.WitnessesAmount = 5 →
        selector_row component start_row = start_row) ∧
      (result_type.of component start_row).output =
        var.rel (component.W (component.WitnessesAmount - 1))
          (((start_row + component.rows_amount : Nat) : Int) - 1) ∧
      ∀ (a2 : assignment F) (input2 : input_type),
        ∃ a3, generate_assignments component a2 input2 start_row =
          some (result_type.of component start_row, a3) := by
  have hrow2 : component.WitnessesAmount = 2 →
      selector_row component start_row = (start_row + 1) % 2 ^ 32 := by
    intro h; unfold selector_row; rw [if_pos h]
  have hrow2lt : component.WitnessesAmount = 2 → start_row + 1 < 2 ^ 32 →
      selector_row component start_row = start_row + 1 := by
    intro h hlt; rw [hrow2 h]; exact Nat.mod_eq_of_lt hlt
  have hrow2top : component.WitnessesAmount = 2 → start_row + 1 = 2 ^ 32 →
      selector_row component start_row = 0 := by
    intro h heq; rw [hrow2 h, heq]; exact Nat.mod_self _
  have hrow35 : component.WitnessesAmount = 3 ∨ component.WitnessesAmount = 5 →
      selector_row component start_row = start_row := by
    intro h
    have hne : ¬ component.WitnessesAmount = 2 := by omega
    unfold selector_row
    rw [if_neg hne, Nat.add_zero]
    exact Nat.mod_eq_of_lt hs
  have hassign : ∀ (a2 : assignment F) (input2 : input_type),
      ∃ a3, generate_assignments component a2 input2 start_row =
        some (result_type.of component start_row, a3) := by
    intro a2 input2
    obtain ⟨a3, h3, _⟩ := generate_assignments_flag component hW a2 input2 start_row
    exact ⟨a3, h3⟩
  cases hfind : a.find_selector component with
  | some sel =>
    exact ⟨sel, _, _,
      generate_circuit_hit component hW bp a instance_input start_row sel hfind,
      rfl, Or.inl rfl, hrow2, hrow2lt, hrow2top, hrow35, rfl, hassign⟩
  | none =>
    obtain ⟨bp1, hg⟩ := generate_gates_supported component hW bp
      (a.allocate_selector component component.gates_amount).2 instance_input
      a.next_selector_index
    refine ⟨a.next_selector_index,
      generate_copy_constraints component bp1
        ((a.allocate_selector component component.gates_amount).2.enable_selector
          a.next_selector_index (selector_row component start_row)) instance_input start_row,
      (a.allocate_selector component component.gates_amount).2.enable_selector
          a.next_selector_index (selector_row component start_row),
      ?_, ?_, Or.inr ⟨rfl, rfl⟩, hrow2, hrow2lt, hrow2top, hrow35, rfl, hassign⟩
    · simp only [generate_circuit, hfind, has_generate_gates_supported component hW]
      rw [show (a.allocate_selector component component.gates_amount).1 =
        a.next_selector_index from rfl, hg]
      rfl
    · rfl

/-- Witness of claim C14: the width-2 component at start row 4. -/
theorem generate_circuit_enables_one_row_witness :
    (example_component_2.WitnessesAmount = 2 ∨ example_component_2.WitnessesAmount = 3 ∨
      example_component_2.WitnessesAmount = 5) ∧
    4 < 2 ^ 32 ∧
    ∃ sel bp1 a1,
      generate_circuit example_component_2 (circuit.empty : circuit ℚ) example_assignment
          example_input 4 = some (result_type.of example_component_2 4, bp1, a1) ∧
      a1.enabled = example_assignment.enabled ++ [(sel, selector_row example_component_2 4)] ∧
      selector_row example_component_2 4 = 4 + 1 := by
  have hW : example_component_2.WitnessesAmount = 2 ∨
      example_component_2.WitnessesAmount = 3 ∨ example_component_2.WitnessesAmount = 5 :=
    Or.inl rfl
  obtain ⟨sel, bp1, a1, hgen, hen, _, _, h2, _⟩ :=
    generate_circuit_enables_one_row example_component_2 hW circuit.empty
      example_assignment example_input 4 (by decide)
  exact ⟨hW, by decide, sel, bp1, a1, hgen, hen, h2 rfl (by decide)⟩

/-- Counterexample to claim C14 as stated: for the width-2 component at the start row
2^32 - 1, `generate_circuit` returns and its one selector activation is on row 0, not on row
`start_row + 1`. -/
theorem selector_enabled_on_row_zero :
    example_last_row < 2 ^ 32 ∧
    ∃ bp1 a1,
      generate_circuit example_component_2 (circuit.empty : circuit ℚ) example_assignment
          example_input example_last_row =
        some (result_type.of example_component_2 example_last_row, bp1, a1) ∧
      a1.enabled = example_assignment.enabled ++ [(0, 0)] ∧
      ¬ ∃ sel, a1.enabled = example_assignment.enabled ++ [(sel, example_last_row + 1)] := by
  refine ⟨by decide, _, _, rfl, by decide, ?_⟩
  rintro ⟨sel, h⟩
  have h0 : ([(0, 0)] : List (Nat × Nat)) = [(sel, example_last_row + 1)] := h
  exact absurd (Prod.mk.inj (List.cons.inj h0).1).2 (by decide)

/-- Claim C17: `gates_amount` is 1 and `rows_amount` is the truncated quotient
`6 / WitnessesAmount`: for a width of at least 1 it is the largest number of full rows of
that width that fit into 6 values; it is 3, 2 and 1 for the widths 2, 3 and 5, 1 for width 4,
and 0 for every width greater than 6.  It is a plain value for every width: nothing is
reported when the width does not divide 6. -/
theorem rows_amount_floor (component : logic_and_flag) :
    component.gates_amount = 1 ∧
    component.rows_amount = 6 / component.WitnessesAmount ∧
    (1 ≤ component.WitnessesAmount →
      component.rows_amount * component.WitnessesAmount ≤ 6 ∧
      6 < (component.rows_amount + 1) * component.WitnessesAmount) ∧
    (component.WitnessesAmount = 2 → component.rows_amount = 3) ∧
    (component.WitnessesAmount = 3 → component.rows_amount = 2) ∧
    (component.WitnessesAmount = 5 → component.rows_amount = 1) ∧
    (component.WitnessesAmount = 4 → component.rows_amount = 1) ∧
    (6 < component.WitnessesAmount → component.rows_amount = 0) := by
  refine ⟨rfl, rfl, ?_, ?_, ?_, ?_, ?_, ?_⟩
  · intro hw
    constructor
    · exact Nat.div_mul_le_self 6 component.WitnessesAmount
    · have hdm := Nat.div_add_mod 6 component.WitnessesAmount
      have hlt := Nat.mod_lt 6 (show component.WitnessesAmount > 0 from hw)
      have hexp : (component.rows_amount + 1) * component.WitnessesAmount =
          component.WitnessesAmount * (6 / component.WitnessesAmount) +
            component.WitnessesAmount := by
        simp only [logic_and_flag.rows_amount]
        ring
      omega
  · intro h; simp [logic_and_flag.rows_amount, h]
  · intro h; simp [logic_and_flag.rows_amount, h]
  · intro h; simp [logic_and_flag.rows_amount, h]
  · intro h; simp [logic_and_flag.rows_amount, h]
  · intro h; exact Nat.div_eq_of_lt h

/-! ## The logic-AND-flag gadget: completeness and the layout variants -/

theorem packed_values_satisfy [Field F] [DecidableEq F] (x y : F) :
    ∃ p v d f, packed_values x y = [x, y, p, v, d, f] ∧
      p = x * y ∧ (f = 0 ∨ f = 1) ∧ f = p * v ∧ d = v - p ∧ (d = 0 ∨ f = 1) := by
  refine ⟨_, _, _, _, rfl, rfl, ?_, mul_comm _ _, rfl, ?_⟩
  · by_cases hp : x * y = 0
    · left; simp [hp]
    · right
      simp only [if_neg hp]
      exact inv_mul_cancel₀ hp
  · by_cases hp : x * y = 0
    · left; simp [hp]
    · right
      simp only [if_neg hp]
      exact inv_mul_cancel₀ hp

/-- Claim C18, amended: completeness.  For a supported width with pairwise distinct witness
columns, every input and every start row for which the 32-bit sum
`start_row + (WitnessesAmount == 2 ? 1 : 0)` does not wrap: `generate_assignments` and
`generate_gates` both return, a gate is emitted, and every constraint of the emitted gate
evaluates to zero on the table written by `generate_assignments`, on the row where
`generate_circuit` enables the selector. -/
theorem generate_assignments_satisfies_gate [Field F] [DecidableEq F]
    (component : logic_and_flag)
    (hW : component.WitnessesAmount = 2 ∨ component.WitnessesAmount = 3 ∨
      component.WitnessesAmount = 5)
    (hd : component.distinct_columns)
    (bp : circuit F) (a_gen : assignment F) (input_gen : input_type)
    (first_selector_index : Nat)
    (a : assignment F) (instance_input : input_type) (start_row : Nat)
    (hrow : start_row + (if component.WitnessesAmount = 2 then 1 else 0) < 2 ^ 32) :
    ∃ a1 bp1, generate_assignments component a instance_input start_row =
        some (result_type.of component start_row, a1) ∧
      generate_gates component bp a_gen input_gen first_selector_index = some bp1 ∧
      emitted_gates bp bp1 ≠ [] ∧
      ∀ g ∈ emitted_gates bp bp1, ∀ c ∈ g.constraints,
        c.eval a1 (selector_row component start_row) = 0 := by
  obtain ⟨p, v, d, f, ht, hp, hf, hfpv, hdv, hdf⟩ :=
    packed_values_satisfy (var_value a instance_input.x) (var_value a instance_input.y)
  rw [selector_row_of_lt component start_row hrow]
  rcases hW with h | h | h
  · obtain ⟨a1, hgen, c0, c1, c2, c3, c4, c5⟩ :=
      generate_assignments_cells_2 component h hd a instance_input start_row _ _ _ _ _ _ ht
    refine ⟨a1, generate_gates_2 component bp a_gen input_gen first_selector_index, hgen,
      by simp only [generate_gates, h], ?_, ?_⟩
    · simp [emitted_gates, generate_gates_2, circuit.add_gate_at]
    · simp only [emitted_gates, generate_gates_2, circuit.add_gate_at, circuit.add_constraint,
        selector_row, h, expr.eval, var.eval, var.rel, var.resolve, List.drop_left,
        List.mem_singleton, forall_eq, List.mem_cons, forall_eq_or_imp, if_true,
        List.not_mem_nil, false_imp_iff, implies_true, and_true, Nat.cast_add, Nat.cast_one,
        add_zero, add_neg_cancel_right, Int.toNat_ofNat, toNat_row_succ, toNat_row_succ_succ,
        mul_eq_zero, sub_eq_zero, c0, c1, c2, c3, c4, c5]
      exact ⟨hp, hf, hfpv, hdv, hdf⟩
  · obtain ⟨a1, hgen, c0, c1, c2, c3, c4, c5⟩ :=
      generate_assignments_cells_3 component h hd a instance_input start_row _ _ _ _ _ _ ht
    refine ⟨a1, generate_gates_3 component bp a_gen input_gen first_selector_index, hgen,
      by simp only [generate_gates, h], ?_, ?_⟩
    · simp [emitted_gates, generate_gates_3, circuit.add_gate_at]
    · simp only [emitted_gates, generate_gates_3, circuit.add_gate_at, circuit.add_constraint,
        selector_row, h, expr.eval, var.eval, var.rel, var.resolve, List.drop_left,
        List.mem_singleton, forall_eq, List.mem_cons, forall_eq_or_imp, if_true,
        List.not_mem_nil, false_imp_iff, implies_true, and_true, Nat.cast_add, Nat.cast_one,
        add_zero, add_neg_cancel_right, Int.toNat_ofNat, toNat_row_succ, toNat_row_succ_succ,
        mul_eq_zero, sub_eq_zero, Nat.succ_ne_self, reduceCtorEq, if_false, Nat.reduceEqDiff,
        c0, c1, c2, c3, c4, c5]
      exact ⟨hp, hf, hfpv.trans (mul_comm _ _), hdv, hdf⟩
  · obtain ⟨a1, hgen, c0, c1, c2, c3, c5⟩ :=
      generate_assignments_cells_5 component h hd a instance_input start_row _ _ _ _ _ _ ht
    refine ⟨a1, generate_gates_5 component bp a_gen input_gen first_selector_index, hgen,
      by simp only [generate_gates, h], ?_, ?_⟩
    · simp [emitted_gates, generate_gates_5, circuit.add_gate_at]
    · simp only [emitted_gates, generate_gates_5, circuit.add_gate_at, circuit.add_constraint,
        selector_row, h, expr.eval, var.eval, var.rel, var.resolve, List.drop_left,
        List.mem_singleton, forall_eq, List.mem_cons, forall_eq_or_imp, if_true,
        List.not_mem_nil, false_imp_iff, implies_true, and_true, Nat.cast_add, Nat.cast_one,
        add_zero, add_neg_cancel_right, Int.toNat_ofNat, toNat_row_succ, toNat_row_succ_succ,
        mul_eq_zero, sub_eq_zero, Nat.succ_ne_self, reduceCtorEq, if_false, Nat.reduceEqDiff,
        c0, c1, c2, c3, c5]
      refine ⟨hp, hf, hfpv, ?_⟩
      rcases hdf with h0 | h1
      · left; rw [hdv] at h0; exact sub_eq_zero.mp h0
      · right; exact h1

/-- Witness of claim C18: the width-2 component on the inputs 2 and 3 at start row 1. -/
theorem generate_assignments_satisfies_gate_witness :
    (example_component_2.WitnessesAmount = 2 ∨ example_component_2.WitnessesAmount = 3 ∨
      example_component_2.WitnessesAmount = 5) ∧
    example_component_2.distinct_columns ∧
    1 + (if example_component_2.WitnessesAmount = 2 then 1 else 0) < 2 ^ 32 ∧
    ∃ a1 bp1, generate_assignments example_component_2 example_assignment example_input 1 =
        some (result_type.of example_component_2 1, a1) ∧
      generate_gates example_component_2 (circuit.empty : circuit ℚ) example_assignment
        example_input 0 = some bp1 ∧
      emitted_gates circuit.empty bp1 ≠ [] ∧
      ∀ g ∈ emitted_gates circuit.empty bp1, ∀ c ∈ g.constraints,
        c.eval a1 (selector_row example_component_2 1) = 0 :=
  ⟨Or.inl rfl, fun _ _ _ _ hjk => hjk, by decide,
    generate_assignments_satisfies_gate example_component_2 (Or.inl rfl)
      (fun _ _ _ _ hjk => hjk) circuit.empty example_assignment example_input 0
      example_assignment example_input 1 (by decide)⟩

/-- Counterexample to claim C18 as stated, in two parts.  First, for a width-2 component whose
two witness columns are both column 3, on the inputs 2 and 3 at start row 1: after
`generate_assignments` the first constraint of the emitted gate evaluates to -53/6 on the
selector row.  Second, for the width-2 component on the distinct columns 0 and 1 at the start
row 2^32 - 1, on a table that holds 3 in column 1: the selector row is row 0, which
`generate_assignments` does not write, and the second constraint of the emitted gate evaluates
to 6 there. -/
theorem repeated_columns_or_wrapped_row_violate_gate :
    (∃ a1, generate_assignments example_component_repeated example_assignment example_input 1 =
        some (result_type.of example_component_repeated 1, a1) ∧
      generate_gates example_component_repeated (circuit.empty : circuit ℚ) example_assignment
          example_input 0 =
        some (generate_gates_2 example_component_repeated circuit.empty example_assignment
          example_input 0) ∧
      ∃ g ∈ emitted_gates (circuit.empty : circuit ℚ)
          (generate_gates_2 example_component_repeated circuit.empty example_assignment
            example_input 0),
        ∃ c ∈ g.constraints,
          c.eval a1 (selector_row example_component_repeated 1) = -53 / 6 ∧
          c.eval a1 (selector_row example_component_repeated 1) ≠ 0) ∧
    (example_component_2.distinct_columns ∧ example_last_row < 2 ^ 32 ∧
      ∃ a1, generate_assignments example_component_2 example_satisfying example_input
          example_last_row = some (result_type.of example_component_2 example_last_row, a1) ∧
        generate_gates example_component_2 (circuit.empty : circuit ℚ) example_assignment
            example_input 0 =
          some (generate_gates_2 example_component_2 circuit.empty example_assignment
            example_input 0) ∧
        ∃ g ∈ emitted_gates (circuit.empty : circuit ℚ)
            (generate_gates_2 example_component_2 circuit.empty example_assignment
              example_input 0),
          ∃ c ∈ g.constraints,
            c.eval a1 (selector_row example_component_2 example_last_row) = 6 ∧
            c.eval a1 (selector_row example_component_2 example_last_row) ≠ 0) := by
  have hs1 : selector_row example_component_repeated 1 = 2 := by decide
  have hs : selector_row example_component_2 example_last_row = 0 := by decide
  constructor
  · have hev : (expr.sub (expr.v (var.rel 3 0))
          (expr.mul (expr.v (var.rel 3 (-1))) (expr.v (var.rel 3 (-1)))) : expr ℚ).eval
        (((((((example_assignment.set_witness 3 1 2).set_witness 3 1 3).set_witness
          3 (1 + 1) 6).set_witness 3 (1 + 1) (1 / 6)).set_witness
          3 (1 + 2) (-35 / 6)).set_witness 3 (1 + 2) 1).set_witness 3 (1 + 2) 1) 2 = -53 / 6 := by
      simp [expr.eval, var.eval, var.rel, var.resolve, assignment.set_witness,
        example_assignment]
      norm_num
    refine ⟨_, generate_assignments_eq_2 example_component_repeated rfl example_assignment
      example_input 1 2 3 6 (1 / 6) (-35 / 6) 1 ?_, rfl, _, List.mem_singleton_self _, _,
      List.mem_cons_self _ _, ?_, ?_⟩
    · simp [packed_values, var_value, example_assignment, example_input]
      norm_num
    · rw [hs1]; exact hev
    · rw [hs1]
      have : (-53 / 6 : ℚ) ≠ 0 := by norm_num
      exact hev ▸ this
  · have hev : (expr.mul (expr.v (var.rel 1 1))
          (expr.sub (expr.v (var.rel 1 1)) (expr.const 1)) : expr ℚ).eval
        (((((((example_satisfying.set_witness 0 example_last_row 0).set_witness
          1 example_last_row 0).set_witness 0 (example_last_row + 1) 0).set_witness
          1 (example_last_row + 1) 0).set_witness 0 (example_last_row + 2) 0).set_witness
          1 (example_last_row + 2) 0).set_witness 1 (example_last_row + 2) 0) 0 = 6 := by
      simp [expr.eval, var.eval, var.rel, var.resolve, assignment.set_witness,
        example_satisfying, example_last_row]
      norm_num
    refine ⟨fun _ _ _ _ hjk => hjk, by decide, _,
      generate_assignments_eq_2 example_component_2 rfl example_satisfying
        example_input example_last_row 0 0 0 0 0 0 ?_, rfl, _, List.mem_singleton_self _, _,
      List.mem_cons_of_mem _ (List.mem_cons_self _ _), ?_, ?_⟩
    · simp [packed_values, var_value, example_satisfying, example_input]
    · rw [hs]; exact hev
    · rw [hs]
      have : (6 : ℚ) ≠ 0 := by norm_num
      exact hev ▸ this

/-- Claim C19: the layout variants encode the same constraints.  For width 2 or 3, let
`x, y, p, v, d, f` be the values of the six cells of the layout (cell `k` is column
`W(k mod WitnessesAmount)`, row `start_row + k / WitnessesAmount`), and let a table for a
width-5 component hold `x, y, p, v, f` in its five cells.  Then the five emitted constraints
hold on the anchor row of the layout (`start_row + 1` for width 2, `start_row` for width 3) if
and only if `d = v - p` and the four constraints emitted by the 5-column variant hold on its
anchor row; and those four hold if and only if `p = x * y`, `f * (f - 1) = 0`, `f = p * v` and
`(v - p) * (f - 1) = 0`. -/
theorem layouts_encode_same_constraints [Field F] (component component5 : logic_and_flag)
    (hW : component.WitnessesAmount = 2 ∨ component.WitnessesAmount = 3)
    (h5 : component5.WitnessesAmount = 5)
    (bp bp5 : circuit F) (a_gen a_gen5 : assignment F) (input_gen input_gen5 : input_type)
    (first_selector_index first_selector_index5 : Nat)
    (a a5 : assignment F) (start_row start_row5 : Nat)
    (hx : layout_value a5 component5 start_row5 0 = layout_value a component start_row 0)
    (hy : layout_value a5 component5 start_row5 1 = layout_value a component start_row 1)
    (hp : layout_value a5 component5 start_row5 2 = layout_value a component start_row 2)
    (hv : layout_value a5 component5 start_row5 3 = layout_value a component start_row 3)
    (hf : layout_value a5 component5 start_row5 4 = layout_value a component start_row 5) :
    ∃ bp1 bp51,
      generate_gates component bp a_gen input_gen first_selector_index = some bp1 ∧
      generate_gates component5 bp5 a_gen5 input_gen5 first_selector_index5 = some bp51 ∧
      ((∀ g ∈ emitted_gates bp bp1, ∀ c ∈ g.constraints,
          c.eval a (start_row + (if component.WitnessesAmount = 2 then 1 else 0)) = 0) ↔
        (layout_value a component start_row 4 =
            layout_value a component start_row 3 - layout_value a component start_row 2 ∧
          ∀ g ∈ emitted_gates bp5 bp51, ∀ c ∈ g.constraints,
            c.eval a5 (start_row5 + (if component5.WitnessesAmount = 2 then 1 else 0)) = 0)) ∧
      ((∀ g ∈ emitted_gates bp5 bp51, ∀ c ∈ g.constraints,
          c.eval a5 (start_row5 + (if component5.WitnessesAmount = 2 then 1 else 0)) = 0) ↔
        (layout_value a component start_row 2 =
            layout_value a component start_row 0 * layout_value a component start_row 1 ∧
          layout_value a component start_row 5 *
            (layout_value a component start_row 5 - 1) = 0 ∧
          layout_value a component start_row 5 =
            layout_value a component start_row 2 * layout_value a component start_row 3 ∧
          (layout_value a component start_row 3 - layout_value a component start_row 2) *
            (layout_value a component start_row 5 - 1) = 0)) := by
  have e5 : (∀ g ∈ emitted_gates bp5
        (generate_gates_5 component5 bp5 a_gen5 input_gen5 first_selector_index5),
        ∀ c ∈ g.constraints,
          c.eval a5 (start_row5 + (if component5.WitnessesAmount = 2 then 1 else 0)) = 0) ↔
      (layout_value a component start_row 2 =
            layout_value a component start_row 0 * layout_value a component start_row 1 ∧
          layout_value a component start_row 5 *
            (layout_value a component start_row 5 - 1) = 0 ∧
          layout_value a component start_row 5 =
            layout_value a component start_row 2 * layout_value a component start_row 3 ∧
          (layout_value a component start_row 3 - layout_value a component start_row 2) *
            (layout_value a component start_row 5 - 1) = 0) := by
    rw [← hx, ← hy, ← hp, ← hv, ← hf]
    simp only [emitted_gates, generate_gates_5, circuit.add_gate_at, circuit.add_constraint,
      h5, expr.eval, var.eval, var.rel, var.resolve, List.drop_left,
      List.mem_singleton, forall_eq, List.mem_cons, forall_eq_or_imp, if_true,
      List.not_mem_nil, false_imp_iff, implies_true, and_true, Nat.cast_add, Nat.cast_one,
      add_zero, Int.toNat_ofNat, sub_eq_zero, Nat.succ_ne_self, reduceCtorEq, if_false,
      Nat.reduceEqDiff, layout_value, Nat.reduceMod, Nat.reduceDiv, Nat.zero_mod, Nat.zero_div]
  rcases hW with h | h
  · refine ⟨generate_gates_2 component bp a_gen input_gen first_selector_index,
      generate_gates_5 component5 bp5 a_gen5 input_gen5 first_selector_index5,
      by simp only [generate_gates, h], by simp only [generate_gates, h5], ?_, e5⟩
    rw [e5]
    simp only [emitted_gates, generate_gates_2, circuit.add_gate_at, circuit.add_constraint,
      h, expr.eval, var.eval, var.rel, var.resolve, List.drop_left,
      List.mem_singleton, forall_eq, List.mem_cons, forall_eq_or_imp, if_true,
      List.not_mem_nil, false_imp_iff, implies_true, and_true, Nat.cast_add, Nat.cast_one,
      add_zero, add_neg_cancel_right, Int.toNat_ofNat, toNat_row_succ, toNat_row_succ_succ,
      sub_eq_zero, layout_value, Nat.reduceMod, Nat.reduceDiv, Nat.zero_mod, Nat.zero_div]
    constructor
    · rintro ⟨c1, c2, c3, c4, c5⟩
      exact ⟨c4, c1, c2, c3, by rw [← c4]; exact c5⟩
    · rintro ⟨c4, c1, c2, c3, c5⟩
      exact ⟨c1, c2, c3, c4, by rw [c4]; exact c5⟩
  · refine ⟨generate_gates_3 component bp a_gen input_gen first_selector_index,
      generate_gates_5 component5 bp5 a_gen5 input_gen5 first_selector_index5,
      by simp only [generate_gates, h], by simp only [generate_gates, h5], ?_, e5⟩
    rw [e5]
    simp only [emitted_gates, generate_gates_3, circuit.add_gate_at, circuit.add_constraint,
      h, expr.eval, var.eval, var.rel, var.resolve, List.drop_left,
      List.mem_singleton, forall_eq, List.mem_cons, forall_eq_or_imp, if_true,
      List.not_mem_nil, false_imp_iff, implies_true, and_true, Nat.cast_add, Nat.cast_one,
      add_zero, add_neg_cancel_right, Int.toNat_ofNat, toNat_row_succ, toNat_row_succ_succ,
      sub_eq_zero, Nat.succ_ne_self, reduceCtorEq, if_false, Nat.reduceEqDiff,
      layout_value, Nat.reduceMod, Nat.reduceDiv, Nat.zero_mod, Nat.zero_div]
    constructor
    · rintro ⟨c1, c2, c3, c4, c5⟩
      exact ⟨c4, c1, c2, c3.trans (mul_comm _ _), by rw [← c4]; exact c5⟩
    · rintro ⟨c4, c1, c2, c3, c5⟩
      exact ⟨c1, c2, c3.trans (mul_comm _ _), c4, by rw [c4]; exact c5⟩

/-- Witness of claim C19: the width-2 and width-5 components on a table whose witness cells
are all zero. -/
theorem layouts_encode_same_constraints_witness :
    (example_component_2.WitnessesAmount = 2 ∨ example_component_2.WitnessesAmount = 3) ∧
    example_component_5.WitnessesAmount = 5 ∧
    layout_value example_assignment example_component_5 0 0 =
      layout_value example_assignment example_component_2 0 0 ∧
    layout_value example_assignment example_component_5 0 1 =
      layout_value example_assignment example_component_2 0 1 ∧
    layout_value example_assignment example_component_5 0 2 =
      layout_value example_assignment example_component_2 0 2 ∧
    layout_value example_assignment example_component_5 0 3 =
      layout_value example_assignment example_component_2 0 3 ∧
    layout_value example_assignment example_component_5 0 4 =
      layout_value example_assignment example_component_2 0 5 ∧
    ∃ bp1 bp51,
      generate_gates example_component_2 (circuit.empty : circuit ℚ) example_assignment
        example_input 0 = some bp1 ∧
      generate_gates example_component_5 (circuit.empty : circuit ℚ) example_assignment
        example_input 0 = some bp51 ∧
      ((∀ g ∈ emitted_gates circuit.empty bp1, ∀ c ∈ g.constraints,
          c.eval example_assignment
            (0 + (if example_component_2.WitnessesAmount = 2 then 1 else 0)) = 0) ↔
        (layout_value example_assignment example_component_2 0 4 =
            layout_value example_assignment example_component_2 0 3 -
              layout_value example_assignment example_component_2 0 2 ∧
          ∀ g ∈ emitted_gates circuit.empty bp51, ∀ c ∈ g.constraints,
            c.eval example_assignment
              (0 + (if example_component_5.WitnessesAmount = 2 then 1 else 0)) = 0)) := by
  obtain ⟨bp1, bp51, h1, h2, h3, _⟩ :=
    layouts_encode_same_constraints example_component_2 example_component_5 (Or.inl rfl) rfl
      (circuit.empty : circuit ℚ) circuit.empty example_assignment example_assignment
      example_input example_input 0 0 example_assignment example_assignment 0 0
      rfl rfl rfl rfl rfl
  exact ⟨Or.inl rfl, rfl, rfl, rfl, rfl, rfl, rfl, bp1, bp51, h1, h2, h3⟩

/-- Claim C20: the emitted gate does not depend on the instance.  For a supported width and a
selector index, two runs of `generate_gates` for the same component, with any two input
variables, any two assignment tables and any two circuits, both return and append one and the
same gate (same selector index, same constraints in the same order); run on the same circuit
they give the same circuit. -/
theorem generate_gates_instance_independent [Field F] (component : logic_and_flag)
    (hW : component.WitnessesAmount = 2 ∨ component.WitnessesAmount = 3 ∨
      component.WitnessesAmount = 5)
    (first_selector_index : Nat) (bp1 bp2 : circuit F) (a1 a2 : assignment F)
    (input1 input2 : input_type) :
    ∃ (g : plonk_gate F) (r1 r2 : circuit F),
      generate_gates component bp1 a1 input1 first_selector_index = some r1 ∧
      generate_gates component bp2 a2 input2 first_selector_index = some r2 ∧
      r1.gates = bp1.gates ++ [g] ∧ r2.gates = bp2.gates ++ [g] ∧
      emitted_gates bp1 r1 = [g] ∧ emitted_gates bp2 r2 = [g] ∧
      g.selector_index = first_selector_index ∧
      (bp1 = bp2 → r1 = r2) := by
  rcases hW with h | h | h
  · exact ⟨⟨first_selector_index, _⟩,
      generate_gates_2 component bp1 a1 input1 first_selector_index,
      generate_gates_2 component bp2 a2 input2 first_selector_index,
      by simp only [generate_gates, h], by simp only [generate_gates, h], rfl, rfl,
      by simp [emitted_gates, generate_gates_2, circuit.add_gate_at, circuit.add_constraint],
      by simp [emitted_gates, generate_gates_2, circuit.add_gate_at, circuit.add_constraint],
      rfl, fun hbp => by subst hbp; rfl⟩
  · exact ⟨⟨first_selector_index, _⟩,
      generate_gates_3 component bp1 a1 input1 first_selector_index,
      generate_gates_3 component bp2 a2 input2 first_selector_index,
      by simp only [generate_gates, h], by simp only [generate_gates, h], rfl, rfl,
      by simp [emitted_gates, generate_gates_3, circuit.add_gate_at, circuit.add_constraint],
      by simp [emitted_gates, generate_gates_3, circuit.add_gate_at, circuit.add_constraint],
      rfl, fun hbp => by subst hbp; rfl⟩
  · exact ⟨⟨first_selector_index, _⟩,
      generate_gates_5 component bp1 a1 input1 first_selector_index,
      generate_gates_5 component bp2 a2 input2 first_selector_index,
      by simp only [generate_gates, h], by simp only [generate_gates, h], rfl, rfl,
      by simp [emitted_gates, generate_gates_5, circuit.add_gate_at, circuit.add_constraint],
      by simp [emitted_gates, generate_gates_5, circuit.add_gate_at, circuit.add_constraint],
      rfl, fun hbp => by subst hbp; rfl⟩

/-- Witness of claim C20: the width-5 component, two different inputs and tables. -/
theorem generate_gates_instance_independent_witness :
    (example_component_5.WitnessesAmount = 2 ∨ example_component_5.WitnessesAmount = 3 ∨
      example_component_5.WitnessesAmount = 5) ∧
    ∃ (g : plonk_gate ℚ) (r1 r2 : circuit ℚ),
      generate_gates example_component_5 circuit.empty example_assignment example_input 0 =
        some r1 ∧
      generate_gates example_component_5 circuit.empty example_satisfying example_zero_input 0 =
        some r2 ∧
      emitted_gates circuit.empty r1 = [g] ∧ emitted_gates circuit.empty r2 = [g] := by
  obtain ⟨g, r1, r2, h1, h2, _, _, h5, h6, _⟩ :=
    generate_gates_instance_independent example_component_5 (Or.inr (Or.inr rfl)) 0
      (circuit.empty : circuit ℚ) circuit.empty example_assignment example_satisfying
      example_input example_zero_input
  exact ⟨Or.inr (Or.inr rfl), g, r1, r2, h1, h2, h5, h6⟩

/-! ## The export of a proxy -/

theorem export_gate_eq_render (pr : printers F) (gates : List (plonk_gate F)) (os : ostream)
    (i : Nat) (hi : i < gates.length) :
    export_gate pr gates os i = some ((gate_report gates i).foldl (render_line pr) os) := by
  have hget : gates.get? i = some (gates.get ⟨i, hi⟩) := List.get?_eq_get hi
  simp only [export_gate, gate_report, hget, List.foldl_cons, List.foldl_map, render_line]

theorem export_copy_constraint_eq_render (pr : printers F)
    (copy_constraints : List plonk_copy_constraint) (os : ostream)
    (i : Nat) (hi : i < copy_constraints.length) :
    export_copy_constraint pr copy_constraints os i =
      some ((copy_constraint_report copy_constraints i).foldl (render_line pr) os) := by
  have hget : copy_constraints.get? i = some (copy_constraints.get ⟨i, hi⟩) :=
    List.get?_eq_get hi
  simp only [export_copy_constraint, copy_constraint_report, hget, List.foldl_cons,
    List.foldl_nil, render_line]

theorem export_gates_eq_render (pr : printers F) (gates : List (plonk_gate F))
    (l : List Nat) (hl : ∀ i ∈ l, i < gates.length) (os : ostream) :
    l.foldlM (export_gate pr gates) os =
      some ((l.flatMap (gate_report gates)).foldl (render_line pr) os) := by
  induction l generalizing os with
  | nil => rfl
  | cons i l ih =>
    have hi : i < gates.length := hl i (List.mem_cons_self i l)
    have hl1 : ∀ j ∈ l, j < gates.length := fun j hj => hl j (List.mem_cons_of_mem i hj)
    rw [List.foldlM_cons, export_gate_eq_render pr gates os i hi]
    simp only [Option.bind_eq_bind, Option.some_bind, List.flatMap_cons, List.foldl_append]
    exact ih hl1 _

theorem export_copy_constraints_eq_render (pr : printers F)
    (copy_constraints : List plonk_copy_constraint)
    (l : List Nat) (hl : ∀ i ∈ l, i < copy_constraints.length) (os : ostream) :
    l.foldlM (export_copy_constraint pr copy_constraints) os =
      some ((l.flatMap (copy_constraint_report copy_constraints)).foldl
        (render_line pr) os) := by
  induction l generalizing os with
  | nil => rfl
  | cons i l ih =>
    have hi : i < copy_constraints.length := hl i (List.mem_cons_self i l)
    have hl1 : ∀ j ∈ l, j < copy_constraints.length :=
      fun j hj => hl j (List.mem_cons_of_mem i hj)
    rw [List.foldlM_cons, export_copy_constraint_eq_render pr copy_constraints os i hi]
    simp only [Option.bind_eq_bind, Option.some_bind, List.flatMap_cons, List.foldl_append]
    exact ih hl1 _

theorem export_circuit_eq_render (pr : printers F) (P : circuit_proxy) (C : circuit F)
    (os : ostream) (hr : P.indices_in_range C) :
    P.export_circuit pr C os =
      some { (P.report C).foldl (render_line pr) os with flags := os.flags } := by
  have hg : ∀ i ∈ P.used_gates.sort (· ≤ ·), i < C.gates.length :=
    fun i hi => hr.1 i ((Finset.mem_sort _).mp hi)
  have hc : ∀ i ∈ P.used_copy_constraints.sort (· ≤ ·), i < C.copy_constraints.length :=
    fun i hi => hr.2 i ((Finset.mem_sort _).mp hi)
  simp only [circuit_proxy.export_circuit, export_gates_eq_render pr C.gates _ hg,
    export_copy_constraints_eq_render pr C.copy_constraints _ hc, circuit_proxy.report,
    List.foldl_cons, List.foldl_append, render_line, export_summary]

/-- Claim C22: for a supported width, `generate_gates` returns and adds exactly one gate, at
the end of the gate list, under the selector index passed to it; the gate has exactly 5
constraints for the widths 2 and 3 and exactly 4 constraints for the width 5. -/
theorem generate_gates_adds_one_gate [Field F] (component : logic_and_flag)
    (hW : component.WitnessesAmount = 2 ∨ component.WitnessesAmount = 3 ∨
      component.WitnessesAmount = 5)
    (bp : circuit F) (a : assignment F) (instance_input : input_type)
    (first_selector_index : Nat) :
    ∃ g : plonk_gate F,
      generate_gates component bp a instance_input first_selector_index =
        some { bp with gates := bp.gates ++ [g] } ∧
      emitted_gates bp { bp with gates := bp.gates ++ [g] } = [g] ∧
      g.selector_index = first_selector_index ∧
      (component.WitnessesAmount = 2 → g.constraints.length = 5) ∧
      (component.WitnessesAmount = 3 → g.constraints.length = 5) ∧
      (component.WitnessesAmount = 5 → g.constraints.length = 4) := by
  rcases hW with h | h | h
  · exact ⟨⟨first_selector_index, _⟩, by simp only [generate_gates, h]; rfl,
      by simp [emitted_gates], rfl, fun _ => by rfl, fun h3 => by omega, fun h5 => by omega⟩
  · exact ⟨⟨first_selector_index, _⟩, by simp only [generate_gates, h]; rfl,
      by simp [emitted_gates], rfl, fun h2 => by omega, fun _ => by rfl, fun h5 => by omega⟩
  · exact ⟨⟨first_selector_index, _⟩, by simp only [generate_gates, h]; rfl,
      by simp [emitted_gates], rfl, fun h2 => by omega, fun h3 => by omega, fun _ => by rfl⟩

/-- Witness of claim C22: the width-5 component and the selector index 3. -/
theorem generate_gates_adds_one_gate_witness :
    (example_component_5.WitnessesAmount = 2 ∨ example_component_5.WitnessesAmount = 3 ∨
      example_component_5.WitnessesAmount = 5) ∧
    ∃ g : plonk_gate ℚ,
      generate_gates example_component_5 circuit.empty example_assignment example_input 3 =
        some { (circuit.empty : circuit ℚ) with
          gates := (circuit.empty : circuit ℚ).gates ++ [g] } ∧
      g.selector_index = 3 ∧ g.constraints.length = 4 := by
  obtain ⟨g, hg, _, hsel, _, _, h5⟩ :=
    generate_gates_adds_one_gate example_component_5 (Or.inr (Or.inr rfl))
      (circuit.empty : circuit ℚ) example_assignment example_input 3
  exact ⟨Or.inr (Or.inr rfl), g, hg, hsel, h5 rfl⟩

/-- Claim C21: cache hit versus cache miss.  For a supported width and the same component,
input and start row, a run of `generate_circuit` on a table whose cache has an entry (`found`)
and a run on a table whose cache has none both return the same result variable, both append
the same two copy constraints and both add one selector activation on the same row, for the
found index and for the newly allocated index.  The hit run changes nothing else: no gate, no
cache entry, no allocation.  The miss run, besides, records the newly allocated index in the
cache, advances the allocator by one and adds the one gate `generate_gates` emits for that
index. -/
theorem generate_circuit_hit_versus_miss [Field F] (component : logic_and_flag)
    (hW : component.WitnessesAmount = 2 ∨ component.WitnessesAmount = 3 ∨
      component.WitnessesAmount = 5)
    (bp_hit bp_miss : circuit F) (a_hit a_miss : assignment F)
    (instance_input : input_type) (start_row : Nat) (found : Nat)
    (hhit : a_hit.find_selector component = some found)
    (hmiss : a_miss.find_selector component = none) :
    ∃ (g : plonk_gate F),
      generate_circuit component bp_hit a_hit instance_input start_row =
        some (result_type.of component start_row,
          { bp_hit with copy_constraints := bp_hit.copy_constraints ++
              [(var.abs (component.W 0) start_row, instance_input.x),
               (var.abs (component.W 1) start_row, instance_input.y)] },
          { a_hit with enabled := a_hit.enabled ++
              [(found, selector_row component start_row)] }) ∧
      generate_circuit component bp_miss a_miss instance_input start_row =
        some (result_type.of component start_row,
          { bp_miss with
            gates := bp_miss.gates ++ [g]
            copy_constraints := bp_miss.copy_constraints ++
              [(var.abs (component.W 0) start_row, instance_input.x),
               (var.abs (component.W 1) start_row, instance_input.y)] },
          { a_miss with
            selector_map := a_miss.selector_map ++
              [(get_component_id component, a_miss.next_selector_index)]
            next_selector_index := a_miss.next_selector_index + 1
            enabled := a_miss.enabled ++
              [(a_miss.next_selector_index, selector_row component start_row)] }) ∧
      g.selector_index = a_miss.next_selector_index ∧
      generate_gates component bp_miss
          (a_miss.allocate_selector component component.gates_amount).2 instance_input
          a_miss.next_selector_index =
        some { bp_miss with gates := bp_miss.gates ++ [g] } := by
  obtain ⟨g, hg, _, hsel, _⟩ := generate_gates_adds_one_gate component hW bp_miss
    (a_miss.allocate_selector component component.gates_amount).2 instance_input
    a_miss.next_selector_index
  refine ⟨g, ?_, ?_, hsel, hg⟩
  · rw [generate_circuit_hit component hW bp_hit a_hit instance_input start_row found hhit]
    simp [generate_copy_constraints, circuit.add_copy_constraint, assignment.enable_selector]
  · simp only [generate_circuit, hmiss, has_generate_gates_supported component hW]
    rw [show (a_miss.allocate_selector component component.gates_amount).1 =
      a_miss.next_selector_index from rfl, hg]
    simp [generate_copy_constraints, circuit.add_copy_constraint, assignment.enable_selector,
      assignment.allocate_selector, logic_and_flag.gates_amount]

/-- Witness of claim C21: the width-2 component, a table whose cache maps it to selector 5 and
a table with an empty cache. -/
theorem generate_circuit_hit_versus_miss_witness :
    (example_component_2.WitnessesAmount = 2 ∨ example_component_2.WitnessesAmount = 3 ∨
      example_component_2.WitnessesAmount = 5) ∧
    example_assignment_hit.find_selector example_component_2 = some 5 ∧
    example_assignment.find_selector example_component_2 = none ∧
    ∃ g : plonk_gate ℚ,
      g.selector_index = example_assignment.next_selector_index ∧
      generate_gates example_component_2 (circuit.empty : circuit ℚ)
          (example_assignment.allocate_selector example_component_2
            example_component_2.gates_amount).2 example_input
          example_assignment.next_selector_index =
        some { (circuit.empty : circuit ℚ) with
          gates := (circuit.empty : circuit ℚ).gates ++ [g] } := by
  have hhit : example_assignment_hit.find_selector example_component_2 = some 5 := by
    simp [assignment.find_selector, example_assignment_hit, example_component_2,
      get_component_id]
  have hmiss : example_assignment.find_selector example_component_2 = none := rfl
  obtain ⟨g, _, _, hsel, hg⟩ :=
    generate_circuit_hit_versus_miss example_component_2 (Or.inl rfl)
      (circuit.empty : circuit ℚ) circuit.empty example_assignment_hit example_assignment
      example_input 0 5 hhit hmiss
  exact ⟨Or.inl rfl, hhit, hmiss, g, hsel, hg⟩

theorem rel_var_confined (component : logic_and_flag) (start_row : Nat) (j : Nat) (rot : Int)
    (hj : j < component.WitnessesAmount) (hrot : rot = -1 ∨ rot = 0 ∨ rot = 1)
    (hlo : (start_row : Int) ≤ (selector_row component start_row : Int) + rot)
    (hhi : (selector_row component start_row : Int) + rot <
      (start_row : Int) + component.rows_amount) :
    (var.rel (component.W j) rot).confined component start_row := by
  refine ⟨rfl, rfl, ⟨j, hj, rfl⟩, hrot, ?_, ?_⟩
  · simp only [var.resolve, var.rel, if_true]; omega
  · simp only [var.resolve, var.rel, if_true]; omega

/-- Claim C25, amended: row confinement of the gate.  For a supported width and a start row
for which the 32-bit sum `start_row + (WitnessesAmount == 2 ? 1 : 0)` does not wrap,
`generate_gates` returns and emits a gate, and every variable occurring in a constraint of the
emitted gate is a relative witness variable in one of the columns
`W(0), ..., W(WitnessesAmount - 1)` with row offset -1, 0 or +1 which, on the row where
`generate_circuit` enables the selector, addresses a row from `start_row` up to, but not
including, `start_row + rows_amount`. -/
theorem generate_gates_rows_confined [Field F] (component : logic_and_flag)
    (hW : component.WitnessesAmount = 2 ∨ component.WitnessesAmount = 3 ∨
      component.WitnessesAmount = 5)
    (bp : circuit F) (a : assignment F) (instance_input : input_type)
    (first_selector_index : Nat) (start_row : Nat)
    (hrow : start_row + (if component.WitnessesAmount = 2 then 1 else 0) < 2 ^ 32) :
    ∃ bp1, generate_gates component bp a instance_input first_selector_index = some bp1 ∧
      emitted_gates bp bp1 ≠ [] ∧
      ∀ g ∈ emitted_gates bp bp1, ∀ c ∈ g.constraints, ∀ x ∈ c.vars,
        x.confined component start_row := by
  rcases hW with h | h | h
  · refine ⟨generate_gates_2 component bp a instance_input first_selector_index,
      by simp only [generate_gates, h], by simp [emitted_gates, generate_gates_2,
        circuit.add_gate_at], ?_⟩
    have hr : component.rows_amount = 3 := by simp [logic_and_flag.rows_amount, h]
    have hs : selector_row component start_row = start_row + 1 := by
      rw [selector_row_of_lt component start_row hrow, if_pos h]
    simp only [emitted_gates, generate_gates_2, circuit.add_gate_at, circuit.add_constraint,
      List.drop_left, List.mem_singleton, forall_eq, List.mem_cons, forall_eq_or_imp,
      List.not_mem_nil, false_imp_iff, implies_true, and_true, expr.vars, List.append_nil,
      List.cons_append, List.nil_append]
    refine ⟨⟨?_, ?_, ?_⟩, ⟨?_, ?_⟩, ⟨?_, ?_, ?_⟩, ⟨?_, ?_, ?_⟩, ⟨?_, ?_⟩⟩ <;>
      exact rel_var_confined component start_row _ _ (by omega) (by simp)
        (by rw [hs]; omega) (by rw [hs, hr]; omega)
  · refine ⟨generate_gates_3 component bp a instance_input first_selector_index,
      by simp only [generate_gates, h], by simp [emitted_gates, generate_gates_3,
        circuit.add_gate_at], ?_⟩
    have hr : component.rows_amount = 2 := by simp [logic_and_flag.rows_amount, h]
    have hs : selector_row component start_row = start_row := by
      rw [selector_row_of_lt component start_row hrow, if_neg (by omega), Nat.add_zero]
    simp only [emitted_gates, generate_gates_3, circuit.add_gate_at, circuit.add_constraint,
      List.drop_left, List.mem_singleton, forall_eq, List.mem_cons, forall_eq_or_imp,
      List.not_mem_nil, false_imp_iff, implies_true, and_true, expr.vars, List.append_nil,
      List.cons_append, List.nil_append]
    refine ⟨⟨?_, ?_, ?_⟩, ⟨?_, ?_⟩, ⟨?_, ?_, ?_⟩, ⟨?_, ?_, ?_⟩, ⟨?_, ?_⟩⟩ <;>
      exact rel_var_confined component start_row _ _ (by omega) (by simp)
        (by rw [hs]; omega) (by rw [hs, hr]; omega)
  · refine ⟨generate_gates_5 component bp a instance_input first_selector_index,
      by simp only [generate_gates, h], by simp [emitted_gates, generate_gates_5,
        circuit.add_gate_at], ?_⟩
    have hr : component.rows_amount = 1 := by simp [logic_and_flag.rows_amount, h]
    have hs : selector_row component start_row = start_row := by
      rw [selector_row_of_lt component start_row hrow, if_neg (by omega), Nat.add_zero]
    simp only [emitted_gates, generate_gates_5, circuit.add_gate_at, circuit.add_constraint,
      List.drop_left, List.mem_singleton, forall_eq, List.mem_cons, forall_eq_or_imp,
      List.not_mem_nil, false_imp_iff, implies_true, and_true, expr.vars, List.append_nil,
      List.cons_append, List.nil_append]
    refine ⟨⟨?_, ?_, ?_⟩, ⟨?_, ?_⟩, ⟨?_, ?_, ?_⟩, ⟨?_, ?_, ?_⟩⟩ <;>
      exact rel_var_confined component start_row _ _ (by omega) (by simp)
        (by rw [hs]; omega) (by rw [hs, hr]; omega)

/-- Witness of claim C25: the width-2 component at start row 4. -/
theorem generate_gates_rows_confined_witness :
    (example_component_2.WitnessesAmount = 2 ∨ example_component_2.WitnessesAmount = 3 ∨
      example_component_2.WitnessesAmount = 5) ∧
    4 + (if example_component_2.WitnessesAmount = 2 then 1 else 0) < 2 ^ 32 ∧
    ∃ bp1, generate_gates example_component_2 (circuit.empty : circuit ℚ) example_assignment
        example_input 0 = some bp1 ∧
      emitted_gates circuit.empty bp1 ≠ [] ∧
      ∀ g ∈ emitted_gates circuit.empty bp1, ∀ c ∈ g.constraints, ∀ x ∈ c.vars,
        x.confined example_component_2 4 :=
  ⟨Or.inl rfl, by decide,
    generate_gates_rows_confined example_component_2 (Or.inl rfl) circuit.empty
      example_assignment example_input 0 4 (by decide)⟩

/-- Counterexample to claim C25 as stated: for the width-2 component at the start row
2^32 - 1 the selector is enabled on row 0, and the variable `var(W(0), 0)` of the first
constraint of the emitted gate addresses row 0 there, which is below `start_row`. -/
theorem gate_variable_leaves_region_on_wrapped_row :
    example_last_row < 2 ^ 32 ∧
    generate_gates example_component_2 (circuit.empty : circuit ℚ) example_assignment
        example_input 0 =
      some (generate_gates_2 example_component_2 circuit.empty example_assignment
        example_input 0) ∧
    ∃ g ∈ emitted_gates (circuit.empty : circuit ℚ)
        (generate_gates_2 example_component_2 circuit.empty example_assignment example_input 0),
      ∃ c ∈ g.constraints, ∃ x ∈ c.vars,
        x.resolve (selector_row example_component_2 example_last_row) = 0 ∧
        ¬ x.confined example_component_2 example_last_row := by
  have hs : selector_row example_component_2 example_last_row = 0 := by decide
  refine ⟨by decide, rfl, _, List.mem_singleton_self _, _, List.mem_cons_self _ _,
    var.rel 0 0, by simp [expr.vars, circuit.add_constraint, example_component_2], ?_, ?_⟩
  · rw [hs]; rfl
  · rintro ⟨_, _, _, _, hlo, _⟩
    rw [hs] at hlo
    simp [var.resolve, var.rel, example_last_row] at hlo

/-! ## The logic-AND-flag gadget: frame and safety of `generate_assignments` -/

theorem foldlM_invariant {α β : Type} (f : β → α → Option β) (Inv : β → Prop)
    (l : List α) (hstep : ∀ x ∈ l, ∀ b, Inv b → ∃ b1, f b x = some b1 ∧ Inv b1)
    (b : β) (hb : Inv b) : ∃ b1, l.foldlM f b = some b1 ∧ Inv b1 := by
  induction l generalizing b with
  | nil => exact ⟨b, rfl, hb⟩
  | cons x l ih =>
    obtain ⟨b1, hf, hb1⟩ := hstep x (List.mem_cons_self x l) b hb
    obtain ⟨b2, hfold, hb2⟩ := ih (fun y hy => hstep y (List.mem_cons_of_mem x hy)) b1 hb1
    exact ⟨b2, by rw [List.foldlM_cons, hf]; exact hfold, hb2⟩

theorem frame_refl (component : logic_and_flag) (start_row : Nat) (a : assignment F) :
    assignment.frame component start_row a a :=
  ⟨fun _ _ _ => rfl, rfl, rfl, rfl, rfl, rfl⟩

theorem frame_set_witness [DecidableEq F] (component : logic_and_flag) (start_row : Nat)
    (a a1 : assignment F) (h : assignment.frame component start_row a a1)
    (i j : Nat) (hi : i < component.rows_amount) (hj : j < component.WitnessesAmount)
    (val : F) :
    assignment.frame component start_row a
      (a1.set_witness (component.W j) (start_row + i) val) := by
  obtain ⟨hw, hp, hc, hm, hn, he⟩ := h
  refine ⟨?_, hp, hc, hm, hn, he⟩
  intro col row hout
  have hne : ¬ (col = component.W j ∧ row = start_row + i) :=
    fun hcell => hout ⟨i, j, hi, hj, hcell.1, hcell.2⟩
  simp only [assignment.set_witness, if_neg hne]
  exact hw col row hout

theorem packed_index_bound (component : logic_and_flag) (i j : Nat)
    (hi : i < component.rows_amount) (hj : j < component.WitnessesAmount) :
    i * component.WitnessesAmount + j < 6 := by
  have h1 : component.rows_amount * component.WitnessesAmount ≤ 6 :=
    Nat.div_mul_le_self 6 component.WitnessesAmount
  have h2 : (i + 1) * component.WitnessesAmount ≤
      component.rows_amount * component.WitnessesAmount :=
    Nat.mul_le_mul_right _ hi
  have h3 : (i + 1) * component.WitnessesAmount =
      i * component.WitnessesAmount + component.WitnessesAmount := by ring
  omega

theorem fill_rows_frame [DecidableEq F] (component : logic_and_flag) (t : List F)
    (ht : t.length = 6) (start_row : Nat) (a : assignment F) :
    ∃ a1, fill_rows component t start_row a = some a1 ∧
      assignment.frame component start_row a a1 := by
  unfold fill_rows
  apply foldlM_invariant _ (assignment.frame component start_row a) _ _ a
    (frame_refl component start_row a)
  intro i hi b hb
  have hi1 : i < component.rows_amount := List.mem_range.mp hi
  apply foldlM_invariant _ (assignment.frame component start_row a) _ _ b hb
  intro j hj b1 hb1
  have hj1 : j < component.WitnessesAmount := List.mem_range.mp hj
  have hidx : i * component.WitnessesAmount + j < t.length := by
    rw [ht]; exact packed_index_bound component i j hi1 hj1
  refine ⟨b1.set_witness (component.W j) (start_row + i) (t.get ⟨_, hidx⟩), ?_,
    frame_set_witness component start_row a b1 hb1 i j hi1 hj1 _⟩
  rw [List.get?_eq_get hidx]
  rfl

theorem generate_assignments_frame [Field F] [DecidableEq F] (component : logic_and_flag)
    (h1 : 1 ≤ component.WitnessesAmount) (h6 : component.WitnessesAmount ≤ 6)
    (a : assignment F) (instance_input : input_type) (start_row : Nat) :
    ∃ a1, generate_assignments component a instance_input start_row =
        some (result_type.of component start_row, a1) ∧
      assignment.frame component start_row a a1 := by
  have hr : 1 ≤ component.rows_amount :=
    (Nat.le_div_iff_mul_le (by omega)).mpr (by omega)
  obtain ⟨a0, hfill, hframe⟩ := fill_rows_frame component
    (packed_values (var_value a instance_input.x) (var_value a instance_input.y))
    (by simp [packed_values]) start_row a
  have hlast := frame_set_witness component start_row a a0 hframe
    (component.rows_amount - 1) (component.WitnessesAmount - 1) (by omega) (by omega)
  have hrow : start_row + (component.rows_amount - 1) =
      start_row + component.rows_amount - 1 := by omega
  rw [hrow] at hlast
  have h0 : component.WitnessesAmount ≠ 0 := by omega
  have hr0 : component.rows_amount ≠ 0 := by omega
  refine ⟨_, ?_, hlast (if var_value a instance_input.x ≠ 0 ∧ var_value a instance_input.y ≠ 0
    then 1 else 0)⟩
  simp only [generate_assignments, h0, hr0, if_false, hfill, packed_values_flag]

/-- Claim C23, amended: frame of `generate_assignments`.  For every width from 1 to 6 the call
returns, and the table it returns differs from the table at entry only in witness cells
`(W(j), start_row + i)` with `j < WitnessesAmount` and `i < rows_amount`: every other witness
cell, the public-input and constant columns, the selector cache, the selector allocator and the
selector activations are unchanged.  The value of any variable that is not a witness cell of
that region is the same after the call as before; in particular the cell of `input.x` and the
cell of `input.y` keep their values whenever they are not witness cells of that region.  The
function takes no circuit. -/
theorem generate_assignments_writes_only_region [Field F] [DecidableEq F]
    (component : logic_and_flag)
    (h1 : 1 ≤ component.WitnessesAmount) (h6 : component.WitnessesAmount ≤ 6)
    (a : assignment F) (instance_input : input_type) (start_row : Nat) :
    ∃ a1, generate_assignments component a instance_input start_row =
        some (result_type.of component start_row, a1) ∧
      (∀ col row, ¬ component.in_region start_row col row →
        a1.witness col row = a.witness col row) ∧
      a1.public_input = a.public_input ∧ a1.constant = a.constant ∧
      a1.selector_map = a.selector_map ∧ a1.next_selector_index = a.next_selector_index ∧
      a1.enabled = a.enabled ∧
      (∀ x : var, (x.type ≠ column_type.witness ∨
          ¬ component.in_region start_row x.index x.rotation.toNat) →
        var_value a1 x = var_value a x) ∧
      ((instance_input.x.type ≠ column_type.witness ∨
          ¬ component.in_region start_row instance_input.x.index
            instance_input.x.rotation.toNat) →
        var_value a1 instance_input.x = var_value a instance_input.x) ∧
      ((instance_input.y.type ≠ column_type.witness ∨
          ¬ component.in_region start_row instance_input.y.index
            instance_input.y.rotation.toNat) →
        var_value a1 instance_input.y = var_value a instance_input.y) := by
  obtain ⟨a1, hgen, hw, hp, hc, hm, hn, he⟩ :=
    generate_assignments_frame component h1 h6 a instance_input start_row
  have hvar : ∀ x : var, (x.type ≠ column_type.witness ∨
      ¬ component.in_region start_row x.index x.rotation.toNat) →
      var_value a1 x = var_value a x := by
    intro x hx
    cases hty : x.type with
    | witness =>
      rcases hx with hne | hout
      · exact absurd hty hne
      · simp only [var_value, hty]
        exact hw _ _ hout
    | public_input => simp only [var_value, hty, hp]
    | constant => simp only [var_value, hty, hc]
    | selector => simp only [var_value, hty, hc]
  exact ⟨a1, hgen, hw, hp, hc, hm, hn, he, hvar, hvar instance_input.x, hvar instance_input.y⟩

/-- Witness of claim C23: the width-2 component on the inputs 2 and 3 at start row 1. -/
theorem generate_assignments_writes_only_region_witness :
    1 ≤ example_component_2.WitnessesAmount ∧ example_component_2.WitnessesAmount ≤ 6 ∧
    ∃ a1, generate_assignments example_component_2 example_assignment example_input 1 =
        some (result_type.of example_component_2 1, a1) ∧
      (∀ col row, ¬ example_component_2.in_region 1 col row →
        a1.witness col row = example_assignment.witness col row) ∧
      a1.enabled = example_assignment.enabled := by
  obtain ⟨a1, hgen, hw, _, _, _, _, he, _⟩ :=
    generate_assignments_writes_only_region example_component_2 (by decide) (by decide)
      example_assignment example_input 1
  exact ⟨by decide, by decide, a1, hgen, hw, he⟩

/-- Counterexample to claim C23 as stated: for the width-2 component at start row 1 with
`input.y` the witness cell of column 1 on row 3, which is the cell `(W(1), start_row + 2)` of
the written region, the input cell holds 5 before the call and `f = 1` after it: the cell
holding an input is written, not only read. -/
theorem input_cell_in_region_is_overwritten :
    1 ≤ example_component_2.WitnessesAmount ∧ example_component_2.WitnessesAmount ≤ 6 ∧
    example_input_overlap.y.type = column_type.witness ∧
    example_component_2.in_region 1 example_input_overlap.y.index
      example_input_overlap.y.rotation.toNat ∧
    var_value example_assignment_overlap example_input_overlap.y = 5 ∧
    ∃ a1, generate_assignments example_component_2 example_assignment_overlap
        example_input_overlap 1 = some (result_type.of example_component_2 1, a1) ∧
      var_value a1 example_input_overlap.y = 1 ∧
      var_value a1 example_input_overlap.y ≠
        var_value example_assignment_overlap example_input_overlap.y := by
  have h5 : var_value example_assignment_overlap example_input_overlap.y = 5 := by
    simp [var_value, example_assignment_overlap, example_input_overlap]
  have h1 : var_value (((((((example_assignment_overlap.set_witness 0 1 2).set_witness
      1 1 5).set_witness 0 (1 + 1) 10).set_witness 1 (1 + 1) (1 / 10)).set_witness
      0 (1 + 2) (-99 / 10)).set_witness 1 (1 + 2) 1).set_witness 1 (1 + 2) 1)
      example_input_overlap.y = 1 := by
    simp [var_value, assignment.set_witness, example_input_overlap]
  refine ⟨by decide, by decide, rfl, ⟨2, 1, by decide, by decide, rfl, rfl⟩, h5, _,
    generate_assignments_eq_2 example_component_2 rfl example_assignment_overlap
      example_input_overlap 1 2 5 10 (1 / 10) (-99 / 10) 1 ?_, h1, ?_⟩
  · simp [packed_values, var_value, example_assignment_overlap, example_assignment,
      example_input_overlap]
    norm_num
  · rw [h5]
    have : (1 : ℚ) ≠ 5 := by norm_num
    exact h1 ▸ this

/-- Claim C24: safety of `generate_assignments` as a function of the width.  For a width of at
least 1: the divisor of `6 / rows_amount` is non-zero, every index `i * W + j` used to read
the six-element array `t` is below 6, and the row `start_row + rows_amount - 1` of the final
write is not below `start_row`, all three together, if and only if the width is at most 6.  For
a width of at most 6 the call returns; for a width of 7 or more `rows_amount` is 0 and the call
has no value, the offset computation dividing by zero. -/
theorem generate_assignments_safe_iff [Field F] [DecidableEq F] (component : logic_and_flag)
    (h1 : 1 ≤ component.WitnessesAmount) (start_row : Nat) :
    ((component.rows_amount ≠ 0 ∧
        (∀ i j, i < component.rows_amount → j < component.WitnessesAmount →
          i * component.WitnessesAmount + j < 6) ∧
        (start_row : Int) ≤ (start_row : Int) + (component.rows_amount : Int) - 1) ↔
      component.WitnessesAmount ≤ 6) ∧
    (component.WitnessesAmount ≤ 6 →
      ∀ (a : assignment F) (instance_input : input_type),
        ∃ a1, generate_assignments component a instance_input start_row =
          some (result_type.of component start_row, a1)) ∧
    (7 ≤ component.WitnessesAmount →
      component.rows_amount = 0 ∧
      ∀ (a : assignment F) (instance_input : input_type),
        generate_assignments component a instance_input start_row = none) := by
  have hrows : component.rows_amount ≠ 0 ↔ component.WitnessesAmount ≤ 6 := by
    constructor
    · intro hr
      by_contra hgt
      exact hr (Nat.div_eq_of_lt (by omega))
    · intro h6
      have : 1 ≤ component.rows_amount := (Nat.le_div_iff_mul_le (by omega)).mpr (by omega)
      exact fun h0 => by rw [logic_and_flag.rows_amount] at h0 this; omega
  refine ⟨⟨fun h => hrows.mp h.1, fun h6 => ⟨hrows.mpr h6,
    fun i j hi hj => packed_index_bound component i j hi hj, ?_⟩⟩, ?_, ?_⟩
  · have := hrows.mpr h6
    omega
  · intro h6 a instance_input
    obtain ⟨a1, hgen, _⟩ :=
      generate_assignments_frame component h1 h6 a instance_input start_row
    exact ⟨a1, hgen⟩
  · intro h7
    have hr0 : component.rows_amount = 0 := Nat.div_eq_of_lt (by omega)
    refine ⟨hr0, fun a instance_input => ?_⟩
    have h0 : component.WitnessesAmount ≠ 0 := by omega
    simp only [generate_assignments, h0, hr0, if_false, if_true]

/-- Witness of claim C24: the width-2 component at start row 1. -/
theorem generate_assignments_safe_iff_witness :
    1 ≤ example_component_2.WitnessesAmount ∧
    ((example_component_2.rows_amount ≠ 0 ∧
        (∀ i j, i < example_component_2.rows_amount →
          j < example_component_2.WitnessesAmount →
          i * example_component_2.WitnessesAmount + j < 6) ∧
        ((1 : Nat) : Int) ≤ ((1 : Nat) : Int) + (example_component_2.rows_amount : Int) - 1) ↔
      example_component_2.WitnessesAmount ≤ 6) :=
  ⟨by decide,
    (generate_assignments_safe_iff (F := ℚ) example_component_2 (by decide) 1).1⟩

/-! ## The circuit proxy: selector index and position, summary line, frame of the sets -/

theorem mixed_events_proxy :
    ((system.init id : system ℚ).run example_mixed_events).proxies 0 =
      { id := 0, used_gates := {1}, used_copy_constraints := ∅, used_lookup_gates := ∅,
        used_lookup_tables := ∅ } := by
  simp [system.run, system.next, system.step, system.init, example_mixed_events,
    circuit_proxy.apply, circuit.apply, circuit_proxy.add_gate, circuit.add_gate,
    circuit.add_lookup_gate, circuit.empty, circuit_proxy.new]

theorem mixed_events_in_range :
    circuit_proxy.indices_in_range
      { id := 0, used_gates := {1}, used_copy_constraints := ∅, used_lookup_gates := ∅,
        used_lookup_tables := ∅ }
      ((system.init id : system ℚ).run example_mixed_events).C := by
  constructor
  · intro i hi
    rw [Finset.mem_singleton.mp hi]
    exact (by decide : 1 < 2)
  · intro i hi
    exact absurd hi (Finset.not_mem_empty i)

/-- Claim C26, evaluated on the failing input: a lookup gate is added directly on an empty
circuit, then a gate through proxy 0, then a gate directly on the circuit.  The proxy has
recorded the selector index 1; the gate list holds the gates with the selector indices 1 and
2, so the gate at position 1 has the selector index 2, and the gate header line that
`export_circuit` writes for the used index 1 reads `1: selector: 2 constraints_size: 1`. -/
theorem selector_index_is_not_position :
    (((system.init id : system ℚ).run example_mixed_events).proxies 0).used_gates = {1} ∧
    ((system.init id : system ℚ).run example_mixed_events).C.gates =
      [{ selector_index := 1, constraints := [example_constraint] },
       { selector_index := 2, constraints := [example_constraint] }] ∧
    (((system.init id : system ℚ).run example_mixed_events).C.gates.get? 1).map
      (fun g => g.selector_index) = some 2 ∧
    (((system.init id : system ℚ).run example_mixed_events).proxies 0).export_circuit
        example_printers ((system.init id : system ℚ).run example_mixed_events).C
        example_sink =
      some { text := "used_gates_size: 1 gates_size: 2 used_copy_constraints_size: 0 " ++
          "copy_constraints_size: 0 lookup_gates_size: 0\n" ++
          "1: selector: 2 constraints_size: 1\nc\n", flags := 7 } := by
  have hC : ((system.init id : system ℚ).run example_mixed_events).C.gates =
      [{ selector_index := 1, constraints := [example_constraint] },
       { selector_index := 2, constraints := [example_constraint] }] := rfl
  refine ⟨by rw [mixed_events_proxy], hC, by rw [hC]; rfl, ?_⟩
  rw [mixed_events_proxy, export_circuit_eq_render _ _ _ _ mixed_events_in_range]
  simp only [circuit_proxy.report, Finset.sort_singleton, Finset.sort_empty,
    List.flatMap_cons, List.flatMap_nil, List.append_nil, Finset.card_singleton,
    Finset.card_empty]
  rfl

theorem export_summary_text (pr : printers F) (P : circuit_proxy) (C : circuit F)
    (os : ostream) :
    export_summary pr P C os =
      { text := os.text ++ summary_text pr os.flags P.used_gates.card C.gates.length
          P.used_copy_constraints.card C.copy_constraints.length P.used_lookup_gates.card,
        flags := os.flags } := by
  simp only [export_summary, summary_text, ostream.str, ostream.num, String.append_assoc]

theorem foldlM_text_extends {α : Type} (f : ostream → α → Option ostream)
    (hf : ∀ o x o1, f o x = some o1 → ∃ r, o1.text = o.text ++ r)
    (l : List α) (o o1 : ostream) (h : l.foldlM f o = some o1) :
    ∃ r, o1.text = o.text ++ r := by
  induction l generalizing o with
  | nil =>
    simp only [List.foldlM_nil, Option.pure_def, Option.some.injEq] at h
    exact ⟨"", by rw [← h, String.append_empty]⟩
  | cons x l ih =>
    rw [List.foldlM_cons] at h
    cases hx : f o x with
    | none => rw [hx] at h; exact absurd h (by simp)
    | some o2 =>
      rw [hx] at h
      obtain ⟨r1, h1⟩ := hf o x o2 hx
      obtain ⟨r2, h2⟩ := ih o2 h
      exact ⟨r1 ++ r2, by rw [h2, h1, String.append_assoc]⟩

theorem constraints_text_extends (pr : printers F) (cs : List (plonk_constraint F))
    (o : ostream) :
    ∃ r, (cs.foldl (fun o c => (o.constraint pr c).str "\n") o).text = o.text ++ r := by
  induction cs generalizing o with
  | nil => exact ⟨"", (String.append_empty _).symm⟩
  | cons c cs ih =>
    obtain ⟨r, hr⟩ := ih ((o.constraint pr c).str "\n")
    refine ⟨(pr.put_constraint o.flags c).1 ++ "\n" ++ r, ?_⟩
    rw [List.foldl_cons, hr]
    simp only [ostream.str, ostream.constraint, String.append_assoc]

theorem export_gate_text_extends (pr : printers F) (gates : List (plonk_gate F))
    (o : ostream) (i : Nat) (o1 : ostream) (h : export_gate pr gates o i = some o1) :
    ∃ r, o1.text = o.text ++ r := by
  unfold export_gate at h
  cases hg : gates.get? i with
  | none => rw [hg] at h; exact absurd h (by simp)
  | some g =>
    rw [hg] at h
    simp only [Option.some.injEq] at h
    obtain ⟨r, hr⟩ := constraints_text_extends pr g.constraints
      ((((((o.num pr i).str ": selector: ").num pr g.selector_index).str
        " constraints_size: ").num pr g.constraints.length).str "\n")
    refine ⟨pr.put_num o.flags i ++ ": selector: " ++ pr.put_num o.flags g.selector_index ++
      " constraints_size: " ++ pr.put_num o.flags g.constraints.length ++ "\n" ++ r, ?_⟩
    rw [← h, hr]
    simp only [ostream.str, ostream.num, String.append_assoc]

theorem export_copy_constraint_text_extends (pr : printers F)
    (copy_constraints : List plonk_copy_constraint)
    (o : ostream) (i : Nat) (o1 : ostream)
    (h : export_copy_constraint pr copy_constraints o i = some o1) :
    ∃ r, o1.text = o.text ++ r := by
  unfold export_copy_constraint at h
  cases hg : copy_constraints.get? i with
  | none => rw [hg] at h; exact absurd h (by simp)
  | some cc =>
    rw [hg] at h
    simp only [Option.some.injEq] at h
    refine ⟨pr.put_num o.flags i ++ ": " ++ (pr.put_var o.flags cc.1).1 ++ " " ++
      (pr.put_var (pr.put_var o.flags cc.1).2 cc.2).1 ++ "\n", ?_⟩
    rw [← h]
    simp only [ostream.str, ostream.num, ostream.variable_, String.append_assoc]

/-- Claim C27: the summary line that `export_circuit` writes first, in every state of the
proxy and the circuit.  The number after `lookup_gates_size:` is the size of the proxy's
`used_lookup_gates` set, the numbers after `gates_size:` and `copy_constraints_size:` are the
sizes of the gate list and of the copy-constraint list of the underlying circuit, and the
numbers after `used_gates_size:` and `used_copy_constraints_size:` are the sizes of the proxy's
sets.  Every text `export_circuit` returns starts with that line.  The lookup gates of the
underlying circuit do not enter: replacing them by any other list leaves the summary line and
the export the same, while replacing the proxy's `used_lookup_gates` by a set `U` makes the
number the size of `U`. -/
theorem export_circuit_summary_counts (pr : printers F) (P : circuit_proxy) (C : circuit F)
    (os : ostream) :
    export_summary pr P C os =
      { text := os.text ++ summary_text pr os.flags P.used_gates.card C.gates.length
          P.used_copy_constraints.card C.copy_constraints.length P.used_lookup_gates.card,
        flags := os.flags } ∧
    (∀ out, P.export_circuit pr C os = some out →
      ∃ rest : String,
        out.text = os.text ++ summary_text pr os.flags P.used_gates.card C.gates.length
          P.used_copy_constraints.card C.copy_constraints.length P.used_lookup_gates.card ++
            rest) ∧
    (∀ L : List (plonk_lookup_gate F),
      export_summary pr P { C with lookup_gates := L } os = export_summary pr P C os ∧
      P.export_circuit pr { C with lookup_gates := L } os = P.export_circuit pr C os) ∧
    (∀ U : Finset Nat,
      export_summary pr { P with used_lookup_gates := U } C os =
        { text := os.text ++ summary_text pr os.flags P.used_gates.card C.gates.length
            P.used_copy_constraints.card C.copy_constraints.length U.card,
          flags := os.flags }) := by
  refine ⟨export_summary_text pr P C os, ?_, fun L => ⟨rfl, rfl⟩,
    fun U => export_summary_text pr { P with used_lookup_gates := U } C os⟩
  intro out hout
  unfold circuit_proxy.export_circuit at hout
  cases h2 : (P.used_gates.sort (· ≤ ·)).foldlM (export_gate pr C.gates)
      (export_summary pr P C os) with
  | none => simp only [h2] at hout; exact absurd hout (by simp)
  | some os2 =>
    simp only [h2] at hout
    cases h3 : (P.used_copy_constraints.sort (· ≤ ·)).foldlM
        (export_copy_constraint pr C.copy_constraints) os2 with
    | none => simp only [h3] at hout; exact absurd hout (by simp)
    | some os3 =>
      simp only [h3, Option.some.injEq] at hout
      obtain ⟨r2, hr2⟩ := foldlM_text_extends _ (export_gate_text_extends pr C.gates) _ _ _ h2
      obtain ⟨r3, hr3⟩ := foldlM_text_extends _
        (export_copy_constraint_text_extends pr C.copy_constraints) _ _ _ h3
      refine ⟨r2 ++ r3, ?_⟩
      rw [← hout]
      simp only [hr3, hr2, export_summary_text, String.append_assoc]

/-- Witness of claim C27: a proxy that recorded one lookup gate over a circuit with three
lookup gates; the summary line ends with `lookup_gates_size: 1`. -/
theorem export_circuit_summary_counts_witness :
    example_circuit_lookup.lookup_gates.length = 3 ∧
    example_proxy_lookup.used_lookup_gates.card = 1 ∧
    export_summary example_printers example_proxy_lookup example_circuit_lookup example_sink =
      { text := "used_gates_size: 0 gates_size: 0 used_copy_constraints_size: 0 " ++
          "copy_constraints_size: 0 lookup_gates_size: 1\n", flags := 7 } := by
  refine ⟨rfl, rfl, ?_⟩
  rw [(export_circuit_summary_counts example_printers example_proxy_lookup
    example_circuit_lookup example_sink).1]
  simp only [example_proxy_lookup, example_circuit_lookup, Finset.card_empty,
    Finset.card_singleton, List.length_nil]
  rfl

theorem proxy_apply_frame (P : circuit_proxy) (C : circuit F) (c : call F) :
    (P.apply C c).1.id = P.id ∧
    P.used_gates ⊆ (P.apply C c).1.used_gates ∧
    P.used_copy_constraints ⊆ (P.apply C c).1.used_copy_constraints ∧
    P.used_lookup_gates ⊆ (P.apply C c).1.used_lookup_gates ∧
    (P.apply C c).1.used_lookup_tables = P.used_lookup_tables ∧
    (c.is_add_gate = false → (P.apply C c).1.used_gates = P.used_gates) ∧
    (c.is_add_copy_constraint = false →
      (P.apply C c).1.used_copy_constraints = P.used_copy_constraints) ∧
    (c.is_add_lookup_gate = false →
      (P.apply C c).1.used_lookup_gates = P.used_lookup_gates) := by
  cases c <;>
    simp [circuit_proxy.apply, circuit_proxy.add_gate, circuit_proxy.add_gate_single,
      circuit_proxy.add_gate_init, circuit_proxy.add_lookup_gate,
      circuit_proxy.add_lookup_gate_single, circuit_proxy.add_lookup_gate_init,
      circuit_proxy.register_lookup_table, circuit_proxy.reserve_table,
      add_copy_constraint_eq, call.is_add_gate, call.is_add_copy_constraint,
      call.is_add_lookup_gate]

theorem system_next_tables (ids : Nat → Nat) (s : system F) (e : event F)
    (hs : ∀ h, (s.proxies h).used_lookup_tables = ∅ ∧ (s.proxies h).id = ids h) :
    ∀ h, ((s.next e).proxies h).used_lookup_tables = ∅ ∧ ((s.next e).proxies h).id = ids h := by
  intro h
  cases e with
  | direct c => exact hs h
  | via h1 c =>
    by_cases hh : h = h1
    · subst hh
      have hf := proxy_apply_frame (s.proxies h) s.C c
      simp only [system.next, system.step, Function.update_same]
      exact ⟨by rw [hf.2.2.2.2.1]; exact (hs h).1, by rw [hf.1]; exact (hs h).2⟩
    · simp only [system.next, system.step, Function.update_noteq hh]
      exact hs h

theorem system_run_tables (ids : Nat → Nat) (events : List (event F)) (s : system F)
    (hs : ∀ h, (s.proxies h).used_lookup_tables = ∅ ∧ (s.proxies h).id = ids h) :
    ∀ h, ((s.run events).proxies h).used_lookup_tables = ∅ ∧
      ((s.run events).proxies h).id = ids h := by
  induction events generalizing s with
  | nil => exact hs
  | cons e es ih => exact ih (s.next e) (system_next_tables ids s e hs)

/-- Claim C28: frame between the private sets of a proxy.  A call through a proxy never
changes its id and never removes an element from any of its four sets; `used_gates` changes
only under `add_gate`, `used_copy_constraints` only under `add_copy_constraint`,
`used_lookup_gates` only under `add_lookup_gate`, and `used_lookup_tables` under no call at
all, `register_lookup_table`, `reserve_table` and the accessors included.  In every state
reached from the initial system by calls through proxies and directly on the circuit, every
proxy has an empty `used_lookup_tables` and the id it was constructed with. -/
theorem proxy_sets_frame (P : circuit_proxy) (C : circuit F) (c : call F)
    (ids : Nat → Nat) (events : List (event F)) (h : Nat) :
    ((P.apply C c).1.id = P.id ∧
      P.used_gates ⊆ (P.apply C c).1.used_gates ∧
      P.used_copy_constraints ⊆ (P.apply C c).1.used_copy_constraints ∧
      P.used_lookup_gates ⊆ (P.apply C c).1.used_lookup_gates ∧
      (P.apply C c).1.used_lookup_tables = P.used_lookup_tables ∧
      (c.is_add_gate = false → (P.apply C c).1.used_gates = P.used_gates) ∧
      (c.is_add_copy_constraint = false →
        (P.apply C c).1.used_copy_constraints = P.used_copy_constraints) ∧
      (c.is_add_lookup_gate = false →
        (P.apply C c).1.used_lookup_gates = P.used_lookup_gates)) ∧
    (((system.init ids : system F).run events).proxies h).used_lookup_tables = ∅ ∧
    (((system.init ids : system F).run events).proxies h).id = ids h := by
  refine ⟨proxy_apply_frame P C c, ?_⟩
  exact system_run_tables ids events (system.init ids) (fun _ => ⟨rfl, rfl⟩) h

end nil.blueprint
